import Mathlib

/-! Pinos server core: data loop (invoke ring, poll set) and daemon graph policy.

A shallow embedding of `pinos/server/data-loop.c` and `pinos/server/daemon.c`.

* Machine integers are natural numbers; `size_t` sums are reduced modulo `2^64`.
* Process memory is a map from addresses to bytes.  The invoke ring lives in it at
  `buffer_data`; records are laid out as the LP64 little-endian image of `InvokeItem`.
* Code reached through a function pointer is resolved by an environment; every call the
  embedded function makes itself is also recorded in its list of effects.
* The arrays `poll`, `idx` and `fds` of the data loop are maps from indices; their capacities
  are not part of the state.
-/

namespace Pinos

/-! ## Result codes (spa/defs.h) -/

/-- A `SpaResult` is a C `int`. -/
abbrev SpaResult := Int

/-- Modelled from the spec: `SPA_RESULT_OK` of spa/defs.h, which is not among the sources. -/
def SPA_RESULT_OK : SpaResult := 0

/-- Modelled from the spec: `SPA_RESULT_ERROR` of spa/defs.h, which is not among the
sources; the generic error code. -/
def SPA_RESULT_ERROR : SpaResult := -1

/-- Modelled from the spec: `SPA_RESULT_IS_ERROR` of spa/defs.h, which is not among the
sources; error results are the negative ones. -/
def SPA_RESULT_IS_ERROR (res : SpaResult) : Bool := decide (res < 0)

/-- Modelled from the spec: `SPA_ID_INVALID` of spa/defs.h, which is not among the
sources; the all-ones 32-bit id. -/
def SPA_ID_INVALID : Nat := 0xffffffff

/-- Modelled from the spec: `SPA_RESULT_ASYNC` of spa/defs.h, which is not among the
sources; the bit that marks an asynchronous result. -/
def SPA_RESULT_ASYNC : Nat := 2 ^ 30

/-- Modelled from the spec: `SPA_RESULT_RETURN_ASYNC(seq)` of spa/defs.h, which is not among
the sources; the async bit together with the sequence number below it. -/
def SPA_RESULT_RETURN_ASYNC (seq : Nat) : SpaResult :=
  ((SPA_RESULT_ASYNC ||| (seq &&& (SPA_RESULT_ASYNC - 1)) : Nat) : Int)

/-! ## Ring buffer (spa/ringbuffer.h) -/

/-- Modelled from the spec: `SpaRingbuffer` of spa/include/spa/ringbuffer.h, which is not
among the sources; the indices of a single-producer/single-consumer byte ring. -/
structure SpaRingbuffer where
  readindex : Nat
  writeindex : Nat
  size : Nat
  deriving DecidableEq, Repr

/-- Modelled from the spec: `SpaRingbufferArea` of spa/include/spa/ringbuffer.h, which is not
among the sources; an offset into the ring and a length. -/
structure SpaRingbufferArea where
  offset : Nat
  len : Nat
  deriving DecidableEq, Repr

/-- Modelled from the spec: `spa_ringbuffer_init` of spa/include/spa/ringbuffer.h, which is not
among the sources; an empty ring has equal read and write index. -/
def spa_ringbuffer_init (size : Nat) : SpaRingbuffer :=
  { readindex := 0, writeindex := 0, size := size }

/-- Modelled from the spec: `spa_ringbuffer_get_write_areas` of spa/include/spa/ringbuffer.h,
which is not among the sources; the contiguous write area at the write index and the
secondary wrap area at offset 0.  One byte stays free, so that a full ring differs from an
empty one. -/
def spa_ringbuffer_get_write_areas (rbuf : SpaRingbuffer) :
    SpaRingbufferArea × SpaRingbufferArea :=
  let w := rbuf.writeindex
  let r := rbuf.readindex
  let avail :=
    if w > r then (r + rbuf.size - w) % rbuf.size - 1
    else if w < r then r - w - 1
    else rbuf.size - 1
  let end_ := w + avail
  if end_ > rbuf.size then
    ({ offset := w, len := rbuf.size - w }, { offset := 0, len := end_ % rbuf.size })
  else
    ({ offset := w, len := avail }, { offset := 0, len := 0 })

/-- Modelled from the spec: `spa_ringbuffer_write_advance` of spa/include/spa/ringbuffer.h,
which is not among the sources; the write index moves forward by `len`, wrapping at the ring
size. -/
def spa_ringbuffer_write_advance (rbuf : SpaRingbuffer) (len : Nat) : SpaRingbuffer :=
  { rbuf with writeindex := (rbuf.writeindex + len) % rbuf.size }

/-- Modelled from the spec: `spa_ringbuffer_get_read_offset` of spa/include/spa/ringbuffer.h,
which is not among the sources; the number of unread bytes and the offset of the first. -/
def spa_ringbuffer_get_read_offset (rbuf : SpaRingbuffer) : Nat × Nat :=
  let w := rbuf.writeindex
  let r := rbuf.readindex
  let avail := if w > r then w - r else (w + rbuf.size - r) % rbuf.size
  (avail, r)

/-- Modelled from the spec: `spa_ringbuffer_read_advance` of spa/include/spa/ringbuffer.h,
which is not among the sources; the read index moves forward by `len`, wrapping at the ring
size. -/
def spa_ringbuffer_read_advance (rbuf : SpaRingbuffer) (len : Nat) : SpaRingbuffer :=
  { rbuf with readindex := (rbuf.readindex + len) % rbuf.size }

/-! ## Memory -/

/-- Process memory: one byte per address. -/
abbrev Mem := Nat → Nat

/-- Little-endian store of the low `n` bytes of `v` at address `a`. -/
def storeLE (n : Nat) (mem : Mem) (a v : Nat) : Mem :=
  fun x => if a ≤ x ∧ x < a + n then (v / 256 ^ (x - a)) % 256 else mem x

/-- Little-endian load of `n` bytes at address `a`. -/
def loadLE : Nat → Mem → Nat → Nat
  | 0, _, _ => 0
  | n + 1, mem, a => mem a % 256 + 256 * loadLE n mem (a + 1)

/-- The C library `memcpy (dst, src, n)` on non-overlapping regions. -/
def memcpy (mem : Mem) (dst src n : Nat) : Mem :=
  fun x => if dst ≤ x ∧ x < dst + n then mem (src + (x - dst)) else mem x

/-- Sum of two `size_t` values. -/
def size_t_add (a b : Nat) : Nat := (a + b) % 2 ^ 64

/-! ## data-loop.c -/

/-- The constant `DATAS_SIZE`, the byte size of the invoke ring. -/
def DATAS_SIZE : Nat := 4096 * 8

/-- The value of `sizeof (InvokeItem)` under LP64: six 8-byte slots (`seq` is padded to 8). -/
def sizeof_InvokeItem : Nat := 48

/-- Byte offset of `item_size` in `InvokeItem`. -/
def off_item_size : Nat := 0
/-- Byte offset of `func` in `InvokeItem`. -/
def off_func : Nat := 8
/-- Byte offset of `seq` in `InvokeItem`. -/
def off_seq : Nat := 16
/-- Byte offset of `size` in `InvokeItem`. -/
def off_size : Nat := 24
/-- Byte offset of `data` in `InvokeItem`. -/
def off_data : Nat := 32
/-- Byte offset of `user_data` in `InvokeItem`. -/
def off_user_data : Nat := 40

/-- The arguments of one call of a `SpaPollInvokeFunc`; `func` is the function pointer. -/
structure InvokeCall where
  func : Nat
  async : Bool
  seq : Nat
  size : Nat
  data : Nat
  user_data : Nat
  deriving DecidableEq, Repr

/-- What the data loop code does to the outside, in program order. -/
inductive Effect where
  | call (c : InvokeCall)
  | wakeup
  | warning (msg : String)
  deriving DecidableEq, Repr

/-- The part of `PinosDataLoopPrivate` the invoke path uses, with the process memory that
holds `buffer_data`. -/
structure LoopState where
  buffer : SpaRingbuffer
  buffer_data : Nat
  mem : Mem

/-- The code behind function pointers: given the call and the state it runs in, its result
and the state it leaves. -/
abbrev Env := InvokeCall → LoopState → SpaResult × LoopState

/-- State after `pinos_data_loop_init`: `spa_ringbuffer_init (&priv->buffer, DATAS_SIZE)`. -/
def pinos_data_loop_init (buffer_data : Nat) (mem : Mem) : LoopState :=
  { buffer := spa_ringbuffer_init DATAS_SIZE, buffer_data := buffer_data, mem := mem }

/-- The function `do_invoke`.  `in_thread` is `pthread_equal (priv->thread, pthread_self ())`.
Returns the result, the state left behind and the effects of `do_invoke` itself. -/
def do_invoke (env : Env) (priv : LoopState) (in_thread : Bool)
    (func seq size data user_data : Nat) : SpaResult × LoopState × List Effect :=
  if in_thread then
    let c : InvokeCall :=
      { func := func, async := false, seq := seq, size := size, data := data,
        user_data := user_data }
    let r := env c priv
    (r.1, r.2, [Effect.call c])
  else
    let areas := spa_ringbuffer_get_write_areas priv.buffer
    if areas.1.len < sizeof_InvokeItem then
      (SPA_RESULT_ERROR, priv, [Effect.warning "queue full"])
    else
      let item := priv.buffer_data + areas.1.offset
      let m1 := storeLE 4 priv.mem (item + off_seq) seq
      let m2 := storeLE 8 m1 (item + off_func) func
      let m3 := storeLE 8 m2 (item + off_user_data) user_data
      let m4 := storeLE 8 m3 (item + off_size) size
      let placed : Nat × Nat :=
        if areas.1.len > size_t_add sizeof_InvokeItem size then
          let item_size := size_t_add sizeof_InvokeItem size
          (item + sizeof_InvokeItem,
            if areas.1.len < size_t_add sizeof_InvokeItem item_size then areas.1.len
            else item_size)
        else
          (priv.buffer_data + areas.2.offset, size_t_add (size_t_add areas.1.len 1) size)
      let m5 := storeLE 8 m4 (item + off_data) placed.1
      let m6 := storeLE 8 m5 (item + off_item_size) placed.2
      let m7 := memcpy m6 placed.1 data size
      let buffer := spa_ringbuffer_write_advance priv.buffer (loadLE 8 m7 (item + off_item_size))
      let res := if seq ≠ SPA_ID_INVALID then SPA_RESULT_RETURN_ASYNC seq else SPA_RESULT_OK
      (res, { priv with buffer := buffer, mem := m7 }, [Effect.wakeup])

/-- The call `item->func (p, true, item->seq, item->size, item->data, item->user_data)` that
the wakeup branch of `loop` makes for the record at the read offset. -/
def drain_call (priv : LoopState) : InvokeCall :=
  let item := priv.buffer_data + (spa_ringbuffer_get_read_offset priv.buffer).2
  { func := loadLE 8 priv.mem (item + off_func),
    async := true,
    seq := loadLE 4 priv.mem (item + off_seq),
    size := loadLE 8 priv.mem (item + off_size),
    data := loadLE 8 priv.mem (item + off_data),
    user_data := loadLE 8 priv.mem (item + off_user_data) }

/-- One iteration of the wakeup branch of `loop`: the state after the call and after
`spa_ringbuffer_read_advance (&priv->buffer, item->item_size)`. -/
def drain_advance (env : Env) (priv : LoopState) : LoopState :=
  let item := priv.buffer_data + (spa_ringbuffer_get_read_offset priv.buffer).2
  let r := env (drain_call priv) priv
  { r.2 with
    buffer := spa_ringbuffer_read_advance r.2.buffer (loadLE 8 r.2.mem (item + off_item_size)) }

/-- The wakeup branch of `loop`: while `spa_ringbuffer_get_read_offset` reports unread bytes,
call the record's `func` and advance the read index by the record's `item_size`.  `fuel`
bounds the number of iterations.  The first component lists the calls made; the second is the
state in which the ring was found empty, or `none` when the fuel ran out before that. -/
def loop_drain (env : Env) : Nat → LoopState → List Effect × Option LoopState
  | 0, _ => ([], none)
  | fuel + 1, priv =>
    if (spa_ringbuffer_get_read_offset priv.buffer).1 > 0 then
      let rest := loop_drain env fuel (drain_advance env priv)
      (Effect.call (drain_call priv) :: rest.1, rest.2)
    else
      ([], some priv)

/-! ## daemon.c -/

/-- Modelled from the spec: `PinosDirection` of pinos/client/introspect.h, which is not among
the sources; a port carries a direction, INPUT or OUTPUT. -/
inductive PinosDirection where
  | input
  | output
  deriving DecidableEq, Repr

/-- Modelled from the spec: `pinos_direction_reverse` of pinos/client/introspect.h, which is
not among the sources; the opposite direction. -/
def pinos_direction_reverse : PinosDirection → PinosDirection
  | .input => .output
  | .output => .input

/-- A GLib `GError`: domain, code and message. -/
structure GError where
  domain : String
  code : Nat
  message : String
  deriving DecidableEq, Repr

/-- GLib `g_error_copy`. -/
def g_error_copy (error : Option GError) : Option GError := error

/-- A `PinosPort`, as far as the daemon reads it: its identity, `port->direction` and
`port->node` (the identity of the owning node, when set). -/
structure PinosPort where
  id : Nat
  direction : PinosDirection
  node : Option Nat
  deriving DecidableEq, Repr

/-- Modelled from the spec: `PINOS_NODE_FLAG_REMOVING` of pinos/server/node.h, which is not
among the sources; the flag bit of a node that is currently being removed. -/
def PINOS_NODE_FLAG_REMOVING : Nat := 1

/-- A `PinosNode`, as far as the daemon reads it.  `free_input` and `free_output` are what
the node answers when asked for a free port of that direction. -/
structure PinosNode where
  id : Nat
  flags : Nat
  object_path : String
  properties : Option (List (String × String))
  client : Option Nat
  free_input : Option PinosPort
  free_output : Option PinosPort
  deriving DecidableEq, Repr

/-- Modelled from the spec: `pinos_node_get_free_port` of pinos/server/node.c, which is not
among the sources; asking a node for a free port in the given direction. -/
def pinos_node_get_free_port (n : PinosNode) (direction : PinosDirection) : Option PinosPort :=
  match direction with
  | .input => n.free_input
  | .output => n.free_output

/-- Modelled from the spec: `pinos_node_get_object_path` of pinos/server/node.c, which is not
among the sources. -/
def pinos_node_get_object_path (n : PinosNode) : String := n.object_path

/-- Modelled from the spec: `pinos_properties_get` of pinos/client/properties.c, which is not
among the sources; properties are an ordered sequence of (key, value) string pairs and lookup
is by key. -/
def pinos_properties_get (props : List (String × String)) (key : String) : Option String :=
  (props.find? (fun kv => kv.1 == key)).map (fun kv => kv.2)

/-- GLib `g_str_has_suffix (str, suffix)`. -/
def g_str_has_suffix (str suffix : String) : Bool :=
  suffix.data.isSuffixOf str.data

/-- A `PinosNodeFactory`: its identity and its `name` property. -/
structure PinosNodeFactory where
  id : Nat
  name : String
  deriving DecidableEq, Repr

/-- What `object->implementation` points to. -/
inductive Implementation where
  | node (n : PinosNode)
  | node_factory (f : PinosNodeFactory)
  | other (p : Nat)
  deriving DecidableEq, Repr

/-- A `PinosObject`: id, type code and implementation pointer (`none` is `NULL`). -/
structure PinosObject where
  id : Nat
  type : Nat
  implementation : Option Implementation
  deriving DecidableEq, Repr

/-- The `PinosRegistry` of the daemon: the type codes `uri.node` and `uri.node_factory`, and
the slots of the object map in id order.  A slot that `pinos_map_lookup` answers with `NULL`
(cleared by a removal) is `none`. -/
structure PinosRegistry where
  uri_node : Nat
  uri_node_factory : Nat
  objects : List (Option PinosObject)
  deriving DecidableEq, Repr

/-- The error `pinos_daemon_find_port` sets when it returns `NULL`:
`g_set_error (error, G_IO_ERROR, G_IO_ERROR_NOT_FOUND, "No matching Node found")`. -/
def no_matching_node_error : GError :=
  { domain := "g-io-error-quark", code := 1, message := "No matching Node found" }

/-- The `for` loop of `pinos_daemon_find_port` over the remaining slots.  The result is the
value of `best` after the loop; `none` is a fault: the loop reads `o->type` through the `NULL`
of a cleared slot, or takes the implementation of a node-typed object for a `PinosNode` when
it is something else. -/
def find_port_scan (uri_node : Nat) (have_name : Bool) (name : String)
    (other_direction : PinosDirection) : List (Option PinosObject) → Option (Option PinosPort)
  | [] => some none
  | none :: _ => none
  | some o :: rest =>
    if o.type ≠ uri_node then
      find_port_scan uri_node have_name name other_direction rest
    else
      match o.implementation with
      | none => find_port_scan uri_node have_name name other_direction rest
      | some (Implementation.node n) =>
        if n.flags &&& PINOS_NODE_FLAG_REMOVING ≠ 0 then
          find_port_scan uri_node have_name name other_direction rest
        else if have_name then
          if g_str_has_suffix (pinos_node_get_object_path n) name then
            match pinos_node_get_free_port n (pinos_direction_reverse other_direction) with
            | some best => some (some best)
            | none => find_port_scan uri_node have_name name other_direction rest
          else
            find_port_scan uri_node have_name name other_direction rest
        else
          find_port_scan uri_node have_name name other_direction rest
      | some _ => none

/-- What a call of `pinos_daemon_find_port` comes to: a fault of the scan, `NULL` with the
error it set, or the port found. -/
inductive FindPort where
  | fault
  | not_found (error : GError)
  | found (best : PinosPort)
  deriving DecidableEq, Repr

/-- The function `pinos_daemon_find_port (daemon, other_port, name, NULL, NULL, &error)`. -/
def pinos_daemon_find_port (registry : PinosRegistry) (other_port : PinosPort)
    (name : Option String) : FindPort :=
  let have_name : Bool :=
    match name with
    | some s => decide (s.length > 0)
    | none => false
  match find_port_scan registry.uri_node have_name (name.getD "") other_port.direction
      registry.objects with
  | none => FindPort.fault
  | some (some best) => FindPort.found best
  | some none => FindPort.not_found no_matching_node_error

/-- The states of a link (`PinosLinkState`). -/
inductive PinosLinkState where
  | error
  | unlinked
  | init
  | negotiating
  | allocating
  | paused
  | running
  deriving DecidableEq, Repr

/-- A `PinosLink`, as far as the daemon reads it: `link->output`, `link->input`, and the
state and error that `pinos_link_get_state (link, &error)` gives. -/
structure PinosLink where
  id : Nat
  output : Option PinosPort
  input : Option PinosPort
  state : PinosLinkState
  error : Option GError
  deriving DecidableEq, Repr

/-- Modelled from the spec: `pinos_link_get_state` of pinos/server/link.c, which is not among
the sources; the state of the link and, through `error`, the error of the link. -/
def pinos_link_get_state (link : PinosLink) : PinosLinkState × Option GError :=
  (link.state, link.error)

/-- What the daemon's graph policy does to its collaborators, in program order.  `segfault`
ends a run in which `pinos_daemon_find_port` faulted. -/
inductive Action where
  | find_port (other_port : PinosPort) (name : String)
  | port_link (output input : PinosPort)
  | client_add_object (client : Nat) (link : Nat)
  | signal_connect (link : Nat) (signal : String)
  | link_activate (link : Nat)
  | node_report_error (node : Nat) (error : Option GError)
  | segfault
  deriving DecidableEq, Repr

/-- The function `try_link_port`.  `port_link` is `pinos_port_link` of pinos/server/port.c:
the link or `NULL`, and the error it stored through `&error`. -/
def try_link_port (port_link : PinosPort → PinosPort → Option PinosLink × Option GError)
    (registry : PinosRegistry) (node : PinosNode) (port : PinosPort) : List Action :=
  match node.properties with
  | none => []
  | some props =>
    match pinos_properties_get props "pinos.target.node" with
    | none => []
    | some path =>
      Action.find_port port path ::
      match pinos_daemon_find_port registry port (some path) with
      | FindPort.fault => [Action.segfault]
      | FindPort.not_found error => [Action.node_report_error node.id (some error)]
      | FindPort.found target =>
        let output := if port.direction = PinosDirection.output then port else target
        let input := if port.direction = PinosDirection.output then target else port
        Action.port_link output input ::
        match port_link output input with
        | (none, error) => [Action.node_report_error node.id error]
        | (some link, _) =>
          (match node.client with
           | some client => [Action.client_add_object client link.id]
           | none => []) ++
          [Action.signal_connect link.id "port-unlinked",
           Action.signal_connect link.id "notify::state",
           Action.link_activate link.id]

/-- The function `on_link_state_notify`: the calls of `pinos_node_report_error` it makes. -/
def on_link_state_notify (link : PinosLink) : List Action :=
  let r := pinos_link_get_state link
  match r.1 with
  | PinosLinkState.error =>
    (match link.input with
     | some input =>
       (match input.node with
        | some node => [Action.node_report_error node (g_error_copy r.2)]
        | none => [])
     | none => []) ++
    (match link.output with
     | some output =>
       (match output.node with
        | some node => [Action.node_report_error node (g_error_copy r.2)]
        | none => [])
     | none => [])
  | PinosLinkState.unlinked => []
  | PinosLinkState.init => []
  | PinosLinkState.negotiating => []
  | PinosLinkState.allocating => []
  | PinosLinkState.paused => []
  | PinosLinkState.running => []

/-- A `PinosClient`: the peer identity and the ordered owned objects (by identity). -/
structure PinosClient where
  sender : String
  objects : List Nat
  deriving DecidableEq, Repr

/-- Modelled from the spec: `pinos_client_add_object` of pinos/server/client.c, which is not
among the sources; the object joins the client's ordered set of owned objects. -/
def pinos_client_add_object (client : PinosClient) (object : Nat) : PinosClient :=
  { client with objects := client.objects ++ [object] }

/-- GLib `g_hash_table_lookup` on a string-keyed table, kept as an association list. -/
def g_hash_table_lookup {α : Type} (table : List (String × α)) (key : String) : Option α :=
  (table.find? (fun kv => kv.1 == key)).map (fun kv => kv.2)

/-- The function `sender_get_client (daemon, sender, create)`: the client of the table, or
with `create` a new one (`pinos_client_new`), which owns nothing yet. -/
def sender_get_client (clients : List (String × PinosClient)) (sender : String)
    (create : Bool) : Option PinosClient :=
  match g_hash_table_lookup clients sender with
  | some client => some client
  | none => if create then some { sender := sender, objects := [] } else none

/-- The reply sent on a method invocation. -/
inductive Reply where
  | dbus_error (name message : String)
  | value (object_path : String)
  deriving DecidableEq, Repr

/-- The part of `PinosDaemonPrivate` that `handle_create_node` reads. -/
structure DaemonTables where
  clients : List (String × PinosClient)
  node_factories : List (String × PinosNodeFactory)
  deriving DecidableEq, Repr

/-- The function `handle_create_node`.  `create_node` is `pinos_node_factory_create_node` of
pinos/server/node-factory.c: the node or `NULL`.  Returns the reply and the requesting client
as the handler leaves it. -/
def handle_create_node
    (create_node : PinosNodeFactory → PinosClient → String → List (String × String) →
      Option PinosNode)
    (priv : DaemonTables) (sender arg_factory_name arg_name : String)
    (arg_properties : List (String × String)) : Reply × PinosClient :=
  let client : PinosClient :=
    (sender_get_client priv.clients sender true).getD { sender := sender, objects := [] }
  let props := arg_properties
  match g_hash_table_lookup priv.node_factories arg_factory_name with
  | none => (Reply.dbus_error "org.pinos.Error" "can't find factory", client)
  | some factory =>
    match create_node factory client arg_name props with
    | none => (Reply.dbus_error "org.pinos.Error" "can't create node", client)
    | some node =>
      (Reply.value (pinos_node_get_object_path node), pinos_client_add_object client node.id)

/-! ## A concrete run of the invoke ring -/

/-- Callbacks that return `SPA_RESULT_OK` and leave the loop state alone. -/
def env_idle : Env := fun _ priv => (SPA_RESULT_OK, priv)

/-- Address of `buffer_data` in the concrete run. -/
def ring_base : Nat := 0x10000

/-- Address of the first caller's payload (32600 zero bytes). -/
def payload1 : Nat := 0x100000

/-- Address of the second caller's payload (100 bytes). -/
def payload2 : Nat := 0x200000

/-- Caller memory of the concrete run: all zero, except that the 100 bytes at `payload2`
start with 100 as a 64-bit word, then 0xBAD as a 64-bit word, then 9 as a 32-bit word. -/
def run_mem : Mem :=
  storeLE 8 (storeLE 8 (storeLE 4 (fun _ => 0) (payload2 + 16) 9) (payload2 + 8) 0xBAD)
    payload2 100

/-- The freshly initialised data loop. -/
def run_s0 : LoopState := pinos_data_loop_init ring_base run_mem

/-- After the first off-thread `do_invoke (func = 0x4000, seq = 1, size = 32600)`. -/
def run_s1 : LoopState := (do_invoke env_idle run_s0 false 0x4000 1 32600 payload1 0).2.1

/-- After the second off-thread `do_invoke (func = 0x5000, seq = 2, size = 100)`. -/
def run_s2 : LoopState := (do_invoke env_idle run_s1 false 0x5000 2 100 payload2 0).2.1

/-! ## Reference descriptions of the port lookup -/

/-- Whether the scan of `pinos_daemon_find_port` can read a slot: the slot is not cleared, and
a node-typed object carries a `PinosNode` or `NULL`. -/
def slot_scannable (uri_node : Nat) : Option PinosObject → Bool
  | none => false
  | some o =>
    if o.type = uri_node then
      match o.implementation with
      | none => true
      | some (Implementation.node _) => true
      | some _ => false
    else true

/-- The node of a slot when it is a match for `name`: the slot holds an object of the node
type whose node is not flagged REMOVING and whose object path ends with `name`. -/
def slot_match (uri_node : Nat) (name : String) : Option PinosObject → Option PinosNode
  | some o =>
    if o.type = uri_node then
      match o.implementation with
      | some (Implementation.node n) =>
        if n.flags &&& PINOS_NODE_FLAG_REMOVING = 0 ∧
            g_str_has_suffix (pinos_node_get_object_path n) name = true then some n
        else none
      | _ => none
    else none
  | none => none

/-- The matches for `name`, in registry iteration order. -/
def matching_nodes (registry : PinosRegistry) (name : String) : List PinosNode :=
  registry.objects.filterMap (slot_match registry.uri_node name)

/-- The port lookup as a first-match-only rule: the first match alone is asked for a free
port in the direction opposite to `other_port`. -/
def find_port_first_match_only (registry : PinosRegistry) (other_port : PinosPort)
    (name : String) : FindPort :=
  match (matching_nodes registry name).head? with
  | some n =>
    match pinos_node_get_free_port n (pinos_direction_reverse other_port.direction) with
    | some best => FindPort.found best
    | none => FindPort.not_found no_matching_node_error
  | none => FindPort.not_found no_matching_node_error

/-- The port lookup as a first-free-port rule: the matches are asked in order for a free port
in the direction opposite to `other_port`, and the first port offered is taken. -/
def find_port_first_free (registry : PinosRegistry) (other_port : PinosPort)
    (name : String) : FindPort :=
  match (matching_nodes registry name).findSome?
      (fun n => pinos_node_get_free_port n (pinos_direction_reverse other_port.direction)) with
  | some best => FindPort.found best
  | none => FindPort.not_found no_matching_node_error

/-- The node at one end of a link: the node of the port there, when both exist. -/
def endpoint_node (port : Option PinosPort) : Option Nat :=
  match port with
  | some p => p.node
  | none => none

/-- Whether an action is a call of `pinos_link_activate`. -/
def Action.is_activate : Action → Bool
  | Action.link_activate _ => true
  | _ => false

/-- Whether an action is a call of `pinos_node_report_error`. -/
def Action.is_report : Action → Bool
  | Action.node_report_error _ _ => true
  | _ => false

/-- Whether an action creates a link, registers one with a client or activates one. -/
def Action.is_link_action : Action → Bool
  | Action.port_link _ _ => true
  | Action.client_add_object _ _ => true
  | Action.link_activate _ => true
  | _ => false

/-! ## A concrete graph -/

/-- The free input port of the sink node. -/
def sink_in : PinosPort := { id := 10, direction := PinosDirection.input, node := some 1 }

/-- A sink node at a path ending in `/sink/0`, with a free input port. -/
def sink_node : PinosNode :=
  { id := 1, flags := 0, object_path := "/org/pinos/node/sink/0", properties := some [],
    client := none, free_input := some sink_in, free_output := none }

/-- A node at a path ending in `/sink/0` that has no free port. -/
def busy_node : PinosNode :=
  { id := 3, flags := 0, object_path := "/org/pinos/busy/sink/0", properties := some [],
    client := none, free_input := none, free_output := none }

/-- The output port of the source node. -/
def src_out : PinosPort := { id := 20, direction := PinosDirection.output, node := some 2 }

/-- A source node owned by client 7 that asks for the target `/sink/0`. -/
def src_node : PinosNode :=
  { id := 2, flags := 0, object_path := "/org/pinos/node/src/0",
    properties := some [("pinos.target.node", "/sink/0")],
    client := some 7, free_input := none, free_output := some src_out }

/-- The source node with its target under the key `target.node` instead. -/
def src_node_short_key : PinosNode :=
  { src_node with properties := some [("target.node", "/sink/0")] }

/-- The source node asking for a target no node path ends with. -/
def src_node_lost : PinosNode :=
  { src_node with properties := some [("pinos.target.node", "/nowhere")] }

/-- A registry: the daemon object, the busy node, the sink node and the source node. -/
def graph_registry : PinosRegistry :=
  { uri_node := 3, uri_node_factory := 4,
    objects :=
      [some { id := 0, type := 1, implementation := some (Implementation.other 0) },
       some { id := 1, type := 3, implementation := some (Implementation.node busy_node) },
       some { id := 2, type := 3, implementation := some (Implementation.node sink_node) },
       some { id := 3, type := 3, implementation := some (Implementation.node src_node) }] }

/-- A `pinos_port_link` that always succeeds with link 100 in state INIT. -/
def port_link_ok (output input : PinosPort) : Option PinosLink × Option GError :=
  (some { id := 100, output := some output, input := some input,
          state := PinosLinkState.init, error := none }, none)

/-- A factory `sink`. -/
def sink_factory : PinosNodeFactory := { id := 50, name := "sink" }

/-- Daemon tables with no client yet and the one factory `sink`. -/
def graph_tables : DaemonTables :=
  { clients := [], node_factories := [("sink", sink_factory)] }

/-- A `pinos_node_factory_create_node` that builds the sink node, except under the name
`broken`, for which it fails. -/
def create_sink (_factory : PinosNodeFactory) (_client : PinosClient) (name : String)
    (_props : List (String × String)) : Option PinosNode :=
  if name = "broken" then none else some sink_node

/-- The link from `src_out` to `sink_in`, in state ERROR. -/
def failed_link : PinosLink :=
  { id := 100, output := some src_out, input := some sink_in, state := PinosLinkState.error,
    error := some { domain := "pinos-error-quark", code := 3, message := "no common format" } }

/-- Whether an action is a call of `pinos_node_report_error` on the node `node`. -/
def Action.reports_to (node : Nat) : Action → Bool
  | Action.node_report_error n _ => decide (n = node)
  | _ => false

/-- An input port of the source node. -/
def src_in : PinosPort := { id := 21, direction := PinosDirection.input, node := some 2 }

/-- A link from the output port of the source node to an input port of the same node, in
state ERROR. -/
def self_link : PinosLink :=
  { id := 101, output := some src_out, input := some src_in, state := PinosLinkState.error,
    error := some { domain := "pinos-error-quark", code := 3, message := "no common format" } }

/-! ## data-loop.c: the poll set -/

/-- The `POLLIN` bit of `poll.h`. -/
def POLLIN : Nat := 0x001

/-- The `POLLPRI` bit of `poll.h`. -/
def POLLPRI : Nat := 0x002

/-- The `POLLERR` bit of `poll.h`. -/
def POLLERR : Nat := 0x008

/-- The `errno` value `EINTR`. -/
def EINTR : Nat := 4

/-- Modelled from the spec: `SpaPollFd` of spa/include/spa/poll.h, which is not among the
sources; a pollable fd with the requested and the returned events. -/
structure SpaPollFd where
  fd : Int
  events : Nat
  revents : Nat
  deriving DecidableEq, Repr

/-- The all-zero `SpaPollFd` of zero-initialised memory. -/
def SpaPollFd.zero : SpaPollFd := { fd := 0, events := 0, revents := 0 }

/-- Modelled from the spec: `SpaPollItem` of spa/include/spa/poll.h, which is not among the
sources; id, enabled flag, the fds with their requested events, the optional idle, before and
after callbacks (function pointers, `none` is `NULL`) and the user pointer.  The C fields `fds`
and `n_fds` are the list `fds` and its length. -/
structure SpaPollItem where
  id : Nat
  enabled : Bool
  fds : List SpaPollFd
  idle_cb : Option Nat
  before_cb : Option Nat
  after_cb : Option Nat
  user_data : Nat
  deriving DecidableEq, Repr

/-- The C field `n_fds` of a poll item. -/
def SpaPollItem.n_fds (p : SpaPollItem) : Nat := p.fds.length

/-- The all-zero `SpaPollItem` of zero-initialised memory. -/
def SpaPollItem.zero : SpaPollItem :=
  { id := 0, enabled := false, fds := [], idle_cb := none, before_cb := none, after_cb := none,
    user_data := 0 }

/-- The poll fields of `PinosDataLoopPrivate`, each on its own.  The arrays `poll`, `idx` and
`fds` are maps from the index, so a store at an index keeps to its array.  This is what the C
code does as long as the item count stays within the 16 slots of `poll` and `idx`
(`poll_slots`) and the pollfd count within the 32 slots of `fds` (`fds_slots`).  A store
behind the last slot lands in the members that follow the array in the structure; for those
stores see the functions on the bytes of the private data (`do_add_item_bytes`,
`loop_rebuild_bytes`). -/
structure PollState where
  n_poll : Nat
  poll : Nat → SpaPollItem
  idx : Nat → Nat
  rebuild_fds : Bool
  fds : Nat → SpaPollFd
  n_fds : Nat
  counter : Nat
  running : Bool

/-- The stored poll items `poll[0]` to `poll[n_poll - 1]`, in order. -/
def poll_items (priv : PollState) : List SpaPollItem :=
  (List.range priv.n_poll).map priv.poll

/-- State after `pinos_data_loop_constructed` on the zero-initialised private data; `efd` is
the descriptor that `eventfd (0, 0)` returned. -/
def pinos_data_loop_constructed (efd : Int) : PollState :=
  { n_poll := 0, poll := fun _ => SpaPollItem.zero, idx := fun _ => 0, rebuild_fds := false,
    fds := Function.update (fun _ => SpaPollFd.zero) 0
      { fd := efd, events := POLLIN ||| POLLPRI ||| POLLERR, revents := 0 },
    n_fds := 1, counter := 0, running := false }

/-- What the item operations do to the loop thread, in program order. -/
inductive ThreadEffect where
  | wakeup
  | pthread_create
  | pthread_join
  deriving DecidableEq, Repr

/-- The C loop `for (i = start; i < start + n; i++) body (i)`. -/
def for_range {σ : Type} (body : Nat → σ → σ) : Nat → Nat → σ → σ
  | 0, _, s => s
  | n + 1, i, s => for_range body n (i + 1) (body i s)

/-- The function `start_thread`; `err` is what `pthread_create` returns. -/
def start_thread (priv : PollState) (err : Nat) : PollState × List ThreadEffect :=
  if !priv.running then
    ({ priv with running := decide (err = 0) }, [ThreadEffect.pthread_create])
  else (priv, [])

/-- The function `stop_thread`. -/
def stop_thread (priv : PollState) (in_thread : Bool) : PollState × List ThreadEffect :=
  if priv.running then
    ({ priv with running := false },
      if !in_thread then [ThreadEffect.wakeup, ThreadEffect.pthread_join] else [])
  else (priv, [])

/-- The function `do_add_item`.  Returns the result, the id written to `item->id`, the state
and the thread effects; `err` is what `pthread_create` returns if it is called. -/
def do_add_item (priv : PollState) (in_thread : Bool) (err : Nat) (item : SpaPollItem) :
    SpaResult × Nat × PollState × List ThreadEffect :=
  let counter := (priv.counter + 1) % 2 ^ 32
  let item1 : SpaPollItem := { item with id := counter }
  let p1 : PollState :=
    { priv with
      counter := counter,
      poll := Function.update priv.poll priv.n_poll item1,
      n_poll := priv.n_poll + 1,
      rebuild_fds := if item1.n_fds ≠ 0 then true else priv.rebuild_fds }
  if !in_thread then
    let r := start_thread p1 err
    (SPA_RESULT_OK, counter, r.1, ThreadEffect.wakeup :: r.2)
  else
    (SPA_RESULT_OK, counter, p1, [])

/-- The body of the loop of `do_update_item`: `if (priv->poll[i].id == item->id)
priv->poll[i] = *item`. -/
def update_body (item : SpaPollItem) (i : Nat) (poll : Nat → SpaPollItem) : Nat → SpaPollItem :=
  if (poll i).id = item.id then Function.update poll i item else poll

/-- The function `do_update_item`. -/
def do_update_item (priv : PollState) (in_thread : Bool) (item : SpaPollItem) :
    SpaResult × PollState × List ThreadEffect :=
  let p1 : PollState :=
    { priv with
      poll := for_range (update_body item) priv.n_poll 0 priv.poll,
      rebuild_fds := if item.n_fds ≠ 0 then true else priv.rebuild_fds }
  (SPA_RESULT_OK, p1, if !in_thread then [ThreadEffect.wakeup] else [])

/-- The search of `do_remove_item`: the first index from `i` on, among `n` slots, whose item
has the given id. -/
def find_item (poll : Nat → SpaPollItem) (id : Nat) : Nat → Nat → Option Nat
  | 0, _ => none
  | n + 1, i => if (poll i).id = id then some i else find_item poll id n (i + 1)

/-- The function `do_remove_item`. -/
def do_remove_item (priv : PollState) (in_thread : Bool) (item : SpaPollItem) :
    SpaResult × PollState × List ThreadEffect :=
  let p1 : PollState :=
    match find_item priv.poll item.id priv.n_poll 0 with
    | some i =>
      let n_poll := priv.n_poll - 1
      { priv with
        n_poll := n_poll,
        poll := for_range (fun k poll => Function.update poll k (poll (k + 1))) (n_poll - i) i
          priv.poll }
    | none => priv
  let p2 : PollState × List ThreadEffect :=
    if item.n_fds ≠ 0 then
      ({ p1 with rebuild_fds := true }, if !in_thread then [ThreadEffect.wakeup] else [])
    else (p1, [])
  if p2.1.n_poll = 0 then
    let r := stop_thread p2.1 in_thread
    (SPA_RESULT_OK, r.1, p2.2 ++ r.2)
  else
    (SPA_RESULT_OK, p2.1, p2.2)

/-- The arguments of one call of an idle, before or after callback: the function pointer and
the `SpaPollNotifyData` it is given.  `fds` is the index in `priv->fds` that `ndata.fds` points
to (`none` is `NULL`), `slice` the `n_fds` entries found there. -/
structure NotifyCall where
  cb : Nat
  fds : Option Nat
  n_fds : Nat
  slice : List SpaPollFd
  user_data : Nat
  deriving DecidableEq, Repr

/-- The code behind the callbacks of the poll items, for callbacks that do not call back into
the poll set: the result of a call.  For callbacks that add, update or remove items while
they run see `ReentrantEnv`. -/
abbrev NotifyEnv := NotifyCall → SpaResult

/-- The three callback passes of a cycle of `loop`. -/
inductive Pass where
  | idle
  | before
  | after
  deriving DecidableEq, Repr

/-- One callback invocation of `loop`: the pass, the index `i` and the id of the item
`priv->poll[i]`, the call and its result. -/
structure PollEvent where
  pass : Pass
  index : Nat
  id : Nat
  call : NotifyCall
  result : SpaResult
  deriving DecidableEq, Repr

/-- The `n` entries of the pollfd array from index `base` on. -/
def fds_slice (fds : Nat → SpaPollFd) (base n : Nat) : List SpaPollFd :=
  (List.range n).map (fun j => fds (base + j))

/-- The call of the idle pass for item `p`, when `p->enabled && p->idle_cb`. -/
def idle_call (p : SpaPollItem) (_base : Nat) (_fds : Nat → SpaPollFd) : Option NotifyCall :=
  if p.enabled then
    match p.idle_cb with
    | some cb => some { cb := cb, fds := none, n_fds := 0, slice := [], user_data := p.user_data }
    | none => none
  else none

/-- The call of the before pass for item `p` with `base = priv->idx[i]`, when
`p->enabled && p->before_cb`. -/
def before_call (p : SpaPollItem) (base : Nat) (fds : Nat → SpaPollFd) : Option NotifyCall :=
  if p.enabled then
    match p.before_cb with
    | some cb =>
      some { cb := cb, fds := some base, n_fds := p.n_fds, slice := fds_slice fds base p.n_fds,
             user_data := p.user_data }
    | none => none
  else none

/-- The call of the after pass for item `p` with `base = priv->idx[i]`, when `p->enabled &&
p->after_cb && (p->n_fds == 0 || priv->fds[priv->idx[i]].revents != 0)`. -/
def after_call (p : SpaPollItem) (base : Nat) (fds : Nat → SpaPollFd) : Option NotifyCall :=
  if p.enabled then
    match p.after_cb with
    | some cb =>
      if p.n_fds = 0 ∨ (fds base).revents ≠ 0 then
        some { cb := cb, fds := some base, n_fds := p.n_fds, slice := fds_slice fds base p.n_fds,
               user_data := p.user_data }
      else none
    | none => none
  else none

/-- The body of a callback pass for index `i`: make the call if the item qualifies, and clear
`p->enabled` when the result is an error.  The calls made are appended to the trace. -/
def notify_body (env : NotifyEnv) (pass : Pass)
    (select : SpaPollItem → Nat → (Nat → SpaPollFd) → Option NotifyCall) (i : Nat)
    (st : PollState × List PollEvent) : PollState × List PollEvent :=
  let p := st.1.poll i
  match select p (st.1.idx i) st.1.fds with
  | some call =>
    let res := env call
    let ev : PollEvent := { pass := pass, index := i, id := p.id, call := call, result := res }
    if SPA_RESULT_IS_ERROR res then
      ({ st.1 with poll := Function.update st.1.poll i { p with enabled := false } },
        st.2 ++ [ev])
    else (st.1, st.2 ++ [ev])
  | none => st

/-- A callback pass of `loop`: `for (i = 0; i < priv->n_poll; i++)` over `notify_body`. -/
def notify_pass (env : NotifyEnv) (pass : Pass)
    (select : SpaPollItem → Nat → (Nat → SpaPollFd) → Option NotifyCall)
    (st : PollState × List PollEvent) : PollState × List PollEvent :=
  for_range (notify_body env pass select) st.1.n_poll 0 st

/-- The body of the rebuild loop of `loop` for index `i`: a disabled item is skipped; the fds
of an enabled item are copied to `priv->fds` from `priv->n_fds` on, `priv->idx[i]` records
that base, and `priv->n_fds` grows by the item's fd count. -/
def rebuild_body (i : Nat) (priv : PollState) : PollState :=
  let p := priv.poll i
  if !p.enabled then priv
  else
    { priv with
      fds := for_range
        (fun j fds => Function.update fds (priv.n_fds + j) (p.fds.getD j SpaPollFd.zero))
        p.n_fds 0 priv.fds,
      idx := Function.update priv.idx i priv.n_fds,
      n_fds := priv.n_fds + p.n_fds }

/-- The rebuild step of `loop`. -/
def loop_rebuild (priv : PollState) : PollState :=
  if priv.rebuild_fds then
    { for_range rebuild_body priv.n_poll 0 { priv with n_fds := 1 } with rebuild_fds := false }
  else priv

/-- What one call of `poll (2)` gives: the return value `r`, `errno` when `r < 0`, and the
returned events for each slot of the array. -/
structure PollResult where
  r : Int
  errno : Nat
  revents : Nat → Nat

/-- The effect of `poll ((struct pollfd *) priv->fds, priv->n_fds, -1)` on the array: unless
it fails, the `revents` of the first `n_fds` slots are filled in. -/
def poll_syscall (pr : PollResult) (priv : PollState) : PollState :=
  if pr.r < 0 then priv
  else
    { priv with
      fds := fun k => if k < priv.n_fds then { priv.fds k with revents := pr.revents k }
        else priv.fds k }

/-- How a cycle of `loop` ends: `poll` interrupted (`continue`), `poll` failed (`break`),
`poll` returned 0 (`continue`), the wakeup branch was taken (`continue`), or the after pass
ran. -/
inductive CycleEnd where
  | interrupted
  | failed
  | timeout
  | wakeup
  | after
  deriving DecidableEq, Repr

/-- One cycle of the `while (priv->running)` loop of `loop`, as far as the poll set goes: idle
pass, rebuild, before pass, `poll`, wakeup check, after pass.  Returns the state, the callback
invocations in order, and how the cycle ended. -/
def loop_cycle (env : NotifyEnv) (pr : PollResult) (priv : PollState) :
    PollState × List PollEvent × CycleEnd :=
  let st1 := notify_pass env Pass.idle idle_call (priv, [])
  let s2 := loop_rebuild st1.1
  let st3 := notify_pass env Pass.before before_call (s2, st1.2)
  if pr.r < 0 then
    (st3.1, st3.2, if pr.errno = EINTR then CycleEnd.interrupted else CycleEnd.failed)
  else if pr.r = 0 then
    (poll_syscall pr st3.1, st3.2, CycleEnd.timeout)
  else
    let s4 := poll_syscall pr st3.1
    if (s4.fds 0).revents &&& POLLIN ≠ 0 then
      (s4, st3.2, CycleEnd.wakeup)
    else
      let st5 := notify_pass env Pass.after after_call (s4, st3.2)
      (st5.1, st5.2, CycleEnd.after)

/-- One cycle of `loop` with the invoke ring: when the cycle takes the wakeup branch, the ring
is drained (`loop_drain`, with `fuel` iterations at most). -/
def loop_iteration (ienv : Env) (fuel : Nat) (env : NotifyEnv) (pr : PollResult)
    (ring : LoopState) (priv : PollState) :
    (List Effect × Option LoopState) × PollState × List PollEvent × CycleEnd :=
  let c := loop_cycle env pr priv
  if c.2.2 = CycleEnd.wakeup then (loop_drain ienv fuel ring, c)
  else (([], some ring), c)

/-- An operation on the poll set: one of the three item operations, called on or off the loop
thread, or one cycle of `loop`. -/
inductive PollOp where
  | add (item : SpaPollItem) (in_thread : Bool) (err : Nat)
  | update (item : SpaPollItem) (in_thread : Bool)
  | remove (item : SpaPollItem) (in_thread : Bool)
  | cycle (env : NotifyEnv) (pr : PollResult)

/-- A run of the data loop: the state reached, the callback invocations so far and the ids
that `do_add_item` has returned so far, both in order. -/
structure PollRun where
  state : PollState
  events : List PollEvent
  ids : List Nat

/-- One operation added to a run. -/
def PollRun.step (run : PollRun) : PollOp → PollRun
  | PollOp.add item in_thread err =>
    let r := do_add_item run.state in_thread err item
    { run with state := r.2.2.1, ids := run.ids ++ [r.2.1] }
  | PollOp.update item in_thread =>
    { run with state := (do_update_item run.state in_thread item).2.1 }
  | PollOp.remove item in_thread =>
    { run with state := (do_remove_item run.state in_thread item).2.1 }
  | PollOp.cycle env pr =>
    let c := loop_cycle env pr run.state
    { run with state := c.1, events := run.events ++ c.2.1 }

/-- The run that a list of operations makes from a state. -/
def run_ops (priv : PollState) (ops : List PollOp) : PollRun :=
  ops.foldl PollRun.step { state := priv, events := [], ids := [] }

/-- The item `priv->poll[j]` as a callback pass leaves it: disabled when the item qualified
for the call and the call returned an error, untouched otherwise. -/
def notify_item (env : NotifyEnv)
    (select : SpaPollItem → Nat → (Nat → SpaPollFd) → Option NotifyCall) (priv : PollState)
    (j : Nat) : SpaPollItem :=
  match select (priv.poll j) (priv.idx j) priv.fds with
  | some call =>
    if SPA_RESULT_IS_ERROR (env call) then { priv.poll j with enabled := false }
    else priv.poll j
  | none => priv.poll j

/-- The invocation a callback pass makes for `priv->poll[j]`, if the item qualifies. -/
def notify_event (env : NotifyEnv) (pass : Pass)
    (select : SpaPollItem → Nat → (Nat → SpaPollFd) → Option NotifyCall) (priv : PollState)
    (j : Nat) : Option PollEvent :=
  (select (priv.poll j) (priv.idx j) priv.fds).map
    (fun call =>
      { pass := pass, index := j, id := (priv.poll j).id, call := call, result := env call })

/-- The state `after` differs from `before` at most in that items have been disabled: the item
count and the id counter are the same, and every slot holds its old item or its old item with
`enabled` cleared. -/
def only_disables (before after : PollState) : Prop :=
  after.n_poll = before.n_poll ∧ after.counter = before.counter ∧
    ∀ j, after.poll j = before.poll j ∨ after.poll j = { before.poll j with enabled := false }

/-- The ids of a run are bounded by the id counter: those of the stored items and those that
`do_add_item` has returned. -/
def PollRun.ids_bounded (run : PollRun) : Prop :=
  (∀ j, j < run.state.n_poll → (run.state.poll j).id ≤ run.state.counter) ∧
    ∀ id ∈ run.ids, id ≤ run.state.counter

/-- Slot 0 of the pollfd array is the wakeup eventfd `efd` with the events set up at
construction, and the pollfd count is at least 1. -/
def slot0_wakeup (efd : Int) (priv : PollState) : Prop :=
  (priv.fds 0).fd = efd ∧ (priv.fds 0).events = POLLIN ||| POLLPRI ||| POLLERR ∧
    1 ≤ priv.n_fds

/-- The fd count of `priv->poll[k]` when the item is enabled, 0 when it is not. -/
def enabled_fds (priv : PollState) (k : Nat) : Nat :=
  if (priv.poll k).enabled then (priv.poll k).n_fds else 0

/-- The number 1 plus the sum of the fd counts of the enabled items before index `i`. -/
def fd_base (priv : PollState) (i : Nat) : Nat :=
  1 + ((List.range i).map (enabled_fds priv)).sum

/-- The state of a cycle of `loop` when `poll` has returned: after the idle pass, the rebuild
step, the before pass and the `poll` call.  The wakeup check and the after pass read it. -/
def loop_cycle_polled (env : NotifyEnv) (pr : PollResult) (priv : PollState) : PollState :=
  poll_syscall pr
    (notify_pass env Pass.before before_call
      (loop_rebuild (notify_pass env Pass.idle idle_call (priv, [])).1,
        (notify_pass env Pass.idle idle_call (priv, [])).2)).1

/-- Whether an invocation is the after callback of the item at index `i`. -/
def PollEvent.is_after_of (i : Nat) (e : PollEvent) : Bool :=
  decide (e.pass = Pass.after ∧ e.index = i)

/-- Whether some fd of the `n` slots from `base` on has returned events. -/
def slice_has_revents (fds : Nat → SpaPollFd) (base n : Nat) : Bool :=
  (fds_slice fds base n).any (fun f => decide (f.revents ≠ 0))

/-- Every invocation of the trace that returned an error is the last one of the trace for its
index, and the item at that index is disabled in `priv`. -/
def errors_silence (trace : List PollEvent) (priv : PollState) : Prop :=
  ∀ pre ev post, trace = pre ++ ev :: post → SPA_RESULT_IS_ERROR ev.result = true →
    (∀ e ∈ post, e.index ≠ ev.index) ∧ (priv.poll ev.index).enabled = false

/-- Every stored item with id `x` is disabled, and `x` is an id that has been handed out. -/
def id_disabled (x : Nat) (priv : PollState) : Prop :=
  x ≤ priv.counter ∧
    ∀ j, j < priv.n_poll → (priv.poll j).id = x → (priv.poll j).enabled = false

/-- Whether an operation is a `do_update_item` that stores an item with id `x`. -/
def PollOp.updates (x : Nat) : PollOp → Bool
  | PollOp.update item _ => decide (item.id = x)
  | _ => false

/-! ## A concrete poll set -/

/-- An item with two fds, a before and an after callback. -/
def item_two_fds : SpaPollItem :=
  { id := 0, enabled := true, fds := [⟨5, POLLIN, 0⟩, ⟨6, POLLIN, 0⟩], idle_cb := none,
    before_cb := some 0x100, after_cb := some 0x200, user_data := 77 }

/-- An item without fds, with an idle and an after callback. -/
def item_no_fds : SpaPollItem :=
  { id := 0, enabled := true, fds := [], idle_cb := some 0x300, before_cb := none,
    after_cb := some 0x400, user_data := 88 }

/-- Callbacks that all return `SPA_RESULT_OK`. -/
def env_ok : NotifyEnv := fun _ => SPA_RESULT_OK

/-- Callbacks of which the one at `0x100` returns `SPA_RESULT_ERROR`. -/
def env_before_fails : NotifyEnv :=
  fun call => if call.cb = 0x100 then SPA_RESULT_ERROR else SPA_RESULT_OK

/-- A `poll` that returns 1 with `POLLIN` on slot 2 only. -/
def poll_second_fd : PollResult :=
  { r := 1, errno := 0, revents := fun k => if k = 2 then POLLIN else 0 }

/-- A `poll` that returns 1 with `POLLIN` on slot 0, the wakeup fd. -/
def poll_wakeup : PollResult :=
  { r := 1, errno := 0, revents := fun k => if k = 0 then POLLIN else 0 }

/-- Two items are added, the first off the loop thread, and one cycle runs. -/
def watch_ops : List PollOp :=
  [PollOp.add item_two_fds false 0, PollOp.add item_no_fds true 0,
   PollOp.cycle env_ok poll_second_fd]

/-- The run of `watch_ops` from the constructed state with eventfd 3. -/
def watch_run : PollRun := run_ops (pinos_data_loop_constructed 3) watch_ops

/-- The replacement for the first item of `watch_run` that has no fds any more. -/
def item_emptied : SpaPollItem := { item_two_fds with id := 1, fds := [] }

/-- The state after the two additions of `watch_ops`, before the first cycle. -/
def watch_added : PollState :=
  (run_ops (pinos_data_loop_constructed 3)
    [PollOp.add item_two_fds false 0, PollOp.add item_no_fds true 0]).state

/-- A `poll` that returns 1 with `POLLIN` on slot 1 only. -/
def poll_first_fd : PollResult :=
  { r := 1, errno := 0, revents := fun k => if k = 1 then POLLIN else 0 }

/-- The state after a cycle from `watch_added` in which the before callback at `0x100`
fails. -/
def watch_failed : PollState := (loop_cycle env_before_fails poll_first_fd watch_added).1

/-- Operations after the failure: a cycle, an addition, a cycle. -/
def later_ops : List PollOp :=
  [PollOp.cycle env_ok poll_first_fd, PollOp.add item_no_fds true 0,
   PollOp.cycle env_ok poll_first_fd]

/-- The idle invocation for the item at index 1 in the cycle from `watch_added`. -/
def ev_idle_1 : PollEvent :=
  { pass := Pass.idle, index := 1, id := 2,
    call := { cb := 0x300, fds := none, n_fds := 0, slice := [], user_data := 88 },
    result := SPA_RESULT_OK }

/-- The before invocation for the item at index 0 in the cycle from `watch_added`, failing. -/
def ev_before_0 : PollEvent :=
  { pass := Pass.before, index := 0, id := 1,
    call := { cb := 0x100, fds := some 1, n_fds := 2,
              slice := [⟨5, POLLIN, 0⟩, ⟨6, POLLIN, 0⟩], user_data := 77 },
    result := SPA_RESULT_ERROR }

/-- The after invocation for the item at index 1 in the cycle from `watch_added`. -/
def ev_after_1 : PollEvent :=
  { pass := Pass.after, index := 1, id := 2,
    call := { cb := 0x400, fds := some 3, n_fds := 0, slice := [], user_data := 88 },
    result := SPA_RESULT_OK }

/-! ## daemon.c: the registry listeners -/

/-- Modelled from the spec: `PinosListener` of pinos/client/sig.h, which is not among the
sources; a subscriber is intrusively linked, so under LP64 it is a list link of two pointers
and the notify function pointer. -/
def sizeof_PinosListener : Nat := 24

/-- The value of `offsetof (PinosDaemonPrivate, object_added)` under LP64: ten 8-byte slots
precede the member. -/
def offsetof_object_added : Nat := 80

/-- The value of `offsetof (PinosDaemonPrivate, object_removed)`: the member follows
`object_added`. -/
def offsetof_object_removed : Nat := offsetof_object_added + sizeof_PinosListener

/-- Modelled from the spec: `SPA_CONTAINER_OF (p, type, member)` of spa/defs.h, which is not
among the sources; the address of the object whose member at the given offset is `p`. -/
def SPA_CONTAINER_OF (p offsetof_member : Nat) : Nat := p - offsetof_member

/-- What the registry listeners read of a `PinosDaemonPrivate`: the registry of its daemon
(`priv->daemon->registry`) and its tables. -/
structure PinosDaemonPrivate where
  registry : PinosRegistry
  tables : DaemonTables
  deriving DecidableEq, Repr

/-- The objects of type `PinosDaemonPrivate` in memory, by address. -/
abbrev DaemonHeap := Nat → Option PinosDaemonPrivate

/-- GLib `g_hash_table_insert` on a string-keyed table: the value of an existing key is
replaced, a new key is added. -/
def g_hash_table_insert {α : Type} (table : List (String × α)) (key : String) (value : α) :
    List (String × α) :=
  if table.any (fun kv => kv.1 == key) then
    table.map (fun kv => if kv.1 == key then (kv.1, value) else kv)
  else table ++ [(key, value)]

/-- GLib `g_hash_table_remove` on a string-keyed table. -/
def g_hash_table_remove {α : Type} (table : List (String × α)) (key : String) :
    List (String × α) :=
  table.filter (fun kv => !(kv.1 == key))

/-- What a registry listener does besides maintaining the factory table: its calls of
`on_node_added` and `on_node_removed`, with the implementation pointer they are given. -/
inductive ListenerCall where
  | on_node_added (node : Option Implementation)
  | on_node_removed (node : Option Implementation)
  deriving DecidableEq, Repr

/-- The function `on_registry_object_added`, called with `listener` and the object.  `none`
is a fault: the pointer that `SPA_CONTAINER_OF` gives is not a `PinosDaemonPrivate`, or the
implementation of a factory-typed object is not a factory. -/
def on_registry_object_added (heap : DaemonHeap) (listener : Nat) (object : PinosObject) :
    Option (DaemonHeap × List ListenerCall) :=
  let priv := SPA_CONTAINER_OF listener offsetof_object_added
  match heap priv with
  | none => none
  | some p =>
    if object.type = p.registry.uri_node then
      some (heap, [ListenerCall.on_node_added object.implementation])
    else if object.type = p.registry.uri_node_factory then
      match object.implementation with
      | some (Implementation.node_factory factory) =>
        some (Function.update heap priv
          (some { p with
            tables := { p.tables with
              node_factories :=
                g_hash_table_insert p.tables.node_factories factory.name factory } }),
          [])
      | _ => none
    else some (heap, [])

/-- The function `on_registry_object_removed`, called with `listener` and the object.  As in
the source, the private data is computed with the member `object_added`. -/
def on_registry_object_removed (heap : DaemonHeap) (listener : Nat) (object : PinosObject) :
    Option (DaemonHeap × List ListenerCall) :=
  let priv := SPA_CONTAINER_OF listener offsetof_object_added
  match heap priv with
  | none => none
  | some p =>
    if object.type = p.registry.uri_node then
      some (heap, [ListenerCall.on_node_removed object.implementation])
    else if object.type = p.registry.uri_node_factory then
      match object.implementation with
      | some (Implementation.node_factory factory) =>
        some (Function.update heap priv
          (some { p with
            tables := { p.tables with
              node_factories := g_hash_table_remove p.tables.node_factories factory.name } }),
          [])
      | _ => none
    else some (heap, [])

/-- The emission of the registry signal `object_added` to the listener that
`pinos_daemon_init` registered for the daemon whose private data is at `priv`:
`priv->object_added.notify = on_registry_object_added`, added with `&priv->object_added`. -/
def emit_object_added (heap : DaemonHeap) (priv : Nat) (object : PinosObject) :
    Option (DaemonHeap × List ListenerCall) :=
  on_registry_object_added heap (priv + offsetof_object_added) object

/-- The emission of the registry signal `object_removed` to the listener that
`pinos_daemon_init` registered for the daemon whose private data is at `priv`:
`priv->object_removed.notify = on_registry_object_removed`, added with
`&priv->object_removed`. -/
def emit_object_removed (heap : DaemonHeap) (priv : Nat) (object : PinosObject) :
    Option (DaemonHeap × List ListenerCall) :=
  on_registry_object_removed heap (priv + offsetof_object_removed) object

/-! ## Concrete inputs for the registry listeners, the wrap of the ring and cleared slots -/

/-- A factory `alt`. -/
def alt_factory : PinosNodeFactory := { id := 51, name := "alt" }

/-- The registry object of the factory `alt`. -/
def alt_factory_object : PinosObject :=
  { id := 4, type := 4, implementation := some (Implementation.node_factory alt_factory) }

/-- A memory with one daemon, at address `0x1000`, with the registry and tables of the
concrete graph. -/
def daemon_heap : DaemonHeap :=
  fun a => if a = 0x1000 then some { registry := graph_registry, tables := graph_tables }
    else none

/-- The node factories of the daemon at `0x1000` in a memory. -/
def factories_at (heap : DaemonHeap) : List (String × PinosNodeFactory) :=
  match heap 0x1000 with
  | some p => p.tables.node_factories
  | none => []

/-- The memory after `object_added` was emitted for the factory `alt`. -/
def daemon_heap_added : DaemonHeap :=
  match emit_object_added daemon_heap 0x1000 alt_factory_object with
  | some r => r.1
  | none => daemon_heap

/-- The ring after one off-thread invoke of 32652 payload bytes on the fresh ring: write
index 32700. -/
def wrap_s1 : LoopState := (do_invoke env_idle run_s0 false 0x4000 1 32652 payload1 0).2.1

/-- The ring after the drain of that record: read and write index 32700. -/
def wrap_s2 : LoopState := drain_advance env_idle wrap_s1

/-- The registry of the concrete graph with a cleared slot before the sink node. -/
def cleared_registry : PinosRegistry :=
  { graph_registry with
    objects :=
      [some { id := 0, type := 1, implementation := some (Implementation.other 0) },
       none,
       some { id := 2, type := 3, implementation := some (Implementation.node sink_node) },
       some { id := 3, type := 3, implementation := some (Implementation.node src_node) }] }

/-- The registry `cleared_registry` with the cleared slot left out. -/
def compact_registry : PinosRegistry :=
  { cleared_registry with objects := cleared_registry.objects.filter (fun o => o.isSome) }

/-! ## data-loop.c: consistency and capacity of the poll set -/

/-- The state of a cycle of `loop` at the start of the before pass: after the idle pass and
the rebuild step. -/
def loop_cycle_before (env : NotifyEnv) (priv : PollState) : PollState :=
  loop_rebuild (notify_pass env Pass.idle idle_call (priv, [])).1

/-- The descriptor and the requested events of a pollfd; `revents` is what `poll` writes. -/
def SpaPollFd.request (f : SpaPollFd) : Int × Nat := (f.fd, f.events)

/-- Whether `priv->idx[i]` points at the fds of `priv->poll[i]`: the slots of the pollfd array
from `idx[i]` on hold the item's fds, one by one (descriptor and requested events). -/
def idx_points_at_own_fds (priv : PollState) (i : Nat) : Prop :=
  (fds_slice priv.fds (priv.idx i) (priv.poll i).n_fds).map SpaPollFd.request =
    (priv.poll i).fds.map SpaPollFd.request

/-- The poll set is consistent: every stored, enabled item with a positive fd count has its
base index pointing at its own fds. -/
def poll_set_consistent (priv : PollState) : Prop :=
  ∀ i, i < priv.n_poll → (priv.poll i).enabled = true → 0 < (priv.poll i).n_fds →
    idx_points_at_own_fds priv i

/-- The number of slots of the arrays `SpaPollItem poll[16]` and `int idx[16]` of
`_PinosDataLoopPrivate`. -/
def poll_slots : Nat := 16

/-- The number of slots of the array `SpaPollFd fds[32]` of `_PinosDataLoopPrivate`. -/
def fds_slots : Nat := 32

/-- The counts of the poll set are within the arrays: at most 16 stored items and at most 32
pollfds. -/
def within_capacity (priv : PollState) : Prop :=
  priv.n_poll ≤ poll_slots ∧ priv.n_fds ≤ fds_slots

/-- The operations of `n` calls of `do_add_item` with the same item. -/
def add_ops (item : SpaPollItem) (in_thread : Bool) (err : Nat) (n : Nat) : List PollOp :=
  List.replicate n (PollOp.add item in_thread err)

/-- An item with the one fd `fd`, a before and an after callback. -/
def item_one_fd (fd : Int) : SpaPollItem :=
  { id := 0, enabled := true, fds := [⟨fd, POLLIN, 0⟩], idle_cb := none,
    before_cb := some 0x100, after_cb := some 0x200, user_data := 0 }

/-- Items with the fds 5, 6 and 7 are added, with an item without fds in second place; one
cycle runs and rebuilds the pollfd array. -/
def shift_ops : List PollOp :=
  [PollOp.add (item_one_fd 5) false 0, PollOp.add item_no_fds true 0,
   PollOp.add (item_one_fd 6) true 0, PollOp.add (item_one_fd 7) true 0,
   PollOp.cycle env_ok poll_wakeup]

/-- The state of the run of `shift_ops` from the constructed state with eventfd 3. -/
def shift_built : PollState := (run_ops (pinos_data_loop_constructed 3) shift_ops).state

/-- The state after the item without fds, which has id 2, is removed from `shift_built`. -/
def shift_removed : PollState :=
  (do_remove_item shift_built true { item_no_fds with id := 2 }).2.1

/-- The before invocation for the item at index 2 in the cycle from `shift_removed`. -/
def ev_before_stale : PollEvent :=
  { pass := Pass.before, index := 2, id := 4,
    call := { cb := 0x100, fds := some 2, n_fds := 1, slice := [⟨6, POLLIN, 0⟩],
              user_data := 0 },
    result := SPA_RESULT_OK }

/-- The state after 16 additions of the item with two fds. -/
def full_state : PollState :=
  (run_ops (pinos_data_loop_constructed 3) (add_ops item_two_fds true 0 16)).state

/-- The state `after` has the layout of `before`: it differs at most in disabled items and in
the returned events of the pollfd array; base indices, descriptors, requested events and the
rebuild flag are the same. -/
def keeps_layout (before after : PollState) : Prop :=
  only_disables before after ∧ after.idx = before.idx ∧
    (∀ k, (after.fds k).request = (before.fds k).request) ∧
    after.rebuild_fds = before.rebuild_fds

/-- The rebuild flag is set or the poll set is consistent. -/
def rebuild_or_consistent (priv : PollState) : Prop :=
  priv.rebuild_fds = true ∨ poll_set_consistent priv

/-- Whether an operation is a `do_remove_item` whose item has a zero fd count, so that
`if (item->n_fds)` sets no rebuild. -/
def PollOp.removes_without_rebuild : PollOp → Bool
  | PollOp.remove item _ => decide (item.n_fds = 0)
  | _ => false

/-! ## data-loop.c: the poll fields of the private data as bytes

The arrays `poll[16]`, `idx[16]` and `fds[32]` lie in `_PinosDataLoopPrivate` between other
members.  `PollState` keeps them apart, which is what the C code does as long as every index
stays below the capacity of its array.  The definitions of this section work on the bytes of
the structure instead, so that a store behind the last slot of an array lands in the member
that follows it. -/

/-- Modelled from the spec: `sizeof (SpaPollFd)` of spa/include/spa/poll.h, which is not among
the sources.  The function `loop` casts the array to `struct pollfd *`, so the layout is that
of `struct pollfd`: `int fd` at 0, `short events` at 4, `short revents` at 6. -/
def sizeof_SpaPollFd : Nat := 8

/-- Byte offset of `events` in `SpaPollFd`. -/
def offsetof_fd_events : Nat := 4

/-- Byte offset of `revents` in `SpaPollFd`. -/
def offsetof_fd_revents : Nat := 6

/-- Modelled from the spec: `sizeof (SpaPollItem)` of spa/include/spa/poll.h, which is not
among the sources, under LP64: `uint32_t id` at 0, `bool enabled` at 4, `SpaPollFd *fds` at 8,
`unsigned int n_fds` at 16, the callbacks `idle_cb`, `before_cb` and `after_cb` at 24, 32 and
40, `void *user_data` at 48. -/
def sizeof_SpaPollItem : Nat := 56

/-- Byte offset of `enabled` in `SpaPollItem`. -/
def offsetof_item_enabled : Nat := 4

/-- Byte offset of `fds` in `SpaPollItem`. -/
def offsetof_item_fds : Nat := 8

/-- Byte offset of `n_fds` in `SpaPollItem`. -/
def offsetof_item_n_fds : Nat := 16

/-- Byte offset of `idle_cb` in `SpaPollItem`. -/
def offsetof_item_idle_cb : Nat := 24

/-- Byte offset of `before_cb` in `SpaPollItem`. -/
def offsetof_item_before_cb : Nat := 32

/-- Byte offset of `after_cb` in `SpaPollItem`. -/
def offsetof_item_after_cb : Nat := 40

/-- Byte offset of `user_data` in `SpaPollItem`. -/
def offsetof_item_user_data : Nat := 48

/-- The address of the member `n_poll` of `_PinosDataLoopPrivate`: it follows `buffer_data`,
the `DATAS_SIZE` bytes of the ring. -/
def addr_n_poll (buffer_data : Nat) : Nat := buffer_data + DATAS_SIZE

/-- The address of `poll[i]`: the array starts 8 bytes after `n_poll`, at the alignment of
its pointers. -/
def addr_poll (buffer_data i : Nat) : Nat :=
  addr_n_poll buffer_data + 8 + sizeof_SpaPollItem * i

/-- The address of `idx[i]`: the array of `int` follows the 16 slots of `poll`. -/
def addr_idx (buffer_data i : Nat) : Nat := addr_poll buffer_data 16 + 4 * i

/-- The address of `rebuild_fds`, the `bool` that follows the 16 slots of `idx`. -/
def addr_rebuild_fds (buffer_data : Nat) : Nat := addr_idx buffer_data 16

/-- The address of `fds[k]`: the array follows `rebuild_fds` at the alignment of `int`. -/
def addr_fds (buffer_data k : Nat) : Nat :=
  addr_rebuild_fds buffer_data + 4 + sizeof_SpaPollFd * k

/-- The address of `n_fds`, which follows the 32 slots of `fds`. -/
def addr_n_fds (buffer_data : Nat) : Nat := addr_fds buffer_data 32

/-- The address of `counter`, which follows `n_fds`. -/
def addr_counter (buffer_data : Nat) : Nat := addr_n_fds buffer_data + 4

/-- The address of `seq`, which follows `counter`. -/
def addr_seq (buffer_data : Nat) : Nat := addr_counter buffer_data + 4

/-- The address of `running`, a `gboolean`, which follows `seq`. -/
def addr_running (buffer_data : Nat) : Nat := addr_seq buffer_data + 4

/-- The address of `thread`, a `pthread_t`, which follows `running` at the alignment of
`unsigned long`. -/
def addr_thread (buffer_data : Nat) : Nat := addr_running buffer_data + 8

/-- The function `pinos_data_loop_constructed` on the bytes of the private data; `efd` is the
descriptor that `eventfd (0, 0)` returned. -/
def pinos_data_loop_constructed_bytes (buffer_data : Nat) (mem : Mem) (efd : Nat) : Mem :=
  let m1 := storeLE 4 mem (addr_fds buffer_data 0) efd
  let m2 := storeLE 2 m1 (addr_fds buffer_data 0 + offsetof_fd_events)
    (POLLIN ||| POLLPRI ||| POLLERR)
  let m3 := storeLE 2 m2 (addr_fds buffer_data 0 + offsetof_fd_revents) 0
  storeLE 4 m3 (addr_n_fds buffer_data) 1

/-- The function `start_thread` on the bytes of the private data; `err` is what
`pthread_create` returns and `tid` the thread it stores in `priv->thread` on success. -/
def start_thread_bytes (buffer_data : Nat) (mem : Mem) (err tid : Nat) :
    Mem × List ThreadEffect :=
  if loadLE 4 mem (addr_running buffer_data) = 0 then
    let m1 := storeLE 4 mem (addr_running buffer_data) 1
    if err ≠ 0 then (storeLE 4 m1 (addr_running buffer_data) 0, [ThreadEffect.pthread_create])
    else (storeLE 8 m1 (addr_thread buffer_data) tid, [ThreadEffect.pthread_create])
  else (mem, [])

/-- The function `do_add_item` on the bytes of the private data; `item` is the address of the
caller's `SpaPollItem`.  The statement `priv->poll[priv->n_poll] = *item` copies the
`sizeof (SpaPollItem)` bytes of the item to the address of slot `n_poll`, whatever `n_poll`
is.  Returns the result, the memory and the thread effects. -/
def do_add_item_bytes (buffer_data : Nat) (mem : Mem) (in_thread : Bool) (err tid : Nat)
    (item : Nat) : SpaResult × Mem × List ThreadEffect :=
  let m1 := storeLE 4 mem (addr_counter buffer_data)
    ((loadLE 4 mem (addr_counter buffer_data) + 1) % 2 ^ 32)
  let m2 := storeLE 4 m1 item (loadLE 4 m1 (addr_counter buffer_data))
  let m3 := memcpy m2 (addr_poll buffer_data (loadLE 4 m2 (addr_n_poll buffer_data))) item
    sizeof_SpaPollItem
  let m4 := storeLE 4 m3 (addr_n_poll buffer_data)
    ((loadLE 4 m3 (addr_n_poll buffer_data) + 1) % 2 ^ 32)
  let m5 := if loadLE 4 m4 (item + offsetof_item_n_fds) ≠ 0 then
      storeLE 1 m4 (addr_rebuild_fds buffer_data) 1
    else m4
  if !in_thread then
    let r := start_thread_bytes buffer_data m5 err tid
    (SPA_RESULT_OK, r.1, ThreadEffect.wakeup :: r.2)
  else
    (SPA_RESULT_OK, m5, [])

/-- The statement `priv->fds[priv->n_fds + j] = p->fds[j]` of the rebuild loop on the bytes of
the private data; `p` is the address of `priv->poll[i]`. -/
def rebuild_copy_bytes (buffer_data p j : Nat) (mem : Mem) : Mem :=
  memcpy mem (addr_fds buffer_data ((loadLE 4 mem (addr_n_fds buffer_data) + j) % 2 ^ 32))
    (loadLE 8 mem (p + offsetof_item_fds) + sizeof_SpaPollFd * j) sizeof_SpaPollFd

/-- The body of the rebuild loop of `loop` for index `i` on the bytes of the private data. -/
def rebuild_body_bytes (buffer_data i : Nat) (mem : Mem) : Mem :=
  let p := addr_poll buffer_data i
  if loadLE 1 mem (p + offsetof_item_enabled) = 0 then mem
  else
    let m1 := for_range (rebuild_copy_bytes buffer_data p)
      (loadLE 4 mem (p + offsetof_item_n_fds)) 0 mem
    let m2 := storeLE 4 m1 (addr_idx buffer_data i) (loadLE 4 m1 (addr_n_fds buffer_data))
    storeLE 4 m2 (addr_n_fds buffer_data)
      ((loadLE 4 m2 (addr_n_fds buffer_data) + loadLE 4 m2 (p + offsetof_item_n_fds)) % 2 ^ 32)

/-- The rebuild step of `loop` on the bytes of the private data. -/
def loop_rebuild_bytes (buffer_data : Nat) (mem : Mem) : Mem :=
  if loadLE 1 mem (addr_rebuild_fds buffer_data) ≠ 0 then
    let m1 := storeLE 4 mem (addr_n_fds buffer_data) 1
    let m2 := for_range (rebuild_body_bytes buffer_data) (loadLE 4 m1 (addr_n_poll buffer_data))
      0 m1
    storeLE 1 m2 (addr_rebuild_fds buffer_data) 0
  else mem

/-- A 32-bit word read as a C `int`. -/
def int_of_word (v : Nat) : Int := if v < 2 ^ 31 then (v : Int) else (v : Int) - 2 ^ 32

/-- The pollfd `priv->fds[k]` read from the bytes of the private data. -/
def fds_of_bytes (buffer_data : Nat) (mem : Mem) (k : Nat) : SpaPollFd :=
  { fd := int_of_word (loadLE 4 mem (addr_fds buffer_data k)),
    events := loadLE 2 mem (addr_fds buffer_data k + offsetof_fd_events),
    revents := loadLE 2 mem (addr_fds buffer_data k + offsetof_fd_revents) }

/-- The bytes of a caller's array of pollfds at address `a`. -/
def store_fds (mem : Mem) (a : Nat) : List SpaPollFd → Mem
  | [] => mem
  | f :: rest =>
    store_fds
      (storeLE 2 (storeLE 2 (storeLE 4 mem a (f.fd % 2 ^ 32).toNat) (a + offsetof_fd_events)
        f.events) (a + offsetof_fd_revents) f.revents)
      (a + sizeof_SpaPollFd) rest

/-- The bytes of a caller's `SpaPollItem` at address `a`, with its pollfds at address `fds`; a
callback that is `none` is the `NULL` pointer. -/
def store_item (mem : Mem) (a : Nat) (item : SpaPollItem) (fds : Nat) : Mem :=
  let m1 := storeLE 4 mem a item.id
  let m2 := storeLE 1 m1 (a + offsetof_item_enabled) (if item.enabled then 1 else 0)
  let m3 := storeLE 8 m2 (a + offsetof_item_fds) fds
  let m4 := storeLE 4 m3 (a + offsetof_item_n_fds) item.n_fds
  let m5 := storeLE 8 m4 (a + offsetof_item_idle_cb) (item.idle_cb.getD 0)
  let m6 := storeLE 8 m5 (a + offsetof_item_before_cb) (item.before_cb.getD 0)
  let m7 := storeLE 8 m6 (a + offsetof_item_after_cb) (item.after_cb.getD 0)
  let m8 := storeLE 8 m7 (a + offsetof_item_user_data) item.user_data
  store_fds m8 fds item.fds

/-! ## Concrete inputs for the bytes of the private data -/

/-- The address of the caller's item in the concrete memory. -/
def caller_item : Nat := 0x30000

/-- The address of the caller's pollfds in the concrete memory. -/
def caller_fds : Nat := 0x40000

/-- Zero-initialised private data behind the ring at `ring_base`, constructed with eventfd 3,
and the caller's item `item_two_fds` with its pollfds. -/
def bytes_start : Mem :=
  pinos_data_loop_constructed_bytes ring_base
    (store_item (fun _ => 0) caller_item item_two_fds caller_fds) 3

/-- The memory after `n` calls of `do_add_item`, on the loop thread, with the caller's item. -/
def bytes_added (n : Nat) : Mem :=
  for_range (fun _ mem => (do_add_item_bytes ring_base mem true 0 0 caller_item).2.1) n 0
    bytes_start

/-- An enabled item with a before callback that has the 16 fds `first` to `first + 15`. -/
def item_sixteen_fds (first : Int) : SpaPollItem :=
  { id := 0, enabled := true,
    fds := (List.range 16).map (fun k => ⟨first + (k : Int), POLLIN, 0⟩),
    idle_cb := none, before_cb := some 0x100, after_cb := none, user_data := 0 }

/-- Zero-initialised private data behind the ring at `ring_base`, constructed with eventfd 3,
and three caller's items: at `0x30000` one with the fds 10 to 25, at `0x30100` one with the fds
30 to 45, at `0x30200` one without fds. -/
def wide_start : Mem :=
  pinos_data_loop_constructed_bytes ring_base
    (store_item
      (store_item
        (store_item (fun _ => 0) 0x30000 (item_sixteen_fds 10) 0x40000)
        0x30100 (item_sixteen_fds 30) 0x40100)
      0x30200 item_no_fds 0x40200) 3

/-- The memory after the two items with fds are added to `wide_start`, on the loop thread. -/
def wide_added : Mem :=
  (do_add_item_bytes ring_base
    (do_add_item_bytes ring_base wide_start true 0 0 0x30000).2.1 true 0 0 0x30100).2.1

/-- The memory after the rebuild step of `loop` on `wide_added`. -/
def wide_rebuilt : Mem := loop_rebuild_bytes ring_base wide_added

/-- The memory after the item without fds is added to `wide_rebuilt` on the loop thread, as a
before callback of the cycle may do when the before pass, which follows the rebuild step,
invokes it. -/
def wide_third : Mem := (do_add_item_bytes ring_base wide_rebuilt true 0 0 0x30200).2.1

/-! ## data-loop.c: callbacks that call back into the poll set

A callback runs on the loop thread.  There `do_add_item`, `do_update_item` and
`do_remove_item` take their in-thread path, so a callback may change the poll set before it
returns.  `NotifyEnv` covers the callbacks that do not; the definitions of this section cover
those that do. -/

/-- The code behind the callbacks of the poll items when it may change the poll set: the
result of a call and the poll set it leaves. -/
abbrev ReentrantEnv := NotifyCall → PollState → SpaResult × PollState

/-- The body of a callback pass for index `i` with such callbacks.  The pointer
`p = &priv->poll[i]` is taken before the call; on an error result `p->enabled = false` is
stored through it, that is, in slot `i` of the poll set as the callback left it. -/
def notify_body_reentrant (env : ReentrantEnv) (pass : Pass)
    (select : SpaPollItem → Nat → (Nat → SpaPollFd) → Option NotifyCall) (i : Nat)
    (st : PollState × List PollEvent) : PollState × List PollEvent :=
  let p := st.1.poll i
  match select p (st.1.idx i) st.1.fds with
  | some call =>
    let r := env call st.1
    let ev : PollEvent := { pass := pass, index := i, id := p.id, call := call, result := r.1 }
    if SPA_RESULT_IS_ERROR r.1 then
      ({ r.2 with poll := Function.update r.2.poll i { r.2.poll i with enabled := false } },
        st.2 ++ [ev])
    else (r.2, st.2 ++ [ev])
  | none => st

/-- A callback pass of `loop` with such callbacks, from index `i` on: the condition
`i < priv->n_poll` reads the count that the calls so far have left.  `none` when `fuel`
iterations do not end the loop. -/
def notify_loop_reentrant (env : ReentrantEnv) (pass : Pass)
    (select : SpaPollItem → Nat → (Nat → SpaPollFd) → Option NotifyCall) :
    Nat → Nat → PollState × List PollEvent → Option (PollState × List PollEvent)
  | 0, i, st => if i < st.1.n_poll then none else some st
  | fuel + 1, i, st =>
    if i < st.1.n_poll then
      notify_loop_reentrant env pass select fuel (i + 1)
        (notify_body_reentrant env pass select i st)
    else some st

/-- One cycle of the `while (priv->running)` loop of `loop` with such callbacks; every pass
may take `fuel` iterations. -/
def loop_cycle_reentrant (fuel : Nat) (env : ReentrantEnv) (pr : PollResult)
    (priv : PollState) : Option (PollState × List PollEvent × CycleEnd) :=
  match notify_loop_reentrant env Pass.idle idle_call fuel 0 (priv, []) with
  | none => none
  | some st1 =>
    match notify_loop_reentrant env Pass.before before_call fuel 0
        (loop_rebuild st1.1, st1.2) with
    | none => none
    | some st3 =>
      if pr.r < 0 then
        some (st3.1, st3.2, if pr.errno = EINTR then CycleEnd.interrupted else CycleEnd.failed)
      else if pr.r = 0 then
        some (poll_syscall pr st3.1, st3.2, CycleEnd.timeout)
      else
        let s4 := poll_syscall pr st3.1
        if (s4.fds 0).revents &&& POLLIN ≠ 0 then
          some (s4, st3.2, CycleEnd.wakeup)
        else
          match notify_loop_reentrant env Pass.after after_call fuel 0 (s4, st3.2) with
          | none => none
          | some st5 => some (st5.1, st5.2, CycleEnd.after)

/-- The callbacks of a `NotifyEnv`, which leave the poll set alone. -/
def ReentrantEnv.of_results (env : NotifyEnv) : ReentrantEnv := fun call priv => (env call, priv)

/-- A second item with one fd, with callbacks of its own. -/
def item_other_fd : SpaPollItem :=
  { item_one_fd 6 with before_cb := some 0x110, after_cb := some 0x210 }

/-- The state after the item with fd 5 (it gets id 1) and the item with fd 6 (id 2) are
added to the constructed state with eventfd 3. -/
def pair_added : PollState :=
  (run_ops (pinos_data_loop_constructed 3)
    [PollOp.add (item_one_fd 5) false 0, PollOp.add item_other_fd true 0]).state

/-- Callbacks of which the one at `0x100` removes its own item, the one with id 1, and then
returns `SPA_RESULT_ERROR`. -/
def env_removes_itself : ReentrantEnv :=
  fun call priv =>
    if call.cb = 0x100 then
      (SPA_RESULT_ERROR, (do_remove_item priv true { item_one_fd 5 with id := 1 }).2.1)
    else (SPA_RESULT_OK, priv)

/-- The before invocation for the item with id 1 in the cycle from `pair_added`, failing. -/
def ev_before_removed : PollEvent :=
  { pass := Pass.before, index := 0, id := 1,
    call := { cb := 0x100, fds := some 1, n_fds := 1, slice := [⟨5, POLLIN, 0⟩],
              user_data := 0 },
    result := SPA_RESULT_ERROR }

/-! ## Theorems: data loop -/

/-- One iteration of the drain when the ring holds unread bytes. -/
theorem loop_drain_step (env : Env) (fuel : Nat) (priv : LoopState)
    (h : (spa_ringbuffer_get_read_offset priv.buffer).1 > 0) :
    loop_drain env (fuel + 1) priv =
      (Effect.call (drain_call priv) :: (loop_drain env fuel (drain_advance env priv)).1,
        (loop_drain env fuel (drain_advance env priv)).2) := by
  simp only [loop_drain, h, if_true]

/-- The drain stops as soon as the ring is empty. -/
theorem loop_drain_done (env : Env) (fuel : Nat) (priv : LoopState)
    (h : (spa_ringbuffer_get_read_offset priv.buffer).1 = 0) :
    loop_drain env (fuel + 1) priv = ([], some priv) := by
  simp [loop_drain, h]

/-- The first write area starts at the write index. -/
theorem spa_ringbuffer_get_write_areas_offset (rbuf : SpaRingbuffer) :
    (spa_ringbuffer_get_write_areas rbuf).1.offset = rbuf.writeindex := by
  unfold spa_ringbuffer_get_write_areas
  dsimp only
  split_ifs <;> rfl

/-- C1: on the loop thread `do_invoke` makes exactly one call, `func` with `async = false`
and the given `seq`, `size`, `data` and `user_data`; it returns the result of that call
unchanged; it does nothing else: no eventfd kick is among its effects, and the state it
leaves (ring indices, write index in particular, and memory) is the state `func` left. -/
theorem do_invoke_in_thread (env : Env) (priv : LoopState)
    (func seq size data user_data : Nat) :
    (do_invoke env priv true func seq size data user_data).2.2 =
        [Effect.call ⟨func, false, seq, size, data, user_data⟩] ∧
      (do_invoke env priv true func seq size data user_data).1 =
        (env ⟨func, false, seq, size, data, user_data⟩ priv).1 ∧
      Effect.wakeup ∉ (do_invoke env priv true func seq size data user_data).2.2 ∧
      (do_invoke env priv true func seq size data user_data).2.1.buffer.writeindex =
        (env ⟨func, false, seq, size, data, user_data⟩ priv).2.buffer.writeindex ∧
      (do_invoke env priv true func seq size data user_data).2.1.buffer =
        (env ⟨func, false, seq, size, data, user_data⟩ priv).2.buffer ∧
      (do_invoke env priv true func seq size data user_data).2.1.mem =
        (env ⟨func, false, seq, size, data, user_data⟩ priv).2.mem := by
  simp [do_invoke]

/-- C2: an off-thread `do_invoke` that is not rejected as queue full calls no function (its
only effect is the eventfd kick), moves the write index forward by the `item_size` stored in
the record it wrote (wrapping at the ring size), leaves the read index alone, and returns
`SPA_RESULT_RETURN_ASYNC (seq)` when `seq` is not `SPA_ID_INVALID` and `SPA_RESULT_OK` when
it is.  The ring it leaves is the one `spa_ringbuffer_write_advance` gives for that
`item_size`. -/
theorem do_invoke_off_thread_accepted (env : Env) (priv : LoopState)
    (func seq size data user_data : Nat)
    (h : sizeof_InvokeItem ≤ (spa_ringbuffer_get_write_areas priv.buffer).1.len) :
    (do_invoke env priv false func seq size data user_data).2.2 = [Effect.wakeup] ∧
      (∀ c, Effect.call c ∉ (do_invoke env priv false func seq size data user_data).2.2) ∧
      (do_invoke env priv false func seq size data user_data).2.1.buffer.writeindex =
        (priv.buffer.writeindex +
          loadLE 8 (do_invoke env priv false func seq size data user_data).2.1.mem
            (priv.buffer_data + priv.buffer.writeindex + off_item_size)) % priv.buffer.size ∧
      (do_invoke env priv false func seq size data user_data).2.1.buffer.readindex =
        priv.buffer.readindex ∧
      (seq ≠ SPA_ID_INVALID →
        (do_invoke env priv false func seq size data user_data).1 =
          SPA_RESULT_RETURN_ASYNC seq) ∧
      (seq = SPA_ID_INVALID →
        (do_invoke env priv false func seq size data user_data).1 = SPA_RESULT_OK) ∧
      (do_invoke env priv false func seq size data user_data).2.1.buffer =
        spa_ringbuffer_write_advance priv.buffer
          (loadLE 8 (do_invoke env priv false func seq size data user_data).2.1.mem
            (priv.buffer_data + priv.buffer.writeindex + off_item_size)) := by
  have hoff := spa_ringbuffer_get_write_areas_offset priv.buffer
  have hlt : ¬ (spa_ringbuffer_get_write_areas priv.buffer).1.len < sizeof_InvokeItem :=
    Nat.not_lt.mpr h
  refine ⟨?_, ?_, ?_, ?_, ?_, ?_, ?_⟩
  · simp [do_invoke, hlt]
  · intro c
    simp [do_invoke, hlt]
  · simp [do_invoke, hlt, hoff, spa_ringbuffer_write_advance]
  · simp [do_invoke, hlt, spa_ringbuffer_write_advance]
  · intro hs
    simp [do_invoke, hlt, hs]
  · intro hs
    simp [do_invoke, hlt, hs]
  · simp [do_invoke, hlt, hoff]

/-- C2 at a concrete input: on the freshly initialised ring, an off-thread invoke with
`seq = 42` and an 8-byte payload is accepted, returns `SPA_RESULT_RETURN_ASYNC (42)` and
moves the write index from 0 to 56. -/
theorem do_invoke_off_thread_accepted_witness :
    sizeof_InvokeItem ≤ (spa_ringbuffer_get_write_areas run_s0.buffer).1.len ∧
      (do_invoke env_idle run_s0 false 0x4000 42 8 payload1 0).1 = SPA_RESULT_RETURN_ASYNC 42 ∧
      (do_invoke env_idle run_s0 false 0x4000 42 8 payload1 0).2.1.buffer.writeindex = 56 :=
  ⟨by decide,
    (do_invoke_off_thread_accepted env_idle run_s0 0x4000 42 8 payload1 0 (by decide)).2.2.2.2.1
      (by decide),
    by decide⟩

/-- C3, the code at a failing input.  After one accepted record of 48 + 32600 bytes the ring
has read index 0 and write index 32648, so the bytes at offsets 0 to 32647 are unread and the
write areas hold 119 + 0 bytes.  An off-thread invoke with a 100-byte payload needs 148 bytes
and does not fit, yet `do_invoke` returns `SPA_RESULT_RETURN_ASYNC (2)`, which is no error,
moves the write index to 100, and overwrites the unread byte at offset 0 (136 becomes 100). -/
theorem do_invoke_overflow_not_rejected :
    run_s1.buffer.readindex = 0 ∧ run_s1.buffer.writeindex = 32648 ∧
      (spa_ringbuffer_get_write_areas run_s1.buffer).1.len = 119 ∧
      (spa_ringbuffer_get_write_areas run_s1.buffer).2.len = 0 ∧
      (spa_ringbuffer_get_write_areas run_s1.buffer).1.len +
          (spa_ringbuffer_get_write_areas run_s1.buffer).2.len < sizeof_InvokeItem + 100 ∧
      (do_invoke env_idle run_s1 false 0x5000 2 100 payload2 0).1 =
        SPA_RESULT_RETURN_ASYNC 2 ∧
      SPA_RESULT_IS_ERROR (do_invoke env_idle run_s1 false 0x5000 2 100 payload2 0).1 = false ∧
      (do_invoke env_idle run_s1 false 0x5000 2 100 payload2 0).2.1.buffer.writeindex = 100 ∧
      run_s1.mem (ring_base + 0) = 136 ∧
      (do_invoke env_idle run_s1 false 0x5000 2 100 payload2 0).2.1.mem (ring_base + 0) = 100 := by
  decide

/-- C4, the code at a failing input.  Two off-thread invokes on the fresh ring, the first
`(func = 0x4000, seq = 1, size = 32600)` and the second `(func = 0x5000, seq = 2, size = 100)`,
both return success.  The drain that follows, with any fuel of at least 2, finds the ring
empty after one call, and that call is neither of the two submitted: it is the call the
second payload spells out, `func = 0xBAD` with `async = true` and `seq = 9`. -/
theorem loop_drain_after_overflow (fuel : Nat) :
    (do_invoke env_idle run_s0 false 0x4000 1 32600 payload1 0).1 = SPA_RESULT_RETURN_ASYNC 1 ∧
      (do_invoke env_idle run_s1 false 0x5000 2 100 payload2 0).1 = SPA_RESULT_RETURN_ASYNC 2 ∧
      (loop_drain env_idle (fuel + 2) run_s2).1 = [Effect.call ⟨0xBAD, true, 9, 0, 0, 0⟩] ∧
      (loop_drain env_idle (fuel + 2) run_s2).2.map (fun priv => priv.buffer) =
        some ⟨100, 100, 32768⟩ := by
  have h1 : (spa_ringbuffer_get_read_offset run_s2.buffer).1 > 0 := by decide
  have h2 : (spa_ringbuffer_get_read_offset (drain_advance env_idle run_s2).buffer).1 = 0 := by
    decide
  have hc : drain_call run_s2 = ⟨0xBAD, true, 9, 0, 0, 0⟩ := by decide
  have hb : (drain_advance env_idle run_s2).buffer = ⟨100, 100, 32768⟩ := by decide
  rw [loop_drain_step env_idle (fuel + 1) run_s2 h1,
    loop_drain_done env_idle fuel (drain_advance env_idle run_s2) h2]
  refine ⟨by decide, by decide, ?_, ?_⟩
  · simp [hc]
  · simp [hb]

/-! ## Theorems: daemon -/

/-- C5: `handle_create_node` replies with the error "can't find factory" exactly when the
factory table has no entry for the requested name, and with the error "can't create node"
exactly when the factory is found and gives no node.  In both cases the requesting client owns
what it owned before and the reply carries no object path.  Otherwise the reply is the object
path of the created node and the node is appended to the objects of the requesting client. -/
theorem handle_create_node_replies
    (create_node : PinosNodeFactory → PinosClient → String → List (String × String) →
      Option PinosNode)
    (priv : DaemonTables) (sender arg_factory_name arg_name : String)
    (arg_properties : List (String × String)) :
    ((∃ name, (handle_create_node create_node priv sender arg_factory_name arg_name
          arg_properties).1 = Reply.dbus_error name "can't find factory") ↔
        g_hash_table_lookup priv.node_factories arg_factory_name = none) ∧
      ((∃ name, (handle_create_node create_node priv sender arg_factory_name arg_name
          arg_properties).1 = Reply.dbus_error name "can't create node") ↔
        ∃ factory, g_hash_table_lookup priv.node_factories arg_factory_name = some factory ∧
          create_node factory
            ((sender_get_client priv.clients sender true).getD { sender := sender, objects := [] })
            arg_name arg_properties = none) ∧
      ((∃ name message, (handle_create_node create_node priv sender arg_factory_name arg_name
          arg_properties).1 = Reply.dbus_error name message) →
        (handle_create_node create_node priv sender arg_factory_name arg_name arg_properties).2 =
          (sender_get_client priv.clients sender true).getD { sender := sender, objects := [] } ∧
        ∀ path, (handle_create_node create_node priv sender arg_factory_name arg_name
          arg_properties).1 ≠ Reply.value path) ∧
      (∀ factory node,
        g_hash_table_lookup priv.node_factories arg_factory_name = some factory →
        create_node factory
            ((sender_get_client priv.clients sender true).getD { sender := sender, objects := [] })
            arg_name arg_properties = some node →
        (handle_create_node create_node priv sender arg_factory_name arg_name
          arg_properties).1 = Reply.value node.object_path ∧
        (handle_create_node create_node priv sender arg_factory_name arg_name
          arg_properties).2.objects =
          ((sender_get_client priv.clients sender true).getD
            { sender := sender, objects := [] }).objects ++ [node.id]) := by
  have hne : ("can't create node" : String) ≠ "can't find factory" := by decide
  unfold handle_create_node
  cases hf : g_hash_table_lookup priv.node_factories arg_factory_name with
  | none => simp [hne]
  | some factory =>
    cases hn : create_node factory
        ((sender_get_client priv.clients sender true).getD { sender := sender, objects := [] })
        arg_name arg_properties with
    | none =>
      simp [hn, hne]
      intro f1 n1 h1
      subst h1
      simp [hn]
    | some node =>
      simp [hn, pinos_client_add_object, pinos_node_get_object_path]
      intro f1 n1 h1 h2
      subst h1
      rw [hn] at h2
      cases h2
      exact ⟨rfl, rfl⟩

/-- C5 at concrete inputs: with the one factory `sink` registered, `CreateNode ("foo", ...)`
is answered "can't find factory", `CreateNode ("sink", "broken", ...)` is answered "can't
create node", and `CreateNode ("sink", "x", ...)` is answered with the node's object path
while the new client comes to own node 1. -/
theorem handle_create_node_replies_witness :
    handle_create_node create_sink graph_tables ":1.5" "foo" "x" [] =
        (Reply.dbus_error "org.pinos.Error" "can't find factory",
          { sender := ":1.5", objects := [] }) ∧
      handle_create_node create_sink graph_tables ":1.5" "sink" "broken" [] =
        (Reply.dbus_error "org.pinos.Error" "can't create node",
          { sender := ":1.5", objects := [] }) ∧
      (handle_create_node create_sink graph_tables ":1.5" "sink" "x" []).1 =
        Reply.value sink_node.object_path ∧
      (handle_create_node create_sink graph_tables ":1.5" "sink" "x" []).2.objects =
        ((sender_get_client graph_tables.clients ":1.5" true).getD
          { sender := ":1.5", objects := [] }).objects ++ [sink_node.id] :=
  ⟨by decide, by decide,
    ((handle_create_node_replies create_sink graph_tables ":1.5" "sink" "x" []).2.2.2
      sink_factory sink_node (by decide) (by decide)).1,
    ((handle_create_node_replies create_sink graph_tables ":1.5" "sink" "x" []).2.2.2
      sink_factory sink_node (by decide) (by decide)).2⟩

/-- With a name given, the scan of a registry whose slots can all be read ends with the
first free port that the matches offer, asked in registry order. -/
theorem find_port_scan_first_free (uri_node : Nat) (name : String)
    (other_direction : PinosDirection) (objects : List (Option PinosObject))
    (h : objects.all (slot_scannable uri_node) = true) :
    find_port_scan uri_node true name other_direction objects =
      some ((objects.filterMap (slot_match uri_node name)).findSome?
        (fun n => pinos_node_get_free_port n (pinos_direction_reverse other_direction))) := by
  induction objects with
  | nil => rfl
  | cons slot rest ih =>
    rw [List.all_cons, Bool.and_eq_true] at h
    have ih' := ih h.2
    have hs := h.1
    cases slot with
    | none => simp [slot_scannable] at hs
    | some o =>
      by_cases ht : o.type = uri_node
      · cases hi : o.implementation with
        | none => simp [find_port_scan, slot_match, ht, hi, ih']
        | some impl =>
          cases impl with
          | node n =>
            by_cases hr : n.flags &&& PINOS_NODE_FLAG_REMOVING = 0
            · by_cases hx : g_str_has_suffix (pinos_node_get_object_path n) name = true
              · cases hp : pinos_node_get_free_port n (pinos_direction_reverse other_direction)
                  with
                | none => simp [find_port_scan, slot_match, ht, hi, hr, hx, hp, ih']
                | some best => simp [find_port_scan, slot_match, ht, hi, hr, hx, hp]
              · simp [find_port_scan, slot_match, ht, hi, hr, hx, ih']
            · simp [find_port_scan, slot_match, ht, hi, hr, ih']
          | node_factory f => simp [slot_scannable, ht, hi] at hs
          | other q => simp [slot_scannable, ht, hi] at hs
      · simp [find_port_scan, slot_match, ht, ih']

/-- Without a name the scan never ends with a port. -/
theorem find_port_scan_no_name (uri_node : Nat) (name : String)
    (other_direction : PinosDirection) (objects : List (Option PinosObject)) (best : PinosPort) :
    find_port_scan uri_node false name other_direction objects ≠ some (some best) := by
  induction objects with
  | nil => simp [find_port_scan]
  | cons slot rest ih =>
    cases slot with
    | none => simp [find_port_scan]
    | some o =>
      by_cases ht : o.type = uri_node
      · cases hi : o.implementation with
        | none => simpa [find_port_scan, ht, hi] using ih
        | some impl =>
          cases impl with
          | node n =>
            by_cases hr : n.flags &&& PINOS_NODE_FLAG_REMOVING = 0
            · simpa [find_port_scan, ht, hi, hr] using ih
            · simpa [find_port_scan, ht, hi, hr] using ih
          | node_factory f => simp [find_port_scan, ht, hi]
          | other q => simp [find_port_scan, ht, hi]
      · simpa [find_port_scan, ht] using ih

/-- Whenever `pinos_daemon_find_port` returns `NULL`, the error it sets is the not-found error
with message "No matching Node found". -/
theorem pinos_daemon_find_port_error (registry : PinosRegistry) (other_port : PinosPort)
    (name : Option String) (error : GError)
    (h : pinos_daemon_find_port registry other_port name = FindPort.not_found error) :
    error = no_matching_node_error := by
  unfold pinos_daemon_find_port at h
  dsimp only at h
  split at h
  · cases h
  · cases h
  · cases h
    rfl

/-- With the empty string as name, `pinos_daemon_find_port` never returns a port. -/
theorem pinos_daemon_find_port_empty_name (registry : PinosRegistry) (other_port : PinosPort)
    (best : PinosPort) :
    pinos_daemon_find_port registry other_port (some "") ≠ FindPort.found best := by
  unfold pinos_daemon_find_port
  have hlen : decide (("" : String).length > 0) = false := by decide
  dsimp only
  rw [hlen]
  have hs := find_port_scan_no_name registry.uri_node ((some "" : Option String).getD "")
    other_port.direction registry.objects
  split
  · simp
  · rename_i b hb
    exact absurd hb (hs b)
  · simp

/-- C6, as stated, fails.  In the concrete registry the first match for `/sink/0` is the busy
node, which has no free input port, so a first-match-only lookup returns nothing; yet
`pinos_daemon_find_port` goes on to the sink node and returns its free input port. -/
theorem pinos_daemon_find_port_not_first_match_only :
    (matching_nodes graph_registry "/sink/0").head? = some busy_node ∧
      pinos_node_get_free_port busy_node (pinos_direction_reverse src_out.direction) = none ∧
      find_port_first_match_only graph_registry src_out "/sink/0" =
        FindPort.not_found no_matching_node_error ∧
      pinos_daemon_find_port graph_registry src_out (some "/sink/0") = FindPort.found sink_in := by
  decide

/-- C6, amended: for every registry whose slots can all be read, every source port and every
non-empty name, `pinos_daemon_find_port` asks the matches (nodes, not flagged REMOVING, object
path ending with the name) in registry iteration order for a free port in the direction
opposite to the source port, and returns the first port offered; it returns nothing, with the
not-found error, exactly when no match offers one. -/
theorem pinos_daemon_find_port_first_free (registry : PinosRegistry) (other_port : PinosPort)
    (name : String) (hname : name.length > 0)
    (hreg : registry.objects.all (slot_scannable registry.uri_node) = true) :
    pinos_daemon_find_port registry other_port (some name) =
      find_port_first_free registry other_port name := by
  unfold pinos_daemon_find_port find_port_first_free matching_nodes
  have hn : decide (name.length > 0) = true := by simpa using hname
  dsimp only
  rw [hn, Option.getD_some,
    find_port_scan_first_free registry.uri_node name other_port.direction registry.objects hreg]
  cases (List.filterMap (slot_match registry.uri_node name) registry.objects).findSome?
    (fun n => pinos_node_get_free_port n (pinos_direction_reverse other_port.direction)) <;> rfl

/-- C6, amended, at a concrete input: the lookup of `/sink/0` from the source's output port
passes the busy node and returns the sink's free input port. -/
theorem pinos_daemon_find_port_first_free_witness :
    ("/sink/0" : String).length > 0 ∧
      graph_registry.objects.all (slot_scannable graph_registry.uri_node) = true ∧
      pinos_daemon_find_port graph_registry src_out (some "/sink/0") =
        find_port_first_free graph_registry src_out "/sink/0" ∧
      find_port_first_free graph_registry src_out "/sink/0" = FindPort.found sink_in :=
  ⟨by decide, by decide,
    pinos_daemon_find_port_first_free graph_registry src_out "/sink/0" (by decide) (by decide),
    by decide⟩

/-- C7: when the node's properties carry the target key and `pinos_daemon_find_port` finds no
port for its value, `try_link_port` looks the value up and then reports one error to the node,
the one with message "No matching Node found"; it requests no link, registers none with a
client and activates none.  The empty target string is such a case: for it
`pinos_daemon_find_port` never finds a port. -/
theorem try_link_port_no_matching_node
    (port_link : PinosPort → PinosPort → Option PinosLink × Option GError)
    (registry : PinosRegistry) (node : PinosNode) (port : PinosPort)
    (props : List (String × String)) (path : String) (error : GError)
    (hprops : node.properties = some props)
    (hkey : pinos_properties_get props "pinos.target.node" = some path)
    (hfind : pinos_daemon_find_port registry port (some path) = FindPort.not_found error) :
    try_link_port port_link registry node port =
        [Action.find_port port path, Action.node_report_error node.id (some error)] ∧
      error.message = "No matching Node found" ∧
      ((try_link_port port_link registry node port).filter Action.is_report).length = 1 ∧
      (try_link_port port_link registry node port).filter Action.is_link_action = [] ∧
      ∀ (r : PinosRegistry) (p best : PinosPort),
        pinos_daemon_find_port r p (some "") ≠ FindPort.found best := by
  have hact : try_link_port port_link registry node port =
      [Action.find_port port path, Action.node_report_error node.id (some error)] := by
    simp [try_link_port, hprops, hkey, hfind]
  have herr := pinos_daemon_find_port_error registry port (some path) error hfind
  refine ⟨hact, ?_, ?_, ?_, ?_⟩
  · rw [herr]
    rfl
  · rw [hact]
    rfl
  · rw [hact]
    rfl
  · intro r p best
    exact pinos_daemon_find_port_empty_name r p best

/-- C7 at a concrete input: the source node asking for `/nowhere` gets exactly the lookup and
one report of "No matching Node found". -/
theorem try_link_port_no_matching_node_witness :
    src_node_lost.properties = some [("pinos.target.node", "/nowhere")] ∧
      pinos_daemon_find_port graph_registry src_out (some "/nowhere") =
        FindPort.not_found no_matching_node_error ∧
      try_link_port port_link_ok graph_registry src_node_lost src_out =
        [Action.find_port src_out "/nowhere",
          Action.node_report_error src_node_lost.id (some no_matching_node_error)] :=
  ⟨by decide, by decide,
    (try_link_port_no_matching_node port_link_ok graph_registry src_node_lost src_out
      [("pinos.target.node", "/nowhere")] "/nowhere" no_matching_node_error
      (by decide) (by decide) (by decide)).1⟩

/-- C8, as stated, fails.  A node whose properties map `target.node` to `/sink/0`, a name that
`pinos_daemon_find_port` resolves to a port, is left alone by `try_link_port`: no lookup, no
link, no report.  And the source node, whose properties have no `target.node` entry, is
looked up and linked. -/
theorem try_link_port_ignores_target_node_key :
    src_node_short_key.properties = some [("target.node", "/sink/0")] ∧
      pinos_properties_get [("target.node", "/sink/0")] "target.node" = some "/sink/0" ∧
      pinos_daemon_find_port graph_registry src_out (some "/sink/0") = FindPort.found sink_in ∧
      try_link_port port_link_ok graph_registry src_node_short_key src_out = [] ∧
      src_node.properties = some [("pinos.target.node", "/sink/0")] ∧
      pinos_properties_get [("pinos.target.node", "/sink/0")] "target.node" = none ∧
      try_link_port port_link_ok graph_registry src_node src_out =
        [Action.find_port src_out "/sink/0", Action.port_link src_out sink_in,
          Action.client_add_object 7 100, Action.signal_connect 100 "port-unlinked",
          Action.signal_connect 100 "notify::state", Action.link_activate 100] := by
  decide

/-- C8, amended: the property key the auto-link policy reads is exactly `pinos.target.node`.
For every node whose properties map `pinos.target.node` to a string P, the first thing
`try_link_port` does is to resolve P through `pinos_daemon_find_port`; for every node that has
no properties or whose properties have no `pinos.target.node` entry it does nothing. -/
theorem try_link_port_reads_pinos_target_node
    (port_link : PinosPort → PinosPort → Option PinosLink × Option GError)
    (registry : PinosRegistry) (node : PinosNode) (port : PinosPort) :
    (∀ props path, node.properties = some props →
        pinos_properties_get props "pinos.target.node" = some path →
        (try_link_port port_link registry node port).head? =
          some (Action.find_port port path)) ∧
      (node.properties = none → try_link_port port_link registry node port = []) ∧
      (∀ props, node.properties = some props →
        pinos_properties_get props "pinos.target.node" = none →
        try_link_port port_link registry node port = []) := by
  refine ⟨?_, ?_, ?_⟩
  · intro props path hprops hkey
    simp [try_link_port, hprops, hkey]
  · intro hprops
    simp [try_link_port, hprops]
  · intro props hprops hkey
    simp [try_link_port, hprops, hkey]

/-- C8, amended, at concrete inputs: the source node with `pinos.target.node` set to `/sink/0`
starts with the lookup of `/sink/0`; the sink node, with empty properties, is left alone. -/
theorem try_link_port_reads_pinos_target_node_witness :
    (try_link_port port_link_ok graph_registry src_node src_out).head? =
        some (Action.find_port src_out "/sink/0") ∧
      try_link_port port_link_ok graph_registry sink_node sink_in = [] :=
  ⟨(try_link_port_reads_pinos_target_node port_link_ok graph_registry src_node src_out).1
      [("pinos.target.node", "/sink/0")] "/sink/0" (by decide) (by decide),
    (try_link_port_reads_pinos_target_node port_link_ok graph_registry sink_node sink_in).2.2
      [] (by decide) (by decide)⟩

/-- C9: when `pinos_daemon_find_port` returns a target whose direction is the opposite of the
source port's, `try_link_port` requests exactly one link, with the source port as output and
the target as input when the source port is an OUTPUT port, and the other way round when it is
an INPUT port; so the output end has direction OUTPUT and the input end direction INPUT.  When
`pinos_port_link` gives a link, that link is activated exactly once; when it gives none, no
link is activated. -/
theorem try_link_port_output_to_input
    (port_link : PinosPort → PinosPort → Option PinosLink × Option GError)
    (registry : PinosRegistry) (node : PinosNode) (port : PinosPort)
    (props : List (String × String)) (path : String) (target : PinosPort)
    (hprops : node.properties = some props)
    (hkey : pinos_properties_get props "pinos.target.node" = some path)
    (hfind : pinos_daemon_find_port registry port (some path) = FindPort.found target)
    (hdir : target.direction = pinos_direction_reverse port.direction) :
    ∃ output input rest,
      try_link_port port_link registry node port =
          Action.find_port port path :: Action.port_link output input :: rest ∧
        output.direction = PinosDirection.output ∧ input.direction = PinosDirection.input ∧
        (port.direction = PinosDirection.output → output = port ∧ input = target) ∧
        (port.direction = PinosDirection.input → output = target ∧ input = port) ∧
        (∀ o i, Action.port_link o i ∉ rest) ∧
        (∀ link error, port_link output input = (some link, error) →
          (try_link_port port_link registry node port).filter Action.is_activate =
            [Action.link_activate link.id]) ∧
        (∀ error, port_link output input = (none, error) →
          (try_link_port port_link registry node port).filter Action.is_activate = []) := by
  cases hd : port.direction with
  | output =>
    rw [hd] at hdir
    refine ⟨port, target, (try_link_port port_link registry node port).drop 2,
      ?_, hd, hdir, ?_, ?_, ?_, ?_, ?_⟩
    · simp [try_link_port, hprops, hkey, hfind, hd]
    · intro _
      exact ⟨rfl, rfl⟩
    · intro h
      cases h
    · intro o i
      rcases hl : port_link port target with ⟨l, e⟩
      cases l with
      | none => simp [try_link_port, hprops, hkey, hfind, hd, hl]
      | some link =>
        cases hc : node.client <;> simp [try_link_port, hprops, hkey, hfind, hd, hl, hc]
    · intro link error hl
      cases hc : node.client <;>
        simp [try_link_port, hprops, hkey, hfind, hd, hl, hc, Action.is_activate, List.filter]
    · intro error hl
      simp [try_link_port, hprops, hkey, hfind, hd, hl, Action.is_activate, List.filter]
  | input =>
    rw [hd] at hdir
    refine ⟨target, port, (try_link_port port_link registry node port).drop 2,
      ?_, hdir, hd, ?_, ?_, ?_, ?_, ?_⟩
    · simp [try_link_port, hprops, hkey, hfind, hd]
    · intro h
      cases h
    · intro _
      exact ⟨rfl, rfl⟩
    · intro o i
      rcases hl : port_link target port with ⟨l, e⟩
      cases l with
      | none => simp [try_link_port, hprops, hkey, hfind, hd, hl]
      | some link =>
        cases hc : node.client <;> simp [try_link_port, hprops, hkey, hfind, hd, hl, hc]
    · intro link error hl
      cases hc : node.client <;>
        simp [try_link_port, hprops, hkey, hfind, hd, hl, hc, Action.is_activate, List.filter]
    · intro error hl
      simp [try_link_port, hprops, hkey, hfind, hd, hl, Action.is_activate, List.filter]

/-- C9 at a concrete input: the source's OUTPUT port is linked to the sink's free INPUT port,
source as output and sink as input. -/
theorem try_link_port_output_to_input_witness :
    pinos_daemon_find_port graph_registry src_out (some "/sink/0") = FindPort.found sink_in ∧
      sink_in.direction = pinos_direction_reverse src_out.direction ∧
      ∃ output input rest,
        try_link_port port_link_ok graph_registry src_node src_out =
            Action.find_port src_out "/sink/0" :: Action.port_link output input :: rest ∧
          output.direction = PinosDirection.output ∧ input.direction = PinosDirection.input ∧
          (src_out.direction = PinosDirection.output → output = src_out ∧ input = sink_in) :=
  ⟨by decide, by decide,
    match try_link_port_output_to_input port_link_ok graph_registry src_node src_out
        [("pinos.target.node", "/sink/0")] "/sink/0" sink_in
        (by decide) (by decide) (by decide) (by decide) with
    | ⟨output, input, rest, h1, h2, h3, h4, _⟩ => ⟨output, input, rest, h1, h2, h3, h4⟩⟩

/-- C10, as stated, fails.  A link in state ERROR whose input port and output port both
belong to node 2 makes `on_link_state_notify` call `pinos_node_report_error` on that node
twice, once for each end: an endpoint node that receives two error reports, not exactly
one. -/
theorem on_link_state_notify_same_node_twice :
    self_link.state = PinosLinkState.error ∧
      endpoint_node self_link.input = some 2 ∧
      endpoint_node self_link.output = some 2 ∧
      on_link_state_notify self_link =
        [Action.node_report_error 2 self_link.error,
          Action.node_report_error 2 self_link.error] ∧
      (on_link_state_notify self_link).countP (Action.reports_to 2) = 2 := by
  decide

/-- C10, amended: when the state of the link is ERROR, `on_link_state_notify` sends one error
report to the node of the input port, when there is one, then one to the node of the output
port, when there is one, each carrying a copy of the link's error, and nothing else.  So every
node receives one report for each end of the link it is at: exactly one when it is at one end
only, two when both ports of the link belong to it, none when it is at no end.  In every other
state (INIT, NEGOTIATING, ALLOCATING, PAUSED, RUNNING, UNLINKED) it sends no report at all. -/
theorem on_link_state_notify_reports (link : PinosLink) :
    (link.state = PinosLinkState.error →
        on_link_state_notify link =
          ((endpoint_node link.input).toList ++ (endpoint_node link.output).toList).map
            (fun node => Action.node_report_error node (g_error_copy link.error))) ∧
      (link.state = PinosLinkState.error →
        ∀ node,
          (on_link_state_notify link).countP (Action.reports_to node) =
            (if endpoint_node link.input = some node then 1 else 0) +
              (if endpoint_node link.output = some node then 1 else 0)) ∧
      (link.state ≠ PinosLinkState.error → on_link_state_notify link = []) := by
  have hlist : link.state = PinosLinkState.error →
      on_link_state_notify link =
        ((endpoint_node link.input).toList ++ (endpoint_node link.output).toList).map
          (fun node => Action.node_report_error node (g_error_copy link.error)) := by
    intro hs
    unfold on_link_state_notify pinos_link_get_state
    simp only [hs]
    cases hi : link.input with
    | none =>
      cases ho : link.output with
      | none => simp [endpoint_node]
      | some op => cases hon : op.node <;> simp [endpoint_node, hon]
    | some ip =>
      cases hin : ip.node <;>
        cases ho : link.output with
        | none => simp [endpoint_node, hin]
        | some op => cases hon : op.node <;> simp [endpoint_node, hin, hon]
  refine ⟨hlist, ?_, ?_⟩
  · intro hs node
    rw [hlist hs]
    cases hi : endpoint_node link.input with
    | none =>
      cases ho : endpoint_node link.output with
      | none => simp
      | some b =>
        by_cases hb : b = node <;> simp [List.countP_cons, Action.reports_to, hb]
    | some a =>
      cases ho : endpoint_node link.output with
      | none =>
        by_cases ha : a = node <;> simp [List.countP_cons, Action.reports_to, ha]
      | some b =>
        by_cases ha : a = node <;> by_cases hb : b = node <;>
          simp [List.countP_cons, Action.reports_to, ha, hb]
  · intro hs
    unfold on_link_state_notify pinos_link_get_state
    cases hst : link.state <;> simp_all

/-- C10, amended, at concrete inputs: the failed link between the source and the sink reports
its error once to the sink node (input end) and once to the source node (output end); the
failed link from the source node to itself reports it twice to that node. -/
theorem on_link_state_notify_reports_witness :
    failed_link.state = PinosLinkState.error ∧
      on_link_state_notify failed_link =
        ((endpoint_node failed_link.input).toList ++
            (endpoint_node failed_link.output).toList).map
          (fun node => Action.node_report_error node (g_error_copy failed_link.error)) ∧
      on_link_state_notify failed_link =
        [Action.node_report_error 1 failed_link.error,
          Action.node_report_error 2 failed_link.error] ∧
      (on_link_state_notify failed_link).countP (Action.reports_to 1) = 1 ∧
      (on_link_state_notify self_link).countP (Action.reports_to 2) = 2 :=
  ⟨by decide, (on_link_state_notify_reports failed_link).1 (by decide), by decide,
    ((on_link_state_notify_reports failed_link).2.1 (by decide) 1).trans (by decide),
    ((on_link_state_notify_reports self_link).2.1 (by decide) 2).trans (by decide)⟩

/-! ## Theorems: poll items -/

/-- Peeling the last iteration off a `for_range` loop. -/
theorem for_range_succ_last {σ : Type} (body : Nat → σ → σ) (n i : Nat) (s : σ) :
    for_range body (n + 1) i s = body (i + n) (for_range body n i s) := by
  induction n generalizing i s with
  | zero => rfl
  | succ n ih =>
    rw [for_range, ih (i + 1) (body i s)]
    have h : i + 1 + n = i + (n + 1) := by omega
    rw [h]
    rfl

/-- The loop of `do_update_item` in closed form. -/
theorem update_loop_closed (item : SpaPollItem) (n : Nat) (poll : Nat → SpaPollItem) :
    for_range (update_body item) n 0 poll =
      fun k => if k < n ∧ (poll k).id = item.id then item else poll k := by
  induction n with
  | zero =>
    funext k
    simp [for_range]
  | succ n ih =>
    rw [for_range_succ_last, ih]
    funext k
    simp only [update_body, Nat.zero_add, Nat.lt_irrefl, false_and, if_false]
    by_cases hid : (poll n).id = item.id
    · simp only [hid, if_true, Function.update_apply]
      by_cases hk : k = n
      · subst hk
        simp [hid]
      · have : k < n + 1 ↔ k < n := by omega
        simp [hk, this]
    · simp only [hid, if_false]
      by_cases hk : k = n
      · subst hk
        simp [hid]
      · have : k < n + 1 ↔ k < n := by omega
        simp [this]

/-- The shift loop of `do_remove_item` in closed form. -/
theorem shift_loop_closed (c i : Nat) (poll : Nat → SpaPollItem) :
    for_range (fun k poll => Function.update poll k (poll (k + 1))) c i poll =
      fun k => if i ≤ k ∧ k < i + c then poll (k + 1) else poll k := by
  induction c with
  | zero =>
    funext k
    have : ¬ (i ≤ k ∧ k < i) := by omega
    simp [for_range, this]
  | succ c ih =>
    rw [for_range_succ_last, ih]
    funext k
    by_cases hk : k = i + c
    · subst hk
      have h1 : ¬ (i ≤ i + c + 1 ∧ i + c + 1 < i + c) := by omega
      have h2 : i ≤ i + c ∧ i + c < i + (c + 1) := by omega
      simp [h1, h2]
    · have h3 : (i ≤ k ∧ k < i + (c + 1)) ↔ (i ≤ k ∧ k < i + c) := by omega
      simp [Function.update_apply, hk, h3]

/-- What `find_item` finds: the first slot from `i` on, among `n`, with the given id. -/
theorem find_item_some (poll : Nat → SpaPollItem) (id n i m : Nat)
    (h : find_item poll id n i = some m) :
    i ≤ m ∧ m < i + n ∧ (poll m).id = id ∧ ∀ k, i ≤ k → k < m → (poll k).id ≠ id := by
  induction n generalizing i with
  | zero => simp [find_item] at h
  | succ n ih =>
    unfold find_item at h
    by_cases hid : (poll i).id = id
    · simp only [hid, if_true, Option.some.injEq] at h
      subst h
      refine ⟨Nat.le_refl _, by omega, hid, ?_⟩
      intro k h1 h2
      omega
    · simp only [hid, if_false] at h
      obtain ⟨h1, h2, h3, h4⟩ := ih (i + 1) h
      refine ⟨by omega, by omega, h3, ?_⟩
      intro k hk1 hk2
      by_cases hki : k = i
      · subst hki
        exact hid
      · exact h4 k (by omega) hk2

/-- When `find_item` finds nothing, no slot from `i` on, among `n`, has the given id. -/
theorem find_item_none (poll : Nat → SpaPollItem) (id n i : Nat)
    (h : find_item poll id n i = none) :
    ∀ k, i ≤ k → k < i + n → (poll k).id ≠ id := by
  induction n generalizing i with
  | zero =>
    intro k h1 h2
    omega
  | succ n ih =>
    unfold find_item at h
    by_cases hid : (poll i).id = id
    · simp [hid] at h
    · simp only [hid, if_false] at h
      intro k h1 h2
      by_cases hki : k = i
      · subst hki
        exact hid
      · exact ih (i + 1) h k (by omega) (by omega)

/-- Erasing the first item with the given id from the slots `i` to `i + n - 1` is what the
search and shift of `do_remove_item` compute. -/
theorem eraseP_slots (poll : Nat → SpaPollItem) (id n i : Nat) :
    ((List.range' i n).map poll).eraseP (fun p => decide (p.id = id)) =
      match find_item poll id n i with
      | some m => (List.range' i (n - 1)).map (fun k => if m ≤ k then poll (k + 1) else poll k)
      | none => (List.range' i n).map poll := by
  induction n generalizing i with
  | zero => simp [find_item]
  | succ n ih =>
    by_cases hid : (poll i).id = id
    · have hf : find_item poll id (n + 1) i = some i := by simp [find_item, hid]
      rw [hf]
      simp only [List.range'_succ, List.map_cons, Nat.add_sub_cancel]
      rw [List.eraseP_cons_of_pos (by simpa using hid)]
      rw [List.range'_eq_map_range, List.range'_eq_map_range, List.map_map, List.map_map]
      apply List.map_congr_left
      intro a _
      simp only [Function.comp]
      have : i ≤ i + a := by omega
      simp [this, Nat.add_assoc, Nat.add_comm 1 a]
    · have hf : find_item poll id (n + 1) i = find_item poll id n (i + 1) := by
        simp [find_item, hid]
      rw [hf]
      simp only [List.range'_succ, List.map_cons]
      rw [List.eraseP_cons_of_neg (by simpa using hid), ih (i + 1)]
      cases hm : find_item poll id n (i + 1) with
      | none => simp
      | some m =>
        obtain ⟨h1, h2, _, _⟩ := find_item_some poll id n (i + 1) m hm
        have hn : n = (n - 1) + 1 := by omega
        simp only [Nat.add_sub_cancel]
        conv_rhs => rw [hn, List.range'_succ, List.map_cons]
        have : ¬ m ≤ i := by omega
        simp [this]

/-- In a list of items with pairwise distinct ids, erasing the first item of an id leaves the
items of the other ids. -/
theorem eraseP_eq_filter_of_nodup (l : List SpaPollItem) (id : Nat)
    (h : (l.map (fun p => p.id)).Nodup) :
    l.eraseP (fun p => decide (p.id = id)) = l.filter (fun p => decide (p.id ≠ id)) := by
  induction l with
  | nil => rfl
  | cons a l ih =>
    rw [List.map_cons, List.nodup_cons] at h
    by_cases ha : a.id = id
    · rw [List.eraseP_cons_of_pos (by simpa using ha)]
      rw [List.filter_cons_of_neg (by simpa using ha)]
      symm
      rw [List.filter_eq_self]
      intro p hp
      have : p.id ≠ a.id := by
        intro heq
        exact h.1 (List.mem_map.mpr ⟨p, hp, heq⟩)
      rw [ha] at this
      simpa using this
    · rw [List.eraseP_cons_of_neg (by simpa using ha)]
      rw [List.filter_cons_of_pos (by simpa using ha), ih h.2]

/-- The slots and the count that `do_remove_item` leaves. -/
theorem do_remove_item_slots (priv : PollState) (in_thread : Bool) (item : SpaPollItem) :
    (do_remove_item priv in_thread item).2.1.poll =
        (match find_item priv.poll item.id priv.n_poll 0 with
          | some m =>
            for_range (fun k poll => Function.update poll k (poll (k + 1)))
              (priv.n_poll - 1 - m) m priv.poll
          | none => priv.poll) ∧
      (do_remove_item priv in_thread item).2.1.n_poll =
        (match find_item priv.poll item.id priv.n_poll 0 with
          | some _ => priv.n_poll - 1
          | none => priv.n_poll) := by
  unfold do_remove_item stop_thread
  cases find_item priv.poll item.id priv.n_poll 0 <;>
    (dsimp only; split_ifs <;> exact ⟨rfl, rfl⟩)

/-- The stored list after `do_remove_item` is the old list with the first item of the given
id erased. -/
theorem do_remove_item_items (priv : PollState) (in_thread : Bool) (item : SpaPollItem) :
    poll_items (do_remove_item priv in_thread item).2.1 =
      (poll_items priv).eraseP (fun p => decide (p.id = item.id)) := by
  obtain ⟨hp, hn⟩ := do_remove_item_slots priv in_thread item
  unfold poll_items
  rw [hp, hn, List.range_eq_range', List.range_eq_range', eraseP_slots]
  cases hm : find_item priv.poll item.id priv.n_poll 0 with
  | none => rfl
  | some m =>
    obtain ⟨_, h2, _, _⟩ := find_item_some priv.poll item.id priv.n_poll 0 m hm
    dsimp only
    rw [shift_loop_closed]
    apply List.map_congr_left
    intro k hk
    have hk' : k < priv.n_poll - 1 := by
      have := (List.mem_range'_1.mp hk).2
      omega
    by_cases hmk : m ≤ k
    · have : m ≤ k ∧ k < m + (priv.n_poll - 1 - m) := by omega
      simp [hmk, this]
    · have : ¬ (m ≤ k ∧ k < m + (priv.n_poll - 1 - m)) := by omega
      simp [hmk, this]

/-- C14: `do_remove_item` shifts exactly the named item out.  The stored list after the call
is the old list with the first item of the given id erased, the other items in their old
order.  If an item with the id is stored the count drops by one; if none is, list and count
stay as they were.  When the stored ids are pairwise distinct, the result is the old list
without the item of that id. -/
theorem do_remove_item_erases (priv : PollState) (in_thread : Bool) (item : SpaPollItem) :
    poll_items (do_remove_item priv in_thread item).2.1 =
        (poll_items priv).eraseP (fun p => decide (p.id = item.id)) ∧
      ((∃ p ∈ poll_items priv, p.id = item.id) →
        (do_remove_item priv in_thread item).2.1.n_poll + 1 = priv.n_poll) ∧
      ((∀ p ∈ poll_items priv, p.id ≠ item.id) →
        poll_items (do_remove_item priv in_thread item).2.1 = poll_items priv ∧
        (do_remove_item priv in_thread item).2.1.n_poll = priv.n_poll) ∧
      (((poll_items priv).map (fun p => p.id)).Nodup →
        poll_items (do_remove_item priv in_thread item).2.1 =
          (poll_items priv).filter (fun p => decide (p.id ≠ item.id))) := by
  obtain ⟨hp, hn⟩ := do_remove_item_slots priv in_thread item
  have herase := do_remove_item_items priv in_thread item
  have hmem : ∀ p, p ∈ poll_items priv ↔ ∃ k, k < priv.n_poll ∧ priv.poll k = p := by
    intro p
    simp [poll_items]
  refine ⟨herase, ?_, ?_, ?_⟩
  · rintro ⟨p, hpm, hpid⟩
    obtain ⟨k, hk, rfl⟩ := (hmem p).mp hpm
    cases hm : find_item priv.poll item.id priv.n_poll 0 with
    | none =>
      have hne := find_item_none priv.poll item.id priv.n_poll 0 hm k (Nat.zero_le _) (by omega)
      exact absurd hpid hne
    | some m =>
      rw [hn, hm]
      exact Nat.sub_add_cancel (Nat.lt_of_le_of_lt (Nat.zero_le k) hk)
  · intro hall
    have hnone : find_item priv.poll item.id priv.n_poll 0 = none := by
      cases hm : find_item priv.poll item.id priv.n_poll 0 with
      | none => rfl
      | some m =>
        obtain ⟨_, h2, h3, _⟩ := find_item_some priv.poll item.id priv.n_poll 0 m hm
        exact absurd h3 (hall _ ((hmem _).mpr ⟨m, by omega, rfl⟩))
    refine ⟨?_, by rw [hn, hnone]⟩
    unfold poll_items
    rw [hp, hn, hnone]
  · intro hnd
    rw [herase]
    exact eraseP_eq_filter_of_nodup (poll_items priv) item.id hnd


/-! ## Theorems: cycles of the loop -/

/-- A callback pass over the first `k` slots in closed form: each slot is left as
`notify_item` says, and the invocations are those of `notify_event`, in slot order. -/
theorem notify_loop_closed (env : NotifyEnv) (pass : Pass)
    (select : SpaPollItem → Nat → (Nat → SpaPollFd) → Option NotifyCall)
    (priv : PollState) (trace : List PollEvent) (k : Nat) :
    for_range (notify_body env pass select) k 0 (priv, trace) =
      ({ priv with poll := fun j => if j < k then notify_item env select priv j
            else priv.poll j },
        trace ++ (List.range k).filterMap (notify_event env pass select priv)) := by
  induction k with
  | zero => simp [for_range]
  | succ k ih =>
    rw [for_range_succ_last, ih, Nat.zero_add, List.range_succ, List.filterMap_append]
    unfold notify_body
    simp only [Nat.lt_irrefl, if_false]
    cases hsel : select (priv.poll k) (priv.idx k) priv.fds with
    | none =>
      simp only [List.filterMap_cons, List.filterMap_nil, notify_event, hsel, Option.map_none',
        List.append_nil]
      congr 1
      congr 1
      funext j
      by_cases hj : j = k
      · subst hj
        simp [notify_item, hsel]
      · have : j < k + 1 ↔ j < k := by omega
        simp [this]
    | some call =>
      by_cases herr : SPA_RESULT_IS_ERROR (env call) = true
      · simp only [herr, if_true, List.filterMap_cons, List.filterMap_nil, notify_event, hsel,
          Option.map_some', List.append_assoc]
        congr 1
        congr 1
        funext j
        by_cases hj : j = k
        · subst hj
          simp [notify_item, hsel, herr]
        · have : j < k + 1 ↔ j < k := by omega
          simp [Function.update_apply, hj, this]
      · have herr' : SPA_RESULT_IS_ERROR (env call) = false := by simpa using herr
        simp only [herr', Bool.false_eq_true, if_false, List.filterMap_cons, List.filterMap_nil,
          notify_event, hsel, Option.map_some', List.append_assoc]
        congr 1
        congr 1
        funext j
        by_cases hj : j = k
        · subst hj
          simp [notify_item, hsel, herr']
        · have : j < k + 1 ↔ j < k := by omega
          simp [this]

/-- A callback pass in closed form. -/
theorem notify_pass_closed (env : NotifyEnv) (pass : Pass)
    (select : SpaPollItem → Nat → (Nat → SpaPollFd) → Option NotifyCall)
    (priv : PollState) (trace : List PollEvent) :
    notify_pass env pass select (priv, trace) =
      ({ priv with poll := fun j => if j < priv.n_poll then notify_item env select priv j
            else priv.poll j },
        trace ++ (List.range priv.n_poll).filterMap (notify_event env pass select priv)) := by
  unfold notify_pass
  exact notify_loop_closed env pass select priv trace priv.n_poll

/-- The rebuild loop leaves the items, their count, the id counter, the rebuild flag and the
running flag alone. -/
theorem rebuild_loop_frame (k i : Nat) (priv : PollState) :
    (for_range rebuild_body k i priv).poll = priv.poll ∧
      (for_range rebuild_body k i priv).n_poll = priv.n_poll ∧
      (for_range rebuild_body k i priv).counter = priv.counter ∧
      (for_range rebuild_body k i priv).rebuild_fds = priv.rebuild_fds ∧
      (for_range rebuild_body k i priv).running = priv.running := by
  induction k generalizing i priv with
  | zero => exact ⟨rfl, rfl, rfl, rfl, rfl⟩
  | succ k ih =>
    rw [for_range]
    obtain ⟨h1, h2, h3, h4, h5⟩ := ih (i + 1) (rebuild_body i priv)
    rw [h1, h2, h3, h4, h5]
    unfold rebuild_body
    dsimp only
    split_ifs <;> exact ⟨rfl, rfl, rfl, rfl, rfl⟩

/-- The rebuild step leaves the items, their count, the id counter and the running flag
alone. -/
theorem loop_rebuild_frame (priv : PollState) :
    (loop_rebuild priv).poll = priv.poll ∧ (loop_rebuild priv).n_poll = priv.n_poll ∧
      (loop_rebuild priv).counter = priv.counter ∧
      (loop_rebuild priv).running = priv.running := by
  unfold loop_rebuild
  split_ifs
  · obtain ⟨h1, h2, h3, _, h5⟩ := rebuild_loop_frame priv.n_poll 0 { priv with n_fds := 1 }
    exact ⟨h1, h2, h3, h5⟩
  · exact ⟨rfl, rfl, rfl, rfl⟩

/-- The `poll` call leaves everything but the pollfd array alone. -/
theorem poll_syscall_frame (pr : PollResult) (priv : PollState) :
    (poll_syscall pr priv).poll = priv.poll ∧ (poll_syscall pr priv).n_poll = priv.n_poll ∧
      (poll_syscall pr priv).counter = priv.counter ∧
      (poll_syscall pr priv).idx = priv.idx ∧ (poll_syscall pr priv).n_fds = priv.n_fds ∧
      (poll_syscall pr priv).rebuild_fds = priv.rebuild_fds ∧
      (poll_syscall pr priv).running = priv.running := by
  unfold poll_syscall
  split_ifs <;> exact ⟨rfl, rfl, rfl, rfl, rfl, rfl, rfl⟩

/-- Every state only disables itself. -/
theorem only_disables_refl (priv : PollState) : only_disables priv priv :=
  ⟨rfl, rfl, fun _ => Or.inl rfl⟩

/-- Disabling after disabling is disabling. -/
theorem only_disables_trans {a b c : PollState} (hab : only_disables a b)
    (hbc : only_disables b c) : only_disables a c := by
  obtain ⟨h1, h2, h3⟩ := hab
  obtain ⟨k1, k2, k3⟩ := hbc
  refine ⟨k1.trans h1, k2.trans h2, ?_⟩
  intro j
  rcases k3 j with h | h <;> rcases h3 j with g | g
  · exact Or.inl (h.trans g)
  · exact Or.inr (h.trans g)
  · right
    rw [h, g]
  · right
    rw [h, g]

/-- A step that keeps the items, their count and the id counter only disables. -/
theorem only_disables_of_frame {a b : PollState} (hp : b.poll = a.poll)
    (hn : b.n_poll = a.n_poll) (hc : b.counter = a.counter) : only_disables a b :=
  ⟨hn, hc, fun j => Or.inl (by rw [hp])⟩

/-- A callback pass only disables items. -/
theorem notify_pass_only_disables (env : NotifyEnv) (pass : Pass)
    (select : SpaPollItem → Nat → (Nat → SpaPollFd) → Option NotifyCall)
    (priv : PollState) (trace : List PollEvent) :
    only_disables priv (notify_pass env pass select (priv, trace)).1 := by
  rw [notify_pass_closed]
  refine ⟨rfl, rfl, ?_⟩
  intro j
  dsimp only
  split_ifs
  · unfold notify_item
    split
    · split_ifs
      · exact Or.inr rfl
      · exact Or.inl rfl
    · exact Or.inl rfl
  · exact Or.inl rfl

/-- A callback pass leaves everything but the items alone. -/
theorem notify_pass_frame (env : NotifyEnv) (pass : Pass)
    (select : SpaPollItem → Nat → (Nat → SpaPollFd) → Option NotifyCall)
    (priv : PollState) (trace : List PollEvent) :
    (notify_pass env pass select (priv, trace)).1.idx = priv.idx ∧
      (notify_pass env pass select (priv, trace)).1.fds = priv.fds ∧
      (notify_pass env pass select (priv, trace)).1.n_fds = priv.n_fds ∧
      (notify_pass env pass select (priv, trace)).1.rebuild_fds = priv.rebuild_fds ∧
      (notify_pass env pass select (priv, trace)).1.running = priv.running ∧
      (notify_pass env pass select (priv, trace)).1.n_poll = priv.n_poll := by
  rw [notify_pass_closed]
  exact ⟨rfl, rfl, rfl, rfl, rfl, rfl⟩

/-- A cycle of `loop` only disables items. -/
theorem loop_cycle_only_disables (env : NotifyEnv) (pr : PollResult) (priv : PollState) :
    only_disables priv (loop_cycle env pr priv).1 := by
  have h1 := notify_pass_only_disables env Pass.idle idle_call priv []
  have h2 : only_disables (notify_pass env Pass.idle idle_call (priv, [])).1
      (loop_rebuild (notify_pass env Pass.idle idle_call (priv, [])).1) := by
    obtain ⟨a, b, c, _⟩ := loop_rebuild_frame (notify_pass env Pass.idle idle_call (priv, [])).1
    exact only_disables_of_frame a b c
  have h3 := notify_pass_only_disables env Pass.before before_call
    (loop_rebuild (notify_pass env Pass.idle idle_call (priv, [])).1)
    (notify_pass env Pass.idle idle_call (priv, [])).2
  have h123 := only_disables_trans (only_disables_trans h1 h2) h3
  have h4 : ∀ s, only_disables s (poll_syscall pr s) := by
    intro s
    obtain ⟨a, b, c, _⟩ := poll_syscall_frame pr s
    exact only_disables_of_frame a b c
  unfold loop_cycle
  dsimp only
  split_ifs
  · exact h123
  · exact h123
  · exact only_disables_trans h123 (h4 _)
  · exact only_disables_trans h123 (h4 _)
  · exact only_disables_trans (only_disables_trans h123 (h4 _))
      (notify_pass_only_disables env Pass.after after_call _ _)


/-! ## Theorems: runs of the poll set -/

/-- The items, count, counter and returned id of `do_add_item`. -/
theorem do_add_item_state (priv : PollState) (in_thread : Bool) (err : Nat)
    (item : SpaPollItem) :
    (do_add_item priv in_thread err item).2.1 = (priv.counter + 1) % 2 ^ 32 ∧
      (do_add_item priv in_thread err item).2.2.1.counter = (priv.counter + 1) % 2 ^ 32 ∧
      (do_add_item priv in_thread err item).2.2.1.n_poll = priv.n_poll + 1 ∧
      (do_add_item priv in_thread err item).2.2.1.poll =
        Function.update priv.poll priv.n_poll { item with id := (priv.counter + 1) % 2 ^ 32 } ∧
      (do_add_item priv in_thread err item).2.2.1.fds = priv.fds ∧
      (do_add_item priv in_thread err item).2.2.1.n_fds = priv.n_fds := by
  unfold do_add_item start_thread
  dsimp only
  split_ifs <;> exact ⟨rfl, rfl, rfl, rfl, rfl, rfl⟩

/-- The stored list after `do_add_item` is the old list with the new item at the end. -/
theorem do_add_item_items (priv : PollState) (in_thread : Bool) (err : Nat)
    (item : SpaPollItem) :
    poll_items (do_add_item priv in_thread err item).2.2.1 =
      poll_items priv ++ [{ item with id := (priv.counter + 1) % 2 ^ 32 }] := by
  obtain ⟨_, _, hn, hp, _, _⟩ := do_add_item_state priv in_thread err item
  unfold poll_items
  rw [hn, hp, List.range_succ, List.map_append]
  congr 1
  · apply List.map_congr_left
    intro k hk
    have : k ≠ priv.n_poll := by
      have := List.mem_range.mp hk
      omega
    simp [Function.update_apply, this]
  · simp

/-- The items, count and counter of `do_update_item`. -/
theorem do_update_item_state (priv : PollState) (in_thread : Bool) (item : SpaPollItem) :
    (do_update_item priv in_thread item).2.1.poll =
        (fun k => if k < priv.n_poll ∧ (priv.poll k).id = item.id then item else priv.poll k) ∧
      (do_update_item priv in_thread item).2.1.n_poll = priv.n_poll ∧
      (do_update_item priv in_thread item).2.1.counter = priv.counter ∧
      (do_update_item priv in_thread item).2.1.fds = priv.fds ∧
      (do_update_item priv in_thread item).2.1.n_fds = priv.n_fds ∧
      (do_update_item priv in_thread item).2.1.rebuild_fds =
        (if item.n_fds ≠ 0 then true else priv.rebuild_fds) := by
  unfold do_update_item
  dsimp only
  rw [update_loop_closed]
  exact ⟨rfl, rfl, rfl, rfl, rfl, rfl⟩

/-- The counter and the pollfd array of `do_remove_item`. -/
theorem do_remove_item_frame (priv : PollState) (in_thread : Bool) (item : SpaPollItem) :
    (do_remove_item priv in_thread item).2.1.counter = priv.counter ∧
      (do_remove_item priv in_thread item).2.1.fds = priv.fds ∧
      (do_remove_item priv in_thread item).2.1.n_fds = priv.n_fds := by
  unfold do_remove_item stop_thread
  cases find_item priv.poll item.id priv.n_poll 0 <;>
    (dsimp only; split_ifs <;> exact ⟨rfl, rfl, rfl⟩)

/-- Every slot that `do_remove_item` leaves in use holds an item that was stored before. -/
theorem do_remove_item_slot_old (priv : PollState) (in_thread : Bool) (item : SpaPollItem)
    (j : Nat) (hj : j < (do_remove_item priv in_thread item).2.1.n_poll) :
    ∃ k, k < priv.n_poll ∧ (do_remove_item priv in_thread item).2.1.poll j = priv.poll k := by
  have hmem : (do_remove_item priv in_thread item).2.1.poll j ∈
      poll_items (do_remove_item priv in_thread item).2.1 := by
    unfold poll_items
    exact List.mem_map.mpr ⟨j, List.mem_range.mpr hj, rfl⟩
  rw [do_remove_item_items priv in_thread item] at hmem
  have hold := List.mem_of_mem_eraseP hmem
  unfold poll_items at hold
  obtain ⟨k, hk, hkeq⟩ := List.mem_map.mp hold
  exact ⟨k, List.mem_range.mp hk, hkeq.symm⟩

/-- One operation keeps the ids of a run bounded by the counter, and the counter equal to the
number of ids handed out, as long as fewer than `2^32` ids have been handed out. -/
theorem PollRun.step_ids (run : PollRun) (op : PollOp) (h : run.ids_bounded)
    (hc : run.state.counter = run.ids.length) (hlen : (run.step op).ids.length < 2 ^ 32) :
    (run.step op).ids_bounded ∧ (run.step op).state.counter = (run.step op).ids.length := by
  obtain ⟨hs, hi⟩ := h
  cases op with
  | add item in_thread err =>
    obtain ⟨hid, hcnt, hn, hp, _, _⟩ := do_add_item_state run.state in_thread err item
    have hl : run.ids.length + 1 < 2 ^ 32 := by
      simpa [PollRun.step] using hlen
    have hmod : (run.state.counter + 1) % 2 ^ 32 = run.state.counter + 1 :=
      Nat.mod_eq_of_lt (by omega)
    refine ⟨⟨?_, ?_⟩, ?_⟩
    · intro j hj
      simp only [PollRun.step] at hj ⊢
      rw [hn] at hj
      rw [hp, hcnt, hmod]
      by_cases hjn : j = run.state.n_poll
      · subst hjn
        simp [hmod]
      · rw [Function.update_noteq hjn]
        exact Nat.le_succ_of_le (hs j (by omega))
    · intro id hmem
      simp only [PollRun.step] at hmem ⊢
      rw [hcnt, hmod]
      rcases List.mem_append.mp hmem with h1 | h1
      · exact Nat.le_succ_of_le (hi id h1)
      · rw [List.mem_singleton] at h1
        rw [h1, hid, hmod]
    · simp only [PollRun.step]
      rw [hcnt, hmod, hc, List.length_append]
      rfl
  | update item in_thread =>
    obtain ⟨hp, hn, hcnt, _⟩ := do_update_item_state run.state in_thread item
    refine ⟨⟨?_, ?_⟩, ?_⟩
    · intro j hj
      simp only [PollRun.step] at hj ⊢
      rw [hn] at hj
      rw [hp, hcnt]
      dsimp only
      split_ifs with hcond
      · rw [← hcond.2]
        exact hs j hj
      · exact hs j hj
    · intro id hmem
      simp only [PollRun.step] at hmem ⊢
      rw [hcnt]
      exact hi id hmem
    · simp only [PollRun.step]
      rw [hcnt, hc]
  | remove item in_thread =>
    obtain ⟨hcnt, _, _⟩ := do_remove_item_frame run.state in_thread item
    refine ⟨⟨?_, ?_⟩, ?_⟩
    · intro j hj
      simp only [PollRun.step] at hj ⊢
      obtain ⟨k, hk, hkeq⟩ := do_remove_item_slot_old run.state in_thread item j hj
      rw [hkeq, hcnt]
      exact hs k hk
    · intro id hmem
      simp only [PollRun.step] at hmem ⊢
      rw [hcnt]
      exact hi id hmem
    · simp only [PollRun.step]
      rw [hcnt, hc]
  | cycle env pr =>
    obtain ⟨hn, hcnt, hp⟩ := loop_cycle_only_disables env pr run.state
    refine ⟨⟨?_, ?_⟩, ?_⟩
    · intro j hj
      simp only [PollRun.step] at hj ⊢
      rw [hn] at hj
      rw [hcnt]
      rcases hp j with h1 | h1 <;> rw [h1]
      · exact hs j hj
      · exact hs j hj
    · intro id hmem
      simp only [PollRun.step] at hmem ⊢
      rw [hcnt]
      exact hi id hmem
    · simp only [PollRun.step]
      rw [hcnt, hc]

/-- One operation never shortens the list of ids handed out. -/
theorem PollRun.step_ids_length (run : PollRun) (op : PollOp) :
    run.ids.length ≤ (run.step op).ids.length := by
  cases op <;> simp [PollRun.step]

/-- In every run from the constructed state in which fewer than `2^32` ids have been handed
out, the stored and the returned ids are bounded by the counter, and the counter is the
number of ids handed out. -/
theorem run_ops_ids (efd : Int) (ops : List PollOp)
    (hlen : (run_ops (pinos_data_loop_constructed efd) ops).ids.length < 2 ^ 32) :
    (run_ops (pinos_data_loop_constructed efd) ops).ids_bounded ∧
      (run_ops (pinos_data_loop_constructed efd) ops).state.counter =
        (run_ops (pinos_data_loop_constructed efd) ops).ids.length := by
  induction ops using List.reverseRecOn with
  | nil =>
    refine ⟨⟨?_, ?_⟩, rfl⟩
    · intro j hj
      simp [run_ops, pinos_data_loop_constructed] at hj
    · intro id hmem
      simp [run_ops] at hmem
  | append_singleton ops op ih =>
    have hrun : run_ops (pinos_data_loop_constructed efd) (ops ++ [op]) =
        (run_ops (pinos_data_loop_constructed efd) ops).step op := by
      simp [run_ops, List.foldl_append]
    rw [hrun] at hlen ⊢
    have hprev := PollRun.step_ids_length (run_ops (pinos_data_loop_constructed efd) ops) op
    obtain ⟨h1, h2⟩ := ih (by omega)
    exact PollRun.step_ids _ op h1 h2 hlen

/-- With the arrays kept apart (`PollState`), which is the C code as long as no index passes
the capacity of its array: in every run of the data loop from its constructed state in which
the 32-bit id counter has not wrapped (fewer than `2^32 - 1` ids handed out so far),
`do_add_item` gives the new item an id that differs from every id it returned before and from
the id of every stored item; it stores the item, with that id, as the last element of the
list, increases the count by one and leaves the items stored before and their order as they
were.  For the stores behind the arrays see `loop_rebuild_bytes`. -/
theorem do_add_item_fresh_id (efd : Int) (ops : List PollOp) (item : SpaPollItem)
    (in_thread : Bool) (err : Nat)
    (hwrap : (run_ops (pinos_data_loop_constructed efd) ops).ids.length + 1 < 2 ^ 32) :
    (do_add_item (run_ops (pinos_data_loop_constructed efd) ops).state in_thread err item).2.1 ∉
        (run_ops (pinos_data_loop_constructed efd) ops).ids ∧
      (∀ p ∈ poll_items (run_ops (pinos_data_loop_constructed efd) ops).state,
        p.id ≠ (do_add_item (run_ops (pinos_data_loop_constructed efd) ops).state in_thread err
          item).2.1) ∧
      poll_items (do_add_item (run_ops (pinos_data_loop_constructed efd) ops).state in_thread err
          item).2.2.1 =
        poll_items (run_ops (pinos_data_loop_constructed efd) ops).state ++
          [{ item with
             id := (do_add_item (run_ops (pinos_data_loop_constructed efd) ops).state in_thread
               err item).2.1 }] ∧
      (do_add_item (run_ops (pinos_data_loop_constructed efd) ops).state in_thread err
          item).2.2.1.n_poll =
        (run_ops (pinos_data_loop_constructed efd) ops).state.n_poll + 1 := by
  obtain ⟨⟨hs, hi⟩, hc⟩ := run_ops_ids efd ops (by omega)
  obtain ⟨hid, _, hn, _, _, _⟩ :=
    do_add_item_state (run_ops (pinos_data_loop_constructed efd) ops).state in_thread err item
  have hmod : ((run_ops (pinos_data_loop_constructed efd) ops).state.counter + 1) % 2 ^ 32 =
      (run_ops (pinos_data_loop_constructed efd) ops).state.counter + 1 :=
    Nat.mod_eq_of_lt (by omega)
  refine ⟨?_, ?_, ?_, hn⟩
  · intro hmem
    have := hi _ hmem
    rw [hid, hmod] at this
    omega
  · intro p hp heq
    unfold poll_items at hp
    obtain ⟨k, hk, rfl⟩ := List.mem_map.mp hp
    have := hs k (List.mem_range.mp hk)
    rw [hid, hmod] at heq
    omega
  · rw [do_add_item_items, hid]


/-! ## Theorems: the pollfd array -/

/-- The copy loop of the rebuild step in closed form: the `c` slots from `n` on receive the
first `c` fds of the item. -/
theorem copy_loop_closed (p : SpaPollItem) (n c : Nat) (fds : Nat → SpaPollFd) :
    for_range (fun j fds => Function.update fds (n + j) (p.fds.getD j SpaPollFd.zero)) c 0 fds =
      fun k => if n ≤ k ∧ k < n + c then p.fds.getD (k - n) SpaPollFd.zero else fds k := by
  induction c with
  | zero =>
    funext k
    have : ¬ (n ≤ k ∧ k < n) := by omega
    simp [for_range, this]
  | succ c ih =>
    rw [for_range_succ_last, ih, Nat.zero_add]
    funext k
    by_cases hk : k = n + c
    · subst hk
      have h2 : n ≤ n + c ∧ n + c < n + (c + 1) := by omega
      simp [h2]
    · have h3 : (n ≤ k ∧ k < n + (c + 1)) ↔ (n ≤ k ∧ k < n + c) := by omega
      simp [Function.update_apply, hk, h3]

/-- The base index grows with the item index. -/
theorem fd_base_succ (priv : PollState) (i : Nat) :
    fd_base priv (i + 1) = fd_base priv i + enabled_fds priv i := by
  simp [fd_base, List.range_succ, Nat.add_assoc]

/-- The base index is monotone. -/
theorem fd_base_mono (priv : PollState) {i k : Nat} (h : i ≤ k) :
    fd_base priv i ≤ fd_base priv k := by
  induction k with
  | zero =>
    have : i = 0 := by omega
    rw [this]
  | succ k ih =>
    by_cases hik : i = k + 1
    · rw [hik]
    · have := ih (by omega)
      rw [fd_base_succ]
      omega

/-- The base index is at least 1. -/
theorem fd_base_pos (priv : PollState) (i : Nat) : 1 ≤ fd_base priv i := by
  simp [fd_base]

/-- The rebuild body on an enabled item. -/
theorem rebuild_body_enabled (i : Nat) (priv : PollState)
    (h : (priv.poll i).enabled = true) :
    rebuild_body i priv =
      { priv with
        fds := for_range
          (fun j fds =>
            Function.update fds (priv.n_fds + j) ((priv.poll i).fds.getD j SpaPollFd.zero))
          (priv.poll i).n_fds 0 priv.fds,
        idx := Function.update priv.idx i priv.n_fds,
        n_fds := priv.n_fds + (priv.poll i).n_fds } := by
  simp [rebuild_body, h]

/-- The rebuild body on a disabled item. -/
theorem rebuild_body_disabled (i : Nat) (priv : PollState)
    (h : (priv.poll i).enabled = false) : rebuild_body i priv = priv := by
  simp [rebuild_body, h]

/-- The rebuild loop after `k` iterations, started with `n_fds = 1`: the pollfd count is the
base index of `k`; every enabled item before `k` has its base index recorded and its fds
stored from there on; the other indices record nothing; slots outside the filled range are
untouched. -/
theorem rebuild_loop_layout (priv : PollState) (k : Nat) :
    (for_range rebuild_body k 0 { priv with n_fds := 1 }).n_fds = fd_base priv k ∧
      (∀ i, i < k → (priv.poll i).enabled = true →
        (for_range rebuild_body k 0 { priv with n_fds := 1 }).idx i = fd_base priv i ∧
        ∀ j, j < (priv.poll i).n_fds →
          (for_range rebuild_body k 0 { priv with n_fds := 1 }).fds (fd_base priv i + j) =
            (priv.poll i).fds.getD j SpaPollFd.zero) ∧
      (∀ i, (k ≤ i ∨ (priv.poll i).enabled = false) →
        (for_range rebuild_body k 0 { priv with n_fds := 1 }).idx i = priv.idx i) ∧
      (∀ x, (x < 1 ∨ fd_base priv k ≤ x) →
        (for_range rebuild_body k 0 { priv with n_fds := 1 }).fds x = priv.fds x) := by
  induction k with
  | zero =>
    refine ⟨by simp [for_range, fd_base], ?_, ?_, ?_⟩
    · intro i hi
      omega
    · intro i _
      rfl
    · intro x _
      rfl
  | succ k ih =>
    obtain ⟨hn, hen, hdis, hout⟩ := ih
    obtain ⟨hpoll, _⟩ := rebuild_loop_frame k 0 { priv with n_fds := 1 }
    rw [for_range_succ_last, Nat.zero_add]
    generalize for_range rebuild_body k 0 { priv with n_fds := 1 } = R at hn hen hdis hout hpoll ⊢
    have hpoll' : R.poll = priv.poll := hpoll
    by_cases hek : (priv.poll k).enabled = true
    · have hbase : fd_base priv (k + 1) = fd_base priv k + (priv.poll k).n_fds := by
        rw [fd_base_succ]
        simp [enabled_fds, hek]
      rw [rebuild_body_enabled k R (by rw [hpoll']; exact hek)]
      dsimp only
      rw [copy_loop_closed, hn, hpoll']
      refine ⟨hbase.symm, ?_, ?_, ?_⟩
      · intro i hi hei
        by_cases hik : i = k
        · subst hik
          refine ⟨by simp, ?_⟩
          intro j hj
          have : fd_base priv i ≤ fd_base priv i + j ∧
              fd_base priv i + j < fd_base priv i + (priv.poll i).n_fds := by omega
          simp [this]
        · obtain ⟨h1, h2⟩ := hen i (by omega) hei
          refine ⟨by rw [Function.update_noteq hik]; exact h1, ?_⟩
          intro j hj
          have hle : fd_base priv (i + 1) ≤ fd_base priv k := fd_base_mono priv (by omega)
          have hsucc : fd_base priv (i + 1) = fd_base priv i + (priv.poll i).n_fds := by
            rw [fd_base_succ]
            simp [enabled_fds, hei]
          have : ¬ (fd_base priv k ≤ fd_base priv i + j ∧
              fd_base priv i + j < fd_base priv k + (priv.poll k).n_fds) := by omega
          simp only [this, if_false]
          exact h2 j hj
      · intro i hi
        have hik : i ≠ k := by
          rcases hi with h | h
          · omega
          · intro heq
            rw [heq, hek] at h
            cases h
        rw [Function.update_noteq hik]
        apply hdis
        rcases hi with h | h
        · left
          omega
        · right
          exact h
      · intro x hx
        have hpos := fd_base_pos priv k
        have : ¬ (fd_base priv k ≤ x ∧ x < fd_base priv k + (priv.poll k).n_fds) := by omega
        simp only [this, if_false]
        apply hout
        omega
    · have hek' : (priv.poll k).enabled = false := by simpa using hek
      have hbase : fd_base priv (k + 1) = fd_base priv k := by
        rw [fd_base_succ]
        simp [enabled_fds, hek']
      rw [rebuild_body_disabled k R (by rw [hpoll']; exact hek')]
      refine ⟨by rw [hbase]; exact hn, ?_, ?_, ?_⟩
      · intro i hi hei
        have hik : i ≠ k := by
          intro heq
          rw [heq, hek'] at hei
          cases hei
        exact hen i (by omega) hei
      · intro i hi
        apply hdis
        rcases hi with h | h
        · left
          omega
        · right
          exact h
      · intro x hx
        apply hout
        rw [hbase] at hx
        exact hx

/-- The rebuild step leaves slot 0 of the pollfd array alone and keeps the pollfd count at 1
or more. -/
theorem loop_rebuild_slot0 (priv : PollState) :
    (loop_rebuild priv).fds 0 = priv.fds 0 ∧
      (1 ≤ priv.n_fds → 1 ≤ (loop_rebuild priv).n_fds) := by
  unfold loop_rebuild
  split_ifs
  · obtain ⟨hn, _, _, hout⟩ := rebuild_loop_layout priv priv.n_poll
    refine ⟨hout 0 (Or.inl (by omega)), ?_⟩
    intro _
    dsimp only
    rw [hn]
    exact fd_base_pos priv priv.n_poll
  · exact ⟨rfl, fun h => h⟩

/-- The `poll` call leaves the fd and the requested events of every slot alone. -/
theorem poll_syscall_slot (pr : PollResult) (priv : PollState) (k : Nat) :
    ((poll_syscall pr priv).fds k).fd = (priv.fds k).fd ∧
      ((poll_syscall pr priv).fds k).events = (priv.fds k).events := by
  unfold poll_syscall
  split_ifs
  · exact ⟨rfl, rfl⟩
  · dsimp only
    split_ifs <;> exact ⟨rfl, rfl⟩

/-- A cycle of `loop` leaves the fd and the requested events of slot 0 alone and keeps the
pollfd count at 1 or more. -/
theorem loop_cycle_slot0 (env : NotifyEnv) (pr : PollResult) (priv : PollState) :
    ((loop_cycle env pr priv).1.fds 0).fd = (priv.fds 0).fd ∧
      ((loop_cycle env pr priv).1.fds 0).events = (priv.fds 0).events ∧
      (1 ≤ priv.n_fds → 1 ≤ (loop_cycle env pr priv).1.n_fds) := by
  obtain ⟨_, a2, a3, _⟩ := notify_pass_frame env Pass.idle idle_call priv []
  obtain ⟨b1, b2⟩ := loop_rebuild_slot0 (notify_pass env Pass.idle idle_call (priv, [])).1
  obtain ⟨_, c2, c3, _⟩ := notify_pass_frame env Pass.before before_call
    (loop_rebuild (notify_pass env Pass.idle idle_call (priv, [])).1)
    (notify_pass env Pass.idle idle_call (priv, [])).2
  have h3 : (notify_pass env Pass.before before_call
      (loop_rebuild (notify_pass env Pass.idle idle_call (priv, [])).1,
        (notify_pass env Pass.idle idle_call (priv, [])).2)).1.fds 0 = priv.fds 0 := by
    rw [c2, b1, a2]
  have n3 : 1 ≤ priv.n_fds → 1 ≤ (notify_pass env Pass.before before_call
      (loop_rebuild (notify_pass env Pass.idle idle_call (priv, [])).1,
        (notify_pass env Pass.idle idle_call (priv, [])).2)).1.n_fds := by
    intro h
    rw [c3]
    apply b2
    rw [a3]
    exact h
  have h4 : ∀ s : PollState, s.fds 0 = priv.fds 0 →
      ((poll_syscall pr s).fds 0).fd = (priv.fds 0).fd ∧
        ((poll_syscall pr s).fds 0).events = (priv.fds 0).events := by
    intro s hs
    obtain ⟨p1, p2⟩ := poll_syscall_slot pr s 0
    rw [p1, p2, hs]
    exact ⟨rfl, rfl⟩
  have n4 : ∀ s : PollState, (poll_syscall pr s).n_fds = s.n_fds := fun s =>
    (poll_syscall_frame pr s).2.2.2.2.1
  unfold loop_cycle
  dsimp only
  split_ifs
  · exact ⟨by rw [h3], by rw [h3], n3⟩
  · exact ⟨by rw [h3], by rw [h3], n3⟩
  · exact ⟨(h4 _ h3).1, (h4 _ h3).2, fun h => by rw [n4]; exact n3 h⟩
  · exact ⟨(h4 _ h3).1, (h4 _ h3).2, fun h => by rw [n4]; exact n3 h⟩
  · obtain ⟨_, d2, d3, _⟩ := notify_pass_frame env Pass.after after_call
      (poll_syscall pr (notify_pass env Pass.before before_call
        (loop_rebuild (notify_pass env Pass.idle idle_call (priv, [])).1,
          (notify_pass env Pass.idle idle_call (priv, [])).2)).1)
      (notify_pass env Pass.before before_call
        (loop_rebuild (notify_pass env Pass.idle idle_call (priv, [])).1,
          (notify_pass env Pass.idle idle_call (priv, [])).2)).2
    refine ⟨?_, ?_, ?_⟩
    · rw [d2]
      exact (h4 _ h3).1
    · rw [d2]
      exact (h4 _ h3).2
    · intro h
      rw [d3, n4]
      exact n3 h

/-- No operation of a run writes the fd or the requested events of slot 0, and none brings
the pollfd count below 1. -/
theorem PollRun.step_slot0 (run : PollRun) (op : PollOp) :
    ((run.step op).state.fds 0).fd = (run.state.fds 0).fd ∧
      ((run.step op).state.fds 0).events = (run.state.fds 0).events ∧
      (1 ≤ run.state.n_fds → 1 ≤ (run.step op).state.n_fds) := by
  cases op with
  | add item in_thread err =>
    obtain ⟨_, _, _, _, hf, hn⟩ := do_add_item_state run.state in_thread err item
    simp only [PollRun.step]
    rw [hf, hn]
    exact ⟨rfl, rfl, fun h => h⟩
  | update item in_thread =>
    obtain ⟨_, _, _, hf, hn, _⟩ := do_update_item_state run.state in_thread item
    simp only [PollRun.step]
    rw [hf, hn]
    exact ⟨rfl, rfl, fun h => h⟩
  | remove item in_thread =>
    obtain ⟨_, hf, hn⟩ := do_remove_item_frame run.state in_thread item
    simp only [PollRun.step]
    rw [hf, hn]
    exact ⟨rfl, rfl, fun h => h⟩
  | cycle env pr =>
    simp only [PollRun.step]
    exact loop_cycle_slot0 env pr run.state

/-- With the arrays kept apart (`PollState`), which is the C code as long as no index passes
the capacity of its array: slot 0 of the pollfd array is the wakeup eventfd with events
`POLLIN | POLLPRI | POLLERR`, and the pollfd count is at least 1, in the constructed state, in
the state of every run of `do_add_item`, `do_update_item`, `do_remove_item` and cycles of
`loop` from it, and after every rebuild step of a state where it holds; no operation writes
the fd or the events of slot 0.  For the stores behind the arrays see
`do_add_item_bytes`. -/
theorem wakeup_slot_invariant (efd : Int) (ops : List PollOp) (run : PollRun) (op : PollOp)
    (priv : PollState) :
    slot0_wakeup efd (pinos_data_loop_constructed efd) ∧
      slot0_wakeup efd (run_ops (pinos_data_loop_constructed efd) ops).state ∧
      (slot0_wakeup efd priv → slot0_wakeup efd (loop_rebuild priv)) ∧
      (loop_rebuild priv).fds 0 = priv.fds 0 ∧
      ((run.step op).state.fds 0).fd = (run.state.fds 0).fd ∧
      ((run.step op).state.fds 0).events = (run.state.fds 0).events := by
  have h0 : slot0_wakeup efd (pinos_data_loop_constructed efd) := by
    refine ⟨?_, ?_, ?_⟩ <;> simp [pinos_data_loop_constructed]
  refine ⟨h0, ?_, ?_, (loop_rebuild_slot0 priv).1, (PollRun.step_slot0 run op).1,
    (PollRun.step_slot0 run op).2.1⟩
  · induction ops using List.reverseRecOn with
    | nil => exact h0
    | append_singleton ops op' ih =>
      have hrun : run_ops (pinos_data_loop_constructed efd) (ops ++ [op']) =
          (run_ops (pinos_data_loop_constructed efd) ops).step op' := by
        simp [run_ops, List.foldl_append]
      rw [hrun]
      obtain ⟨s1, s2, s3⟩ := PollRun.step_slot0 (run_ops (pinos_data_loop_constructed efd) ops) op'
      obtain ⟨i1, i2, i3⟩ := ih
      exact ⟨by rw [s1]; exact i1, by rw [s2]; exact i2, s3 i3⟩
  · rintro ⟨i1, i2, i3⟩
    obtain ⟨r1, r2⟩ := loop_rebuild_slot0 priv
    exact ⟨by rw [r1]; exact i1, by rw [r1]; exact i2, r2 i3⟩


/-- A slice of the pollfd array splits at any point. -/
theorem fds_slice_append (fds : Nat → SpaPollFd) (base m c : Nat) :
    fds_slice fds base (m + c) = fds_slice fds base m ++ fds_slice fds (base + m) c := by
  induction c with
  | zero => simp [fds_slice]
  | succ c ih =>
    have h : m + (c + 1) = (m + c) + 1 := by omega
    rw [h]
    unfold fds_slice at ih ⊢
    rw [List.range_succ, List.map_append, ih, List.range_succ, List.map_append,
      List.append_assoc]
    simp [Nat.add_assoc]

/-- A slice that holds the fds of a list, one by one, is that list. -/
theorem fds_slice_eq_list (fds : Nat → SpaPollFd) (base : Nat) (l : List SpaPollFd)
    (h : ∀ j, j < l.length → fds (base + j) = l.getD j SpaPollFd.zero) :
    fds_slice fds base l.length = l := by
  apply List.ext_getElem
  · simp [fds_slice]
  · intro j h1 h2
    simp only [fds_slice, List.getElem_map, List.getElem_range]
    rw [h j h2, List.getD_eq_getElem l SpaPollFd.zero h2]

/-- With the arrays kept apart (`PollState`), which is the C code as long as the enabled items
have 31 fds at most: when the rebuild step of `loop` runs with the rebuild flag set,
afterwards the pollfd count is 1 plus the sum of the fd counts of the enabled items; for every
enabled item `i` the recorded base index `idx[i]` is 1 plus the sum of the fd counts of the
enabled items before it,
and `pollfd[idx[i] + j]` is the item's `j`-th fd for every `j` below its fd count; a disabled
item records no base index and contributes no entry: the slots from 1 on hold exactly the fds
of the enabled items, in list order.  The rebuild flag is cleared, slot 0 and the items are
as before. -/
theorem loop_rebuild_layout (priv : PollState) (h : priv.rebuild_fds = true) :
    (loop_rebuild priv).n_fds = 1 + ((List.range priv.n_poll).map (enabled_fds priv)).sum ∧
      (∀ i, i < priv.n_poll → (priv.poll i).enabled = true →
        (loop_rebuild priv).idx i = 1 + ((List.range i).map (enabled_fds priv)).sum ∧
        ∀ j (hj : j < (priv.poll i).fds.length),
          (loop_rebuild priv).fds ((loop_rebuild priv).idx i + j) = (priv.poll i).fds[j]) ∧
      (∀ i, (priv.poll i).enabled = false → (loop_rebuild priv).idx i = priv.idx i) ∧
      fds_slice (loop_rebuild priv).fds 1 ((loop_rebuild priv).n_fds - 1) =
        (((poll_items priv).filter (fun p => p.enabled)).map (fun p => p.fds)).flatten ∧
      (loop_rebuild priv).rebuild_fds = false ∧
      (loop_rebuild priv).fds 0 = priv.fds 0 ∧
      (loop_rebuild priv).poll = priv.poll ∧
      (loop_rebuild priv).n_poll = priv.n_poll := by
  obtain ⟨hn, hen, hdis, hout⟩ := rebuild_loop_layout priv priv.n_poll
  obtain ⟨hpoll, hnp, _⟩ := rebuild_loop_frame priv.n_poll 0 { priv with n_fds := 1 }
  have hr : loop_rebuild priv =
      { for_range rebuild_body priv.n_poll 0 { priv with n_fds := 1 } with
        rebuild_fds := false } := by
    simp [loop_rebuild, h]
  rw [hr]
  dsimp only
  refine ⟨hn, ?_, ?_, ?_, rfl, hout 0 (Or.inl (by omega)), hpoll, hnp⟩
  · intro i hi hei
    obtain ⟨h1, h2⟩ := hen i hi hei
    refine ⟨h1, ?_⟩
    intro j hj
    rw [h1, h2 j hj, List.getD_eq_getElem _ SpaPollFd.zero hj]
  · intro i hi
    exact hdis i (Or.inr hi)
  · rw [hn]
    have key : ∀ k, k ≤ priv.n_poll →
        fds_slice (for_range rebuild_body priv.n_poll 0 { priv with n_fds := 1 }).fds 1
            (fd_base priv k - 1) =
          ((((List.range k).map priv.poll).filter (fun p => p.enabled)).map
            (fun p => p.fds)).flatten := by
      intro k
      induction k with
      | zero =>
        intro _
        simp [fd_base, fds_slice]
      | succ k ih =>
        intro hk
        have hpos := fd_base_pos priv k
        have hsplit : fd_base priv (k + 1) - 1 = (fd_base priv k - 1) + enabled_fds priv k := by
          rw [fd_base_succ]
          omega
        rw [hsplit, fds_slice_append, ih (by omega)]
        simp only [List.range_succ, List.map_append, List.filter_append, List.flatten_append]
        congr 1
        have hb : 1 + (fd_base priv k - 1) = fd_base priv k := by omega
        rw [hb]
        by_cases hek : (priv.poll k).enabled = true
        · obtain ⟨_, h2⟩ := hen k (by omega) hek
          have : enabled_fds priv k = (priv.poll k).fds.length := by
            simp [enabled_fds, hek, SpaPollItem.n_fds]
          rw [this, fds_slice_eq_list _ _ _ h2]
          simp [hek]
        · have hek' : (priv.poll k).enabled = false := by simpa using hek
          have : enabled_fds priv k = 0 := by simp [enabled_fds, hek']
          rw [this]
          simp [fds_slice, hek']
    exact key priv.n_poll (Nat.le_refl _)

/-- The rebuild layout at a concrete input: after the two additions the rebuild flag is set;
the rebuild step then counts 3 pollfds, gives the two-fd item base index 1 and stores its fds in slots 1
and 2. -/
theorem loop_rebuild_layout_witness :
    watch_added.rebuild_fds = true ∧
      (loop_rebuild watch_added).n_fds =
        1 + ((List.range watch_added.n_poll).map (enabled_fds watch_added)).sum ∧
      (loop_rebuild watch_added).n_fds = 3 ∧
      (loop_rebuild watch_added).idx 0 = 1 ∧
      fds_slice (loop_rebuild watch_added).fds 1 2 = [⟨5, POLLIN, 0⟩, ⟨6, POLLIN, 0⟩] :=
  ⟨by decide, (loop_rebuild_layout watch_added (by decide)).1, by decide, by decide, by decide⟩

/-- Fresh ids at a concrete input: after the run `watch_ops`, which handed out the ids 1 and
2, a further `do_add_item` returns 3, which is none of them. -/
theorem do_add_item_fresh_id_witness :
    watch_run.ids = [1, 2] ∧ watch_run.ids.length + 1 < 2 ^ 32 ∧
      (do_add_item watch_run.state true 0 item_no_fds).2.1 = 3 ∧
      (do_add_item watch_run.state true 0 item_no_fds).2.1 ∉ watch_run.ids :=
  ⟨by decide, by decide, by decide,
    (do_add_item_fresh_id 3 watch_ops item_no_fds true 0 (by decide)).1⟩

/-- C13, as stated, fails.  In the state of the run `watch_ops` the rebuild flag is clear and
the item with id 1 is stored with two fds.  Replacing it by an item with id 1 and no fds
changes the stored fd count from 2 to 0, yet `do_update_item` leaves the rebuild flag clear. -/
theorem do_update_item_no_rebuild_to_zero :
    watch_run.state.rebuild_fds = false ∧
      (watch_run.state.poll 0).id = 1 ∧ (watch_run.state.poll 0).n_fds = 2 ∧
      item_emptied.id = 1 ∧ item_emptied.n_fds = 0 ∧
      (do_update_item watch_run.state true item_emptied).2.1.poll 0 = item_emptied ∧
      (do_update_item watch_run.state true item_emptied).2.1.rebuild_fds = false := by
  decide

/-- C13, amended: `do_update_item` sets the rebuild flag whenever the fd count of the
replacing item is not zero, whatever the stored count was, and leaves the flag as it was when
that count is zero.  It replaces every stored item with the same id in place and leaves the
other items, the order and the item count unchanged. -/
theorem do_update_item_rebuild_rule (priv : PollState) (in_thread : Bool)
    (item : SpaPollItem) :
    (item.n_fds ≠ 0 → (do_update_item priv in_thread item).2.1.rebuild_fds = true) ∧
      (item.n_fds = 0 →
        (do_update_item priv in_thread item).2.1.rebuild_fds = priv.rebuild_fds) ∧
      poll_items (do_update_item priv in_thread item).2.1 =
        (poll_items priv).map (fun p => if p.id = item.id then item else p) ∧
      (do_update_item priv in_thread item).2.1.n_poll = priv.n_poll := by
  obtain ⟨hp, hn, _, _, _, hr⟩ := do_update_item_state priv in_thread item
  refine ⟨?_, ?_, ?_, hn⟩
  · intro h
    rw [hr]
    simp [h]
  · intro h
    rw [hr]
    simp [h]
  · unfold poll_items
    rw [hp, hn, List.map_map]
    apply List.map_congr_left
    intro k hk
    have := List.mem_range.mp hk
    simp [this]

/-- C13, amended, at concrete inputs: in the state of the run `watch_ops`, replacing the item
with id 1 by one with two fds sets the rebuild flag, replacing it by one without fds does not;
both replace the first stored item and keep the second. -/
theorem do_update_item_rebuild_rule_witness :
    (do_update_item watch_run.state true { item_two_fds with id := 1 }).2.1.rebuild_fds = true ∧
      (do_update_item watch_run.state true item_emptied).2.1.rebuild_fds =
        watch_run.state.rebuild_fds ∧
      poll_items (do_update_item watch_run.state true item_emptied).2.1 =
        [item_emptied, { item_no_fds with id := 2 }] :=
  ⟨(do_update_item_rebuild_rule watch_run.state true { item_two_fds with id := 1 }).1
      (by decide),
    (do_update_item_rebuild_rule watch_run.state true item_emptied).2.1 (by decide),
    by decide⟩


/-! ## Theorems: the callback passes -/

/-- The invocations of a callback pass carry the pass, an index below the item count, and the
call that the item at that index qualified for. -/
theorem mem_pass_events (env : NotifyEnv) (pass : Pass)
    (select : SpaPollItem → Nat → (Nat → SpaPollFd) → Option NotifyCall)
    (priv : PollState) (n : Nat) (e : PollEvent)
    (h : e ∈ (List.range n).filterMap (notify_event env pass select priv)) :
    e.pass = pass ∧ e.index < n ∧ e.id = (priv.poll e.index).id ∧
      select (priv.poll e.index) (priv.idx e.index) priv.fds = some e.call ∧
      e.result = env e.call := by
  obtain ⟨j, hj, hev⟩ := List.mem_filterMap.mp h
  unfold notify_event at hev
  cases hsel : select (priv.poll j) (priv.idx j) priv.fds with
  | none => simp [hsel] at hev
  | some call =>
    simp only [hsel, Option.map_some', Option.some.injEq] at hev
    subst hev
    exact ⟨rfl, List.mem_range.mp hj, rfl, hsel, rfl⟩

/-- A callback pass invokes the callback of the item at index `i` once when the item
qualifies, and not at all when it does not. -/
theorem pass_events_count (env : NotifyEnv) (pass : Pass)
    (select : SpaPollItem → Nat → (Nat → SpaPollFd) → Option NotifyCall)
    (priv : PollState) (n i : Nat) :
    (((List.range n).filterMap (notify_event env pass select priv)).filter
        (fun e => decide (e.pass = pass ∧ e.index = i))).length =
      if i < n ∧ (select (priv.poll i) (priv.idx i) priv.fds).isSome = true then 1 else 0 := by
  induction n with
  | zero => simp
  | succ n ih =>
    rw [List.range_succ, List.filterMap_append, List.filter_append, List.length_append, ih]
    by_cases hin : i = n
    · subst hin
      have h1 : ¬ (i < i ∧ (select (priv.poll i) (priv.idx i) priv.fds).isSome = true) := by
        omega
      simp only [h1, if_false, Nat.zero_add, Nat.lt_succ_self, true_and]
      cases hsel : select (priv.poll i) (priv.idx i) priv.fds with
      | none => simp [notify_event, hsel]
      | some call => simp [notify_event, hsel]
    · have h2 : (i < n + 1 ∧ (select (priv.poll i) (priv.idx i) priv.fds).isSome = true) ↔
          (i < n ∧ (select (priv.poll i) (priv.idx i) priv.fds).isSome = true) := by
        constructor
        · rintro ⟨a, b⟩
          exact ⟨by omega, b⟩
        · rintro ⟨a, b⟩
          exact ⟨by omega, b⟩
      have h3 : ((List.filterMap (notify_event env pass select priv) [n]).filter
          (fun e => decide (e.pass = pass ∧ e.index = i))).length = 0 := by
        cases hsel : select (priv.poll n) (priv.idx n) priv.fds with
        | none => simp [notify_event, hsel]
        | some call =>
          have : ¬ n = i := fun h => hin h.symm
          simp [notify_event, hsel, this]
      rw [h3]
      simp only [h2, Nat.add_zero]

/-- When the after call of an item is made: the item is enabled, has an after callback, and
has no fds or returned events on the first fd of its slice. -/
theorem after_call_isSome (p : SpaPollItem) (base : Nat) (fds : Nat → SpaPollFd) :
    (after_call p base fds).isSome = true ↔
      p.enabled = true ∧ p.after_cb ≠ none ∧ (p.n_fds = 0 ∨ (fds base).revents ≠ 0) := by
  unfold after_call
  cases he : p.enabled <;> cases hc : p.after_cb <;> simp

/-- The invocations of a cycle of `loop`: those of the idle pass, then those of the before
pass, then, when the after pass runs, those of the after pass. -/
theorem loop_cycle_events (env : NotifyEnv) (pr : PollResult) (priv : PollState) :
    (loop_cycle env pr priv).2.1 =
      (List.range priv.n_poll).filterMap (notify_event env Pass.idle idle_call priv) ++
      (List.range priv.n_poll).filterMap
        (notify_event env Pass.before before_call
          (loop_rebuild (notify_pass env Pass.idle idle_call (priv, [])).1)) ++
      (if 0 < pr.r ∧ ((loop_cycle_polled env pr priv).fds 0).revents &&& POLLIN = 0 then
        (List.range priv.n_poll).filterMap
          (notify_event env Pass.after after_call (loop_cycle_polled env pr priv))
      else []) := by
  have hn1 := (notify_pass_frame env Pass.idle idle_call priv []).2.2.2.2.2
  have hn2 := (loop_rebuild_frame (notify_pass env Pass.idle idle_call (priv, [])).1).2.1
  have hn3 := (notify_pass_frame env Pass.before before_call
    (loop_rebuild (notify_pass env Pass.idle idle_call (priv, [])).1)
    (notify_pass env Pass.idle idle_call (priv, [])).2).2.2.2.2.2
  have hn4 := (poll_syscall_frame pr (notify_pass env Pass.before before_call
    (loop_rebuild (notify_pass env Pass.idle idle_call (priv, [])).1,
      (notify_pass env Pass.idle idle_call (priv, [])).2)).1).2.1
  have e1 : (notify_pass env Pass.idle idle_call (priv, [])).2 =
      (List.range priv.n_poll).filterMap (notify_event env Pass.idle idle_call priv) := by
    rw [notify_pass_closed]
    simp
  have e3 : (notify_pass env Pass.before before_call
      (loop_rebuild (notify_pass env Pass.idle idle_call (priv, [])).1,
        (notify_pass env Pass.idle idle_call (priv, [])).2)).2 =
      (List.range priv.n_poll).filterMap (notify_event env Pass.idle idle_call priv) ++
      (List.range priv.n_poll).filterMap
        (notify_event env Pass.before before_call
          (loop_rebuild (notify_pass env Pass.idle idle_call (priv, [])).1)) := by
    rw [notify_pass_closed]
    dsimp only
    rw [e1, hn2, hn1]
  have e5 : (notify_pass env Pass.after after_call
      (loop_cycle_polled env pr priv,
        (notify_pass env Pass.before before_call
          (loop_rebuild (notify_pass env Pass.idle idle_call (priv, [])).1,
            (notify_pass env Pass.idle idle_call (priv, [])).2)).2)).2 =
      (List.range priv.n_poll).filterMap (notify_event env Pass.idle idle_call priv) ++
      (List.range priv.n_poll).filterMap
        (notify_event env Pass.before before_call
          (loop_rebuild (notify_pass env Pass.idle idle_call (priv, [])).1)) ++
      (List.range priv.n_poll).filterMap
        (notify_event env Pass.after after_call (loop_cycle_polled env pr priv)) := by
    rw [notify_pass_closed]
    dsimp only
    rw [e3]
    have : (loop_cycle_polled env pr priv).n_poll = priv.n_poll := by
      unfold loop_cycle_polled
      rw [hn4, hn3, hn2, hn1]
    rw [this]
  have hpolled : poll_syscall pr (notify_pass env Pass.before before_call
      (loop_rebuild (notify_pass env Pass.idle idle_call (priv, [])).1,
        (notify_pass env Pass.idle idle_call (priv, [])).2)).1 =
      loop_cycle_polled env pr priv := rfl
  unfold loop_cycle
  dsimp only
  rw [hpolled]
  by_cases h1 : pr.r < 0
  · have hno : ¬ (0 < pr.r ∧
        ((loop_cycle_polled env pr priv).fds 0).revents &&& POLLIN = 0) := by omega
    rw [if_pos h1, if_neg hno, List.append_nil]
    exact e3
  · rw [if_neg h1]
    by_cases h2 : pr.r = 0
    · have hno : ¬ (0 < pr.r ∧
          ((loop_cycle_polled env pr priv).fds 0).revents &&& POLLIN = 0) := by omega
      rw [if_pos h2, if_neg hno, List.append_nil]
      exact e3
    · rw [if_neg h2]
      by_cases h3 : ((loop_cycle_polled env pr priv).fds 0).revents &&& POLLIN = 0
      · have hyes : 0 < pr.r ∧
            ((loop_cycle_polled env pr priv).fds 0).revents &&& POLLIN = 0 := ⟨by omega, h3⟩
        rw [if_neg (not_not.mpr h3), if_pos hyes]
        exact e5
      · have hno : ¬ (0 < pr.r ∧
            ((loop_cycle_polled env pr priv).fds 0).revents &&& POLLIN = 0) := fun h => h3 h.2
        rw [if_pos h3, if_neg hno, List.append_nil]
        exact e3

/-- The invocations of the idle and before passes are no after invocations. -/
theorem pass_events_not_after (env : NotifyEnv) (pass : Pass)
    (select : SpaPollItem → Nat → (Nat → SpaPollFd) → Option NotifyCall)
    (priv : PollState) (n i : Nat) (hpass : pass ≠ Pass.after) :
    ((List.range n).filterMap (notify_event env pass select priv)).filter
      (PollEvent.is_after_of i) = [] := by
  rw [List.filter_eq_nil_iff]
  intro e he
  obtain ⟨hp, _⟩ := mem_pass_events env pass select priv n e he
  simp [PollEvent.is_after_of, hp, hpass]

/-- C17, amended: in every cycle of `loop` in which `poll` returns a positive count and the
wakeup slot is not readable, the after callback of the item at index `i` is invoked exactly
once if the item is stored, still enabled, has an after callback, and has a zero fd count or
returned events on the first fd of its slice, `pollfd[idx[i]]`; it is not invoked otherwise.
In every cycle in which the wakeup slot is readable no after callback is invoked at all. -/
theorem loop_cycle_after_first_fd (env : NotifyEnv) (pr : PollResult) (priv : PollState) :
    (0 < pr.r → ((loop_cycle_polled env pr priv).fds 0).revents &&& POLLIN = 0 →
        ∀ i, ((loop_cycle env pr priv).2.1.filter (PollEvent.is_after_of i)).length =
          if i < priv.n_poll ∧ ((loop_cycle_polled env pr priv).poll i).enabled = true ∧
              ((loop_cycle_polled env pr priv).poll i).after_cb ≠ none ∧
              (((loop_cycle_polled env pr priv).poll i).n_fds = 0 ∨
                ((loop_cycle_polled env pr priv).fds
                  ((loop_cycle_polled env pr priv).idx i)).revents ≠ 0)
          then 1 else 0) ∧
      (((loop_cycle_polled env pr priv).fds 0).revents &&& POLLIN ≠ 0 →
        ∀ e ∈ (loop_cycle env pr priv).2.1, e.pass ≠ Pass.after) := by
  constructor
  · intro hr hw i
    rw [loop_cycle_events, if_pos ⟨hr, hw⟩, List.filter_append, List.filter_append,
      pass_events_not_after env Pass.idle idle_call priv priv.n_poll i (by decide),
      pass_events_not_after env Pass.before before_call _ priv.n_poll i (by decide)]
    simp only [List.nil_append]
    have hcount := pass_events_count env Pass.after after_call (loop_cycle_polled env pr priv)
      priv.n_poll i
    have hfun : (PollEvent.is_after_of i) =
        (fun e : PollEvent => decide (e.pass = Pass.after ∧ e.index = i)) := by
      funext e
      rfl
    rw [hfun, hcount]
    have hiff := after_call_isSome ((loop_cycle_polled env pr priv).poll i)
      ((loop_cycle_polled env pr priv).idx i) (loop_cycle_polled env pr priv).fds
    by_cases hc : (after_call ((loop_cycle_polled env pr priv).poll i)
        ((loop_cycle_polled env pr priv).idx i) (loop_cycle_polled env pr priv).fds).isSome = true
    · by_cases hi : i < priv.n_poll
      · rw [if_pos ⟨hi, hc⟩, if_pos ⟨hi, hiff.mp hc⟩]
      · rw [if_neg (fun h => hi h.1), if_neg (fun h => hi h.1)]
    · rw [if_neg (fun h => hc h.2), if_neg (fun h => hc (hiff.mpr h.2))]
  · intro hw e he
    rw [loop_cycle_events, if_neg (fun h => hw h.2), List.append_nil] at he
    rcases List.mem_append.mp he with h | h
    · rw [(mem_pass_events env Pass.idle idle_call priv priv.n_poll e h).1]
      decide
    · rw [(mem_pass_events env Pass.before before_call _ priv.n_poll e h).1]
      decide

/-- C17, as stated, fails.  In the cycle of the run `watch_ops`, `poll` returns 1 and the
wakeup slot is not readable.  The item at index 0 is enabled, has an after callback and owns
the slots 1 and 2; slot 2 has returned events, so some fd of its slice has non-zero `revents`.
Yet its after callback is not invoked, because slot 1, the first of the slice, has none. -/
theorem loop_cycle_after_ignores_second_fd :
    0 < poll_second_fd.r ∧
      ((loop_cycle_polled env_ok poll_second_fd watch_added).fds 0).revents &&& POLLIN = 0 ∧
      ((loop_cycle_polled env_ok poll_second_fd watch_added).poll 0).enabled = true ∧
      ((loop_cycle_polled env_ok poll_second_fd watch_added).poll 0).after_cb = some 0x200 ∧
      ((loop_cycle_polled env_ok poll_second_fd watch_added).poll 0).n_fds = 2 ∧
      (loop_cycle_polled env_ok poll_second_fd watch_added).idx 0 = 1 ∧
      ((loop_cycle_polled env_ok poll_second_fd watch_added).fds 1).revents = 0 ∧
      ((loop_cycle_polled env_ok poll_second_fd watch_added).fds 2).revents = POLLIN ∧
      slice_has_revents (loop_cycle_polled env_ok poll_second_fd watch_added).fds 1 2 = true ∧
      (loop_cycle env_ok poll_second_fd watch_added).2.1.filter (PollEvent.is_after_of 0) =
        [] := by
  decide

/-- C17, amended, at a concrete input: in the cycle of the run `watch_ops` the after callback
of the item at index 1, which has no fds, is invoked exactly once. -/
theorem loop_cycle_after_first_fd_witness :
    0 < poll_second_fd.r ∧
      ((loop_cycle_polled env_ok poll_second_fd watch_added).fds 0).revents &&& POLLIN = 0 ∧
      ((loop_cycle env_ok poll_second_fd watch_added).2.1.filter
        (PollEvent.is_after_of 1)).length = 1 :=
  ⟨by decide, by decide,
    ((loop_cycle_after_first_fd env_ok poll_second_fd watch_added).1 (by decide) (by decide)
      1).trans (by decide)⟩


/-! ## Theorems: disabling on error -/

/-- A disabled item qualifies for no idle call. -/
theorem idle_call_disabled (p : SpaPollItem) (base : Nat) (fds : Nat → SpaPollFd)
    (h : p.enabled = false) : idle_call p base fds = none := by
  simp [idle_call, h]

/-- A disabled item qualifies for no before call. -/
theorem before_call_disabled (p : SpaPollItem) (base : Nat) (fds : Nat → SpaPollFd)
    (h : p.enabled = false) : before_call p base fds = none := by
  simp [before_call, h]

/-- A disabled item qualifies for no after call. -/
theorem after_call_disabled (p : SpaPollItem) (base : Nat) (fds : Nat → SpaPollFd)
    (h : p.enabled = false) : after_call p base fds = none := by
  simp [after_call, h]

/-- The invocations of a callback pass come in strictly increasing index order. -/
theorem pass_events_pairwise (env : NotifyEnv) (pass : Pass)
    (select : SpaPollItem → Nat → (Nat → SpaPollFd) → Option NotifyCall)
    (priv : PollState) (n : Nat) :
    ((List.range n).filterMap (notify_event env pass select priv)).Pairwise
      (fun a b => a.index < b.index) := by
  induction n with
  | zero => simp
  | succ n ih =>
    rw [List.range_succ, List.filterMap_append, List.pairwise_append]
    refine ⟨ih, ?_, ?_⟩
    · cases h : notify_event env pass select priv n <;> simp [h]
    · intro a ha b hb
      have h1 := (mem_pass_events env pass select priv n a ha).2.1
      have hb' : b ∈ (List.range (n + 1)).filterMap (notify_event env pass select priv) := by
        rw [List.range_succ, List.filterMap_append]
        exact List.mem_append_right _ hb
      obtain ⟨j, hj, hev⟩ := List.mem_filterMap.mp hb
      have hjn : j = n := by simpa using hj
      subst hjn
      unfold notify_event at hev
      cases hsel : select (priv.poll j) (priv.idx j) priv.fds with
      | none => simp [hsel] at hev
      | some call =>
        simp only [hsel, Option.map_some', Option.some.injEq] at hev
        subst hev
        exact h1

/-- A callback pass keeps the errors of the trace silenced and silences its own. -/
theorem errors_silence_pass (env : NotifyEnv) (pass : Pass)
    (select : SpaPollItem → Nat → (Nat → SpaPollFd) → Option NotifyCall)
    (hsel : ∀ p base fds, p.enabled = false → select p base fds = none)
    (priv : PollState) (trace : List PollEvent) (h : errors_silence trace priv) :
    errors_silence (notify_pass env pass select (priv, trace)).2
      (notify_pass env pass select (priv, trace)).1 := by
  rw [notify_pass_closed]
  intro pre ev post hsplit herr
  dsimp only at hsplit ⊢
  have hitem_disabled : ∀ i, (priv.poll i).enabled = false →
      ((if i < priv.n_poll then notify_item env select priv i else priv.poll i)).enabled =
        false := by
    intro i hi
    split_ifs
    · unfold notify_item
      rw [hsel _ _ _ hi]
      exact hi
    · exact hi
  rcases List.append_eq_append_iff.mp hsplit with ⟨a', h1, h2⟩ | ⟨c', h1, h2⟩
  · -- the error is an invocation of this pass
    have hpw := pass_events_pairwise env pass select priv priv.n_poll
    rw [h2] at hpw
    have hpw2 := (List.pairwise_append.mp hpw).2.1
    rw [List.pairwise_cons] at hpw2
    have hmem : ev ∈ (List.range priv.n_poll).filterMap (notify_event env pass select priv) := by
      rw [h2]
      exact List.mem_append_right _ (List.mem_cons_self _ _)
    obtain ⟨_, hlt, _, hs, hres⟩ := mem_pass_events env pass select priv priv.n_poll ev hmem
    refine ⟨?_, ?_⟩
    · intro e he heq
      have := hpw2.1 e he
      omega
    · have herr' : SPA_RESULT_IS_ERROR (env ev.call) = true := by
        rw [← hres]
        exact herr
      rw [if_pos hlt]
      simp [notify_item, hs, herr']
  · cases c' with
    | nil =>
      -- the error is the first invocation of this pass
      rw [List.nil_append] at h2
      have hpw := pass_events_pairwise env pass select priv priv.n_poll
      rw [← h2, List.pairwise_cons] at hpw
      have hmem : ev ∈ (List.range priv.n_poll).filterMap (notify_event env pass select priv) := by
        rw [← h2]
        exact List.mem_cons_self _ _
      obtain ⟨_, hlt, _, hs, hres⟩ := mem_pass_events env pass select priv priv.n_poll ev hmem
      refine ⟨?_, ?_⟩
      · intro e he heq
        have := hpw.1 e he
        omega
      · have herr' : SPA_RESULT_IS_ERROR (env ev.call) = true := by
          rw [← hres]
          exact herr
        rw [if_pos hlt]
        simp [notify_item, hs, herr']
    | cons c cs =>
      -- the error is an invocation of the trace so far
      rw [List.cons_append] at h2
      have hc : ev = c := (List.cons.inj h2).1
      have hpost : post = cs ++ (List.range priv.n_poll).filterMap
          (notify_event env pass select priv) := (List.cons.inj h2).2
      subst hc
      obtain ⟨g1, g2⟩ := h pre ev cs h1 herr
      refine ⟨?_, hitem_disabled _ g2⟩
      intro e he
      rw [hpost] at he
      rcases List.mem_append.mp he with he1 | he1
      · exact g1 e he1
      · intro heq
        obtain ⟨_, _, _, hs, _⟩ := mem_pass_events env pass select priv priv.n_poll e he1
        rw [heq, hsel _ _ _ g2] at hs
        cases hs

/-- A step that keeps the items keeps the errors of the trace silenced. -/
theorem errors_silence_frame (trace : List PollEvent) (a b : PollState)
    (hp : b.poll = a.poll) (h : errors_silence trace a) : errors_silence trace b := by
  intro pre ev post hsplit herr
  obtain ⟨g1, g2⟩ := h pre ev post hsplit herr
  exact ⟨g1, by rw [hp]; exact g2⟩

/-- In a cycle of `loop`, an invocation that returns an error is the last one for its index,
and the item at that index is disabled when the cycle ends. -/
theorem loop_cycle_errors_silence (env : NotifyEnv) (pr : PollResult) (priv : PollState) :
    errors_silence (loop_cycle env pr priv).2.1 (loop_cycle env pr priv).1 := by
  have h0 : errors_silence [] priv := by
    intro pre ev post hsplit _
    cases pre <;> cases hsplit
  have h1 := errors_silence_pass env Pass.idle idle_call idle_call_disabled priv [] h0
  have h2 := errors_silence_frame _ _ (loop_rebuild (notify_pass env Pass.idle idle_call
    (priv, [])).1) (loop_rebuild_frame _).1 h1
  have h3 := errors_silence_pass env Pass.before before_call before_call_disabled _ _ h2
  have h4 := errors_silence_frame _ _ (poll_syscall pr (notify_pass env Pass.before before_call
      (loop_rebuild (notify_pass env Pass.idle idle_call (priv, [])).1,
        (notify_pass env Pass.idle idle_call (priv, [])).2)).1) (poll_syscall_frame pr _).1 h3
  have h5 := errors_silence_pass env Pass.after after_call after_call_disabled _ _ h4
  unfold loop_cycle
  dsimp only
  split_ifs
  · exact h3
  · exact h3
  · exact h4
  · exact h4
  · exact h5

/-- An item that is enabled after steps that only disable is the item it was. -/
theorem only_disables_enabled {a b : PollState} (h : only_disables a b) (j : Nat)
    (he : (b.poll j).enabled = true) : b.poll j = a.poll j := by
  rcases h.2.2 j with h1 | h1
  · exact h1
  · rw [h1] at he
    cases he

/-- Steps that only disable keep the id at every index. -/
theorem only_disables_id {a b : PollState} (h : only_disables a b) (j : Nat) :
    (b.poll j).id = (a.poll j).id := by
  rcases h.2.2 j with h1 | h1 <;> rw [h1]

/-- Steps that only disable keep disabled items disabled. -/
theorem only_disables_disabled {a b : PollState} (h : only_disables a b) (j : Nat)
    (hd : (a.poll j).enabled = false) : (b.poll j).enabled = false := by
  rcases h.2.2 j with h1 | h1 <;> rw [h1]
  exact hd

/-- The state of a cycle when `poll` has returned differs from the state at its start only in
disabled items. -/
theorem loop_cycle_polled_only_disables (env : NotifyEnv) (pr : PollResult) (priv : PollState) :
    only_disables priv (loop_cycle_polled env pr priv) := by
  have h1 := notify_pass_only_disables env Pass.idle idle_call priv []
  have h2 : only_disables (notify_pass env Pass.idle idle_call (priv, [])).1
      (loop_rebuild (notify_pass env Pass.idle idle_call (priv, [])).1) := by
    obtain ⟨a, b, c, _⟩ := loop_rebuild_frame (notify_pass env Pass.idle idle_call (priv, [])).1
    exact only_disables_of_frame a b c
  have h3 := notify_pass_only_disables env Pass.before before_call
    (loop_rebuild (notify_pass env Pass.idle idle_call (priv, [])).1)
    (notify_pass env Pass.idle idle_call (priv, [])).2
  have h4 : ∀ s, only_disables s (poll_syscall pr s) := by
    intro s
    obtain ⟨a, b, c, _⟩ := poll_syscall_frame pr s
    exact only_disables_of_frame a b c
  exact only_disables_trans (only_disables_trans (only_disables_trans h1 h2) h3) (h4 _)

/-- Every invocation of a cycle of `loop` is for an index below the item count whose item was
enabled when the cycle started, and carries the id of that item. -/
theorem loop_cycle_events_enabled (env : NotifyEnv) (pr : PollResult) (priv : PollState)
    (e : PollEvent) (he : e ∈ (loop_cycle env pr priv).2.1) :
    e.index < priv.n_poll ∧ e.id = (priv.poll e.index).id ∧
      (priv.poll e.index).enabled = true := by
  have key : ∀ (pass : Pass)
      (select : SpaPollItem → Nat → (Nat → SpaPollFd) → Option NotifyCall) (s : PollState),
      (∀ p base fds, p.enabled = false → select p base fds = none) →
      only_disables priv s →
      e ∈ (List.range priv.n_poll).filterMap (notify_event env pass select s) →
      e.index < priv.n_poll ∧ e.id = (priv.poll e.index).id ∧
        (priv.poll e.index).enabled = true := by
    intro pass select s hsel hod hmem
    obtain ⟨_, hlt, hid, hs, _⟩ := mem_pass_events env pass select s priv.n_poll e hmem
    have hen : (s.poll e.index).enabled = true := by
      cases hb : (s.poll e.index).enabled with
      | true => rfl
      | false =>
        rw [hsel _ _ _ hb] at hs
        cases hs
    have heq := only_disables_enabled hod e.index hen
    refine ⟨hlt, ?_, ?_⟩
    · rw [hid, heq]
    · rw [← heq]
      exact hen
  rw [loop_cycle_events] at he
  rcases List.mem_append.mp he with h12 | h3
  · rcases List.mem_append.mp h12 with h1 | h2
    · exact key Pass.idle idle_call priv idle_call_disabled (only_disables_refl priv) h1
    · refine key Pass.before before_call _ before_call_disabled ?_ h2
      have a1 := notify_pass_only_disables env Pass.idle idle_call priv []
      obtain ⟨a, b, c, _⟩ :=
        loop_rebuild_frame (notify_pass env Pass.idle idle_call (priv, [])).1
      exact only_disables_trans a1 (only_disables_of_frame a b c)
  · split_ifs at h3
    · exact key Pass.after after_call _ after_call_disabled
        (loop_cycle_polled_only_disables env pr priv) h3
    · cases h3

/-- One operation other than an update of id `x` keeps every item with id `x` disabled and
makes no invocation for that id, as long as the id counter does not wrap. -/
theorem PollRun.step_id_disabled (x : Nat) (run : PollRun) (op : PollOp)
    (hd : id_disabled x run.state) (hev : ∀ e ∈ run.events, e.id ≠ x)
    (hop : op.updates x = false) (hwrap : run.state.counter + 1 < 2 ^ 32) :
    id_disabled x (run.step op).state ∧ (∀ e ∈ (run.step op).events, e.id ≠ x) ∧
      (run.step op).state.counter ≤ run.state.counter + 1 := by
  obtain ⟨hx, hs⟩ := hd
  cases op with
  | add item in_thread err =>
    obtain ⟨_, hcnt, hn, hp, _, _⟩ := do_add_item_state run.state in_thread err item
    have hmod : (run.state.counter + 1) % 2 ^ 32 = run.state.counter + 1 :=
      Nat.mod_eq_of_lt hwrap
    simp only [PollRun.step]
    refine ⟨⟨?_, ?_⟩, hev, ?_⟩
    · rw [hcnt, hmod]
      omega
    · intro j hj hid
      rw [hn] at hj
      rw [hp] at hid ⊢
      by_cases hjn : j = run.state.n_poll
      · subst hjn
        rw [Function.update_same] at hid
        simp only [hmod] at hid
        omega
      · rw [Function.update_noteq hjn] at hid ⊢
        exact hs j (by omega) hid
    · rw [hcnt, hmod]
  | update item in_thread =>
    obtain ⟨hp, hn, hcnt, _⟩ := do_update_item_state run.state in_thread item
    have hne : item.id ≠ x := by simpa [PollOp.updates] using hop
    simp only [PollRun.step]
    refine ⟨⟨by rw [hcnt]; exact hx, ?_⟩, hev, by rw [hcnt]; omega⟩
    intro j hj hid
    rw [hn] at hj
    rw [hp] at hid ⊢
    dsimp only at hid ⊢
    split_ifs at hid ⊢ with hc
    · exact absurd hid hne
    · exact hs j hj hid
  | remove item in_thread =>
    obtain ⟨hcnt, _, _⟩ := do_remove_item_frame run.state in_thread item
    simp only [PollRun.step]
    refine ⟨⟨by rw [hcnt]; exact hx, ?_⟩, hev, by rw [hcnt]; omega⟩
    intro j hj hid
    obtain ⟨k, hk, hkeq⟩ := do_remove_item_slot_old run.state in_thread item j hj
    rw [hkeq] at hid ⊢
    exact hs k hk hid
  | cycle env pr =>
    have hod := loop_cycle_only_disables env pr run.state
    simp only [PollRun.step]
    refine ⟨⟨by rw [hod.2.1]; exact hx, ?_⟩, ?_, by rw [hod.2.1]; omega⟩
    · intro j hj hid
      rw [hod.1] at hj
      rw [only_disables_id hod j] at hid
      exact only_disables_disabled hod j (hs j hj hid)
    · intro e he
      rcases List.mem_append.mp he with h1 | h1
      · exact hev e h1
      · obtain ⟨hlt, hid, hen⟩ := loop_cycle_events_enabled env pr run.state e h1
        intro heq
        have := hs e.index hlt (by rw [← hid]; exact heq)
        rw [this] at hen
        cases hen

/-- A list of operations without an update of id `x` keeps every item with id `x` disabled
and makes no invocation for that id, as long as the id counter does not wrap. -/
theorem foldl_step_id_disabled (x : Nat) (ops : List PollOp) (run : PollRun)
    (hd : id_disabled x run.state) (hev : ∀ e ∈ run.events, e.id ≠ x)
    (hops : ∀ op ∈ ops, op.updates x = false)
    (hwrap : run.state.counter + ops.length < 2 ^ 32) :
    id_disabled x (ops.foldl PollRun.step run).state ∧
      ∀ e ∈ (ops.foldl PollRun.step run).events, e.id ≠ x := by
  induction ops generalizing run with
  | nil => exact ⟨hd, hev⟩
  | cons op ops ih =>
    rw [List.length_cons] at hwrap
    obtain ⟨h1, h2, h3⟩ := PollRun.step_id_disabled x run op hd hev
      (hops op (List.mem_cons_self _ _)) (by omega)
    rw [List.foldl_cons]
    exact ih (run.step op) h1 h2 (fun o ho => hops o (List.mem_cons_of_mem _ ho)) (by omega)

/-- The stored list after `do_update_item`: every item with the id of the replacement is
replaced by it. -/
theorem do_update_item_items (priv : PollState) (in_thread : Bool) (item : SpaPollItem) :
    poll_items (do_update_item priv in_thread item).2.1 =
      (poll_items priv).map (fun p => if p.id = item.id then item else p) := by
  obtain ⟨hp, hn, _⟩ := do_update_item_state priv in_thread item
  unfold poll_items
  rw [hp, hn, List.map_map]
  apply List.map_congr_left
  intro k hk
  have := List.mem_range.mp hk
  simp [this]

/-- The ids of the stored items after a cycle of `loop` are those before it. -/
theorem loop_cycle_item_ids (env : NotifyEnv) (pr : PollResult) (priv : PollState) :
    (poll_items (loop_cycle env pr priv).1).map (fun p => p.id) =
      (poll_items priv).map (fun p => p.id) := by
  have hod := loop_cycle_only_disables env pr priv
  unfold poll_items
  rw [hod.1, List.map_map, List.map_map]
  apply List.map_congr_left
  intro k _
  exact only_disables_id hod k

/-- One operation keeps the stored ids pairwise distinct, as long as they are bounded by the
counter and the counter does not wrap. -/
theorem PollRun.step_nodup (run : PollRun) (op : PollOp) (hb : run.ids_bounded)
    (hc : run.state.counter = run.ids.length) (hlen : (run.step op).ids.length < 2 ^ 32)
    (hnd : ((poll_items run.state).map (fun p => p.id)).Nodup) :
    ((poll_items (run.step op).state).map (fun p => p.id)).Nodup := by
  cases op with
  | add item in_thread err =>
    have hl : run.ids.length + 1 < 2 ^ 32 := by
      simpa [PollRun.step] using hlen
    simp only [PollRun.step]
    rw [do_add_item_items, List.map_append, List.nodup_append]
    refine ⟨hnd, by simp, ?_⟩
    intro a ha hb'
    obtain ⟨p, hp, rfl⟩ := List.mem_map.mp ha
    unfold poll_items at hp
    obtain ⟨k, hk, rfl⟩ := List.mem_map.mp hp
    have h1 := hb.1 k (List.mem_range.mp hk)
    have h2 : (run.state.poll k).id = (run.state.counter + 1) % 2 ^ 32 := by
      simpa using hb'
    rw [Nat.mod_eq_of_lt (by omega)] at h2
    omega
  | update item in_thread =>
    simp only [PollRun.step]
    rw [do_update_item_items, List.map_map]
    have : (fun p : SpaPollItem => p.id) ∘ (fun p => if p.id = item.id then item else p) =
        fun p => p.id := by
      funext p
      simp only [Function.comp]
      split_ifs with h
      · exact h.symm
      · rfl
    rw [this]
    exact hnd
  | remove item in_thread =>
    simp only [PollRun.step]
    rw [do_remove_item_items]
    exact hnd.sublist (List.Sublist.map _ (List.eraseP_sublist _))
  | cycle env pr =>
    simp only [PollRun.step]
    rw [loop_cycle_item_ids]
    exact hnd

/-- In every run from the constructed state in which fewer than `2^32` ids have been handed
out, the stored ids are pairwise distinct. -/
theorem run_ops_nodup (efd : Int) (ops : List PollOp)
    (hlen : (run_ops (pinos_data_loop_constructed efd) ops).ids.length < 2 ^ 32) :
    ((poll_items (run_ops (pinos_data_loop_constructed efd) ops).state).map
      (fun p => p.id)).Nodup := by
  induction ops using List.reverseRecOn with
  | nil => simp [run_ops, poll_items, pinos_data_loop_constructed]
  | append_singleton ops op ih =>
    have hrun : run_ops (pinos_data_loop_constructed efd) (ops ++ [op]) =
        (run_ops (pinos_data_loop_constructed efd) ops).step op := by
      simp [run_ops, List.foldl_append]
    rw [hrun] at hlen ⊢
    have hprev := PollRun.step_ids_length (run_ops (pinos_data_loop_constructed efd) ops) op
    obtain ⟨h1, h2⟩ := run_ops_ids efd ops (by omega)
    exact PollRun.step_nodup _ op h1 h2 hlen (ih (by omega))

/-- Stored items with pairwise distinct ids: equal ids mean equal indices. -/
theorem nodup_ids_index (priv : PollState)
    (hnd : ((poll_items priv).map (fun p => p.id)).Nodup) (i j : Nat)
    (hi : i < priv.n_poll) (hj : j < priv.n_poll)
    (h : (priv.poll i).id = (priv.poll j).id) : i = j := by
  have hlen : ((poll_items priv).map (fun p => p.id)).length = priv.n_poll := by
    simp [poll_items]
  have hget : ∀ k (hk : k < ((poll_items priv).map (fun p => p.id)).length),
      ((poll_items priv).map (fun p => p.id))[k] = (priv.poll k).id := by
    intro k hk
    simp [poll_items]
  have hi' : i < ((poll_items priv).map (fun p => p.id)).length := by
    rw [hlen]
    exact hi
  have hj' : j < ((poll_items priv).map (fun p => p.id)).length := by
    rw [hlen]
    exact hj
  have heq : ((poll_items priv).map (fun p => p.id))[i] =
      ((poll_items priv).map (fun p => p.id))[j] := by
    rw [hget i hi', hget j hj']
    exact h
  exact (List.Nodup.getElem_inj_iff hnd).mp heq

/-- In a cycle of `loop` that starts from the state of a run from the constructed state, an
invocation that returned an error is the last one of the cycle for its id, and when the cycle
ends every stored item with that id is disabled. -/
theorem loop_cycle_error_id_disabled (efd : Int) (ops : List PollOp) (env : NotifyEnv)
    (pr : PollResult)
    (hlen : (run_ops (pinos_data_loop_constructed efd) ops).ids.length < 2 ^ 32)
    (pre : List PollEvent) (ev : PollEvent) (post : List PollEvent)
    (hsplit : (loop_cycle env pr (run_ops (pinos_data_loop_constructed efd) ops).state).2.1 =
      pre ++ ev :: post)
    (herr : SPA_RESULT_IS_ERROR ev.result = true) :
    (∀ e ∈ post, e.id ≠ ev.id) ∧
      id_disabled ev.id (loop_cycle env pr (run_ops (pinos_data_loop_constructed efd) ops).state).1 := by
  obtain ⟨⟨hb, _⟩, _⟩ := run_ops_ids efd ops hlen
  have hnd := run_ops_nodup efd ops hlen
  generalize (run_ops (pinos_data_loop_constructed efd) ops).state = S at hsplit hb hnd ⊢
  obtain ⟨g1, g2⟩ := loop_cycle_errors_silence env pr S pre ev post hsplit herr
  have hod := loop_cycle_only_disables env pr S
  have hmem : ev ∈ (loop_cycle env pr S).2.1 := by
    rw [hsplit]
    exact List.mem_append_right _ (List.mem_cons_self _ _)
  obtain ⟨hlt, hid, _⟩ := loop_cycle_events_enabled env pr S ev hmem
  refine ⟨?_, ?_, ?_⟩
  · intro e he heq
    have hmem' : e ∈ (loop_cycle env pr S).2.1 := by
      rw [hsplit]
      exact List.mem_append_right _ (List.mem_cons_of_mem _ he)
    obtain ⟨hlt', hid', _⟩ := loop_cycle_events_enabled env pr S e hmem'
    have := nodup_ids_index S hnd e.index ev.index hlt' hlt (by rw [← hid, ← hid']; exact heq)
    exact g1 e he this
  · rw [hod.2.1, hid]
    exact hb ev.index hlt
  · intro j hj hjid
    rw [hod.1] at hj
    rw [only_disables_id hod j, hid] at hjid
    have := nodup_ids_index S hnd j ev.index hj hlt hjid
    rw [this]
    exact g2

/-- For callbacks that do not call back into the poll set (`NotifyEnv`), with the arrays kept
apart: in every cycle of `loop`, an idle, before or after callback that returns an error is
the last invocation of the cycle for its index, and when the cycle ends the item at that
index, which has the id of the invocation, has its enabled flag cleared.  Once every stored
item with id `x` is disabled, whatever operations follow (cycles of `loop`, additions,
removals, updates of items with other ids) make no invocation for id `x` and keep the items
with id `x` disabled, as long as `do_update_item` stores no item with id `x` and the id counter
does not wrap.  The other items are unaffected: in every pass the invocation for an index and
the state its item is left in depend on the slot of that index only.  End to end, for a cycle
that starts from the state of a run from the constructed state: after an invocation that
returned an error, no further invocation for the id of that item is made, in the rest of that
cycle or in the operations `ops` that follow, as long as these hold no `do_update_item` for
that id and the id counter does not wrap. -/
theorem callback_error_disables (env : NotifyEnv) (pr : PollResult) (priv : PollState)
    (x : Nat) (ops : List PollOp) :
    (∀ pre ev post, (loop_cycle env pr priv).2.1 = pre ++ ev :: post →
        SPA_RESULT_IS_ERROR ev.result = true →
        (∀ e ∈ post, e.index ≠ ev.index) ∧
          ((loop_cycle env pr priv).1.poll ev.index).enabled = false ∧
          ((loop_cycle env pr priv).1.poll ev.index).id = ev.id) ∧
      (id_disabled x priv → (∀ op ∈ ops, op.updates x = false) →
        priv.counter + ops.length < 2 ^ 32 →
        (∀ e ∈ (run_ops priv ops).events, e.id ≠ x) ∧ id_disabled x (run_ops priv ops).state) ∧
      (∀ (pass : Pass)
          (select : SpaPollItem → Nat → (Nat → SpaPollFd) → Option NotifyCall)
          (trace : List PollEvent),
        notify_pass env pass select (priv, trace) =
          ({ priv with poll := fun j => if j < priv.n_poll then notify_item env select priv j
                else priv.poll j },
            trace ++ (List.range priv.n_poll).filterMap (notify_event env pass select priv))) ∧
      (∀ (efd : Int) (before : List PollOp),
        priv = (run_ops (pinos_data_loop_constructed efd) before).state →
        (run_ops (pinos_data_loop_constructed efd) before).ids.length + ops.length < 2 ^ 32 →
        ∀ pre ev post, (loop_cycle env pr priv).2.1 = pre ++ ev :: post →
          SPA_RESULT_IS_ERROR ev.result = true →
          (∀ op ∈ ops, op.updates ev.id = false) →
          (∀ e ∈ post, e.id ≠ ev.id) ∧
            (∀ e ∈ (run_ops (loop_cycle env pr priv).1 ops).events, e.id ≠ ev.id) ∧
            id_disabled ev.id (run_ops (loop_cycle env pr priv).1 ops).state) := by
  refine ⟨?_, ?_, ?_, ?_⟩
  · intro pre ev post hsplit herr
    obtain ⟨g1, g2⟩ := loop_cycle_errors_silence env pr priv pre ev post hsplit herr
    refine ⟨g1, g2, ?_⟩
    have hmem : ev ∈ (loop_cycle env pr priv).2.1 := by
      rw [hsplit]
      exact List.mem_append_right _ (List.mem_cons_self _ _)
    obtain ⟨_, hid, _⟩ := loop_cycle_events_enabled env pr priv ev hmem
    rw [only_disables_id (loop_cycle_only_disables env pr priv) ev.index, hid]
  · intro hd hops hwrap
    have := foldl_step_id_disabled x ops { state := priv, events := [], ids := [] } hd
      (by intro e he; cases he) hops hwrap
    exact ⟨this.2, this.1⟩
  · intro pass select trace
    exact notify_pass_closed env pass select priv trace
  · intro efd before hpriv hlen pre ev post hsplit herr hops
    subst hpriv
    obtain ⟨a, b⟩ :=
      loop_cycle_error_id_disabled efd before env pr (by omega) pre ev post hsplit herr
    have hcnt := (loop_cycle_only_disables env pr
      (run_ops (pinos_data_loop_constructed efd) before).state).2.1
    have hc := (run_ops_ids efd before (by omega)).2
    have := foldl_step_id_disabled ev.id ops
      { state := (loop_cycle env pr (run_ops (pinos_data_loop_constructed efd) before).state).1,
        events := [], ids := [] } b
      (by intro e he; cases he) hops (by dsimp only; rw [hcnt, hc]; omega)
    exact ⟨a, this.2, this.1⟩

/-- Disabling on error at a concrete input.  In a cycle where the before callback of the item
at index 0 (id 1) fails, that invocation is the last one for index 0, although slot 1 has returned
events, and the item ends the cycle disabled.  In the operations that follow, two cycles with
an addition in between, no callback of id 1 is invoked. -/
theorem callback_error_disables_witness :
    (loop_cycle env_before_fails poll_first_fd watch_added).2.1 =
        [ev_idle_1] ++ ev_before_0 :: [ev_after_1] ∧
      SPA_RESULT_IS_ERROR ev_before_0.result = true ∧
      ((∀ e ∈ [ev_after_1], e.index ≠ ev_before_0.index) ∧
        ((loop_cycle env_before_fails poll_first_fd watch_added).1.poll
          ev_before_0.index).enabled = false ∧
        ((loop_cycle env_before_fails poll_first_fd watch_added).1.poll ev_before_0.index).id =
          ev_before_0.id) ∧
      ((∀ e ∈ (run_ops watch_failed later_ops).events, e.id ≠ 1) ∧
        id_disabled 1 (run_ops watch_failed later_ops).state) ∧
      (run_ops watch_failed later_ops).events.length = 6 ∧
      ((∀ e ∈ [ev_after_1], e.id ≠ ev_before_0.id) ∧
        (∀ e ∈ (run_ops (loop_cycle env_before_fails poll_first_fd watch_added).1
          later_ops).events, e.id ≠ ev_before_0.id) ∧
        id_disabled ev_before_0.id
          (run_ops (loop_cycle env_before_fails poll_first_fd watch_added).1 later_ops).state) :=
  ⟨by decide, by decide,
    (callback_error_disables env_before_fails poll_first_fd watch_added 1 later_ops).1
      [ev_idle_1] ev_before_0 [ev_after_1] (by decide) (by decide),
    (callback_error_disables env_ok poll_first_fd watch_failed 1 later_ops).2.1
      (by unfold id_disabled; decide) (by decide) (by decide),
    by decide,
    (callback_error_disables env_before_fails poll_first_fd watch_added 1 later_ops).2.2.2
      3 [PollOp.add item_two_fds false 0, PollOp.add item_no_fds true 0] rfl (by decide)
      [ev_idle_1] ev_before_0 [ev_after_1] (by decide) (by decide) (by decide)⟩


/-! ## Theorems: registry listeners, ring wrap and cleared slots -/

/-- The listener of `object_removed` gives `on_registry_object_removed` a pointer that lies
`sizeof (PinosListener)` bytes behind the private data; unless a `PinosDaemonPrivate` lives
there, the handler faults. -/
theorem emit_object_removed_faults (heap : DaemonHeap) (priv : Nat) (object : PinosObject)
    (h : heap (priv + sizeof_PinosListener) = none) :
    emit_object_removed heap priv object = none := by
  have haddr : SPA_CONTAINER_OF (priv + offsetof_object_removed) offsetof_object_added =
      priv + sizeof_PinosListener := by
    simp [SPA_CONTAINER_OF, offsetof_object_removed]
    omega
  unfold emit_object_removed on_registry_object_removed
  dsimp only
  rw [haddr, h]

/-- C16, the code at a failing input.  The daemon at `0x1000` has the factory `sink`.  The
emission of `object_added` for the factory `alt` makes its table map `alt` to that factory
and leaves `sink` as it was.  The emission of `object_removed` for `alt` reaches
`on_registry_object_removed` with the address of the member `object_removed`; the handler
subtracts the offset of `object_added` and so reads 24 bytes behind the private data, where
no `PinosDaemonPrivate` is: it faults and the table of the daemon keeps `alt`, so that
`CreateNode ("alt", ...)` still finds the factory.  Given the pointer that belongs to
`object_added`, the same handler evicts `alt`. -/
theorem on_registry_object_removed_wrong_member :
    g_hash_table_lookup (factories_at daemon_heap) "alt" = none ∧
      (emit_object_added daemon_heap 0x1000 alt_factory_object).isSome = true ∧
      g_hash_table_lookup (factories_at daemon_heap_added) "alt" = some alt_factory ∧
      g_hash_table_lookup (factories_at daemon_heap_added) "sink" = some sink_factory ∧
      SPA_CONTAINER_OF (0x1000 + offsetof_object_removed) offsetof_object_added =
        0x1000 + sizeof_PinosListener ∧
      (daemon_heap_added (0x1000 + sizeof_PinosListener)).isSome = false ∧
      (emit_object_removed daemon_heap_added 0x1000 alt_factory_object).isSome = false ∧
      (handle_create_node create_sink
          { clients := [], node_factories := factories_at daemon_heap_added }
          ":1.5" "alt" "x" []).1 = Reply.value sink_node.object_path ∧
      (on_registry_object_removed daemon_heap_added (0x1000 + offsetof_object_added)
          alt_factory_object).map
        (fun r => g_hash_table_lookup (factories_at r.1) "alt") = some none := by
  decide

/-- C19, the code at a failing input.  After one record of 48 + 32652 bytes was written and
drained, read and write index are both 32700 and the write areas are 68 bytes at offset 32700
and 32699 bytes at offset 0.  An off-thread invoke with a 20-byte payload is accepted; the
payload is placed in the second area, at offset 0, so it ends before offset 20.  The
`item_size` stored in the record is 89, not 68 + 20 = 88, and the write index moves to 21, one
byte behind the first byte after the payload. -/
theorem do_invoke_wrap_item_size_off_by_one :
    (loop_drain env_idle 2 wrap_s1).2.map (fun priv => priv.buffer) = some wrap_s2.buffer ∧
      wrap_s2.buffer = ⟨32700, 32700, 32768⟩ ∧
      spa_ringbuffer_get_write_areas wrap_s2.buffer = (⟨32700, 68⟩, ⟨0, 32699⟩) ∧
      (do_invoke env_idle wrap_s2 false 0x5000 2 20 payload2 0).1 = SPA_RESULT_RETURN_ASYNC 2 ∧
      loadLE 8 (do_invoke env_idle wrap_s2 false 0x5000 2 20 payload2 0).2.1.mem
          (ring_base + 32700 + off_data) = ring_base + 0 ∧
      loadLE 8 (do_invoke env_idle wrap_s2 false 0x5000 2 20 payload2 0).2.1.mem
          (ring_base + 32700 + off_item_size) = 89 ∧
      (spa_ringbuffer_get_write_areas wrap_s2.buffer).1.len + 20 = 88 ∧
      (do_invoke env_idle wrap_s2 false 0x5000 2 20 payload2 0).2.1.buffer.writeindex = 21 := by
  decide

/-- C20, the code at a failing input.  The scan faults on every cleared slot it reaches: it
reads `o->type` through the `NULL` that the lookup returned.  For the registry with a cleared
slot before the sink node, `pinos_daemon_find_port` faults, while for the same registry with
the cleared slot left out it returns the free input port of the sink node. -/
theorem pinos_daemon_find_port_cleared_slot :
    (∀ (uri_node : Nat) (have_name : Bool) (name : String) (direction : PinosDirection)
        (rest : List (Option PinosObject)),
        find_port_scan uri_node have_name name direction (none :: rest) = none) ∧
      cleared_registry.objects.filter (fun o => o.isSome) = compact_registry.objects ∧
      pinos_daemon_find_port cleared_registry src_out (some "/sink/0") = FindPort.fault ∧
      pinos_daemon_find_port compact_registry src_out (some "/sink/0") =
        FindPort.found sink_in := by
  refine ⟨?_, by decide, by decide, by decide⟩
  intro uri_node have_name name direction rest
  rfl


/-! ## Theorems: consistency of the poll set -/

/-- Every state has its own layout. -/
theorem keeps_layout_refl (priv : PollState) : keeps_layout priv priv :=
  ⟨only_disables_refl priv, rfl, fun _ => rfl, rfl⟩

/-- Keeping the layout composes. -/
theorem keeps_layout_trans {a b c : PollState} (hab : keeps_layout a b)
    (hbc : keeps_layout b c) : keeps_layout a c := by
  obtain ⟨h1, h2, h3, h4⟩ := hab
  obtain ⟨k1, k2, k3, k4⟩ := hbc
  exact ⟨only_disables_trans h1 k1, k2.trans h2, fun k => (k3 k).trans (h3 k), k4.trans h4⟩

/-- A callback pass keeps the layout. -/
theorem notify_pass_keeps_layout (env : NotifyEnv) (pass : Pass)
    (select : SpaPollItem → Nat → (Nat → SpaPollFd) → Option NotifyCall)
    (priv : PollState) (trace : List PollEvent) :
    keeps_layout priv (notify_pass env pass select (priv, trace)).1 := by
  obtain ⟨h1, h2, _, h4, _, _⟩ := notify_pass_frame env pass select priv trace
  refine ⟨notify_pass_only_disables env pass select priv trace, h1, ?_, h4⟩
  intro k
  rw [h2]

/-- The `poll` call keeps the layout. -/
theorem poll_syscall_keeps_layout (pr : PollResult) (priv : PollState) :
    keeps_layout priv (poll_syscall pr priv) := by
  obtain ⟨a, b, c, d, _, f, _⟩ := poll_syscall_frame pr priv
  refine ⟨only_disables_of_frame a b c, d, ?_, f⟩
  intro k
  obtain ⟨h1, h2⟩ := poll_syscall_slot pr priv k
  unfold SpaPollFd.request
  rw [h1, h2]

/-- From the start of the before pass to its end a cycle of `loop` keeps the layout. -/
theorem loop_cycle_keeps_layout (env : NotifyEnv) (pr : PollResult) (priv : PollState) :
    keeps_layout (loop_cycle_before env priv) (loop_cycle env pr priv).1 := by
  have h3 := notify_pass_keeps_layout env Pass.before before_call
    (loop_rebuild (notify_pass env Pass.idle idle_call (priv, [])).1)
    (notify_pass env Pass.idle idle_call (priv, [])).2
  have h4 : ∀ s, keeps_layout s (poll_syscall pr s) := fun s => poll_syscall_keeps_layout pr s
  unfold loop_cycle loop_cycle_before
  dsimp only
  split_ifs
  · exact h3
  · exact h3
  · exact keeps_layout_trans h3 (h4 _)
  · exact keeps_layout_trans h3 (h4 _)
  · exact keeps_layout_trans (keeps_layout_trans h3 (h4 _))
      (notify_pass_keeps_layout env Pass.after after_call _ _)

/-- A consistent poll set stays consistent as long as the layout is kept. -/
theorem poll_set_consistent_of_keeps_layout {a b : PollState} (h : keeps_layout a b)
    (hc : poll_set_consistent a) : poll_set_consistent b := by
  obtain ⟨hod, hidx, hfds, _⟩ := h
  intro i hi hen hpos
  have hitem := only_disables_enabled hod i hen
  rw [hod.1] at hi
  rw [hitem] at hen hpos
  have := hc i hi hen hpos
  unfold idx_points_at_own_fds at this ⊢
  rw [hitem, hidx, ← this]
  unfold fds_slice
  rw [List.map_map, List.map_map]
  apply List.map_congr_left
  intro j _
  exact hfds _

/-- The rebuild step, when the flag is set, makes the poll set consistent. -/
theorem loop_rebuild_consistent (priv : PollState) (h : priv.rebuild_fds = true) :
    poll_set_consistent (loop_rebuild priv) := by
  obtain ⟨_, hen, _, _⟩ := rebuild_loop_layout priv priv.n_poll
  obtain ⟨hpoll, hnp, _⟩ := rebuild_loop_frame priv.n_poll 0 { priv with n_fds := 1 }
  have hr : loop_rebuild priv =
      { for_range rebuild_body priv.n_poll 0 { priv with n_fds := 1 } with
        rebuild_fds := false } := by
    simp [loop_rebuild, h]
  rw [hr]
  intro i hi hei _
  dsimp only at hi hei ⊢
  rw [hnp] at hi
  rw [hpoll] at hei
  obtain ⟨h1, h2⟩ := hen i hi hei
  unfold idx_points_at_own_fds
  dsimp only
  rw [hpoll, h1]
  dsimp only
  unfold SpaPollItem.n_fds
  rw [fds_slice_eq_list _ _ _ h2]

/-- The rebuild step clears the rebuild flag. -/
theorem loop_rebuild_flag (priv : PollState) : (loop_rebuild priv).rebuild_fds = false := by
  unfold loop_rebuild
  split_ifs with h
  · rfl
  · simpa using h

/-- At the start of the before pass the poll set is consistent, if at the start of the cycle
the rebuild flag is set or the poll set is consistent. -/
theorem loop_cycle_before_consistent (env : NotifyEnv) (priv : PollState)
    (h : rebuild_or_consistent priv) : poll_set_consistent (loop_cycle_before env priv) := by
  have hk := notify_pass_keeps_layout env Pass.idle idle_call priv []
  unfold loop_cycle_before
  by_cases hf : priv.rebuild_fds = true
  · exact loop_rebuild_consistent _ (hk.2.2.2.trans hf)
  · rcases h with h | h
    · exact absurd h hf
    · have hflag : (notify_pass env Pass.idle idle_call (priv, [])).1.rebuild_fds = false := by
        rw [hk.2.2.2]
        simpa using hf
      have hid : loop_rebuild (notify_pass env Pass.idle idle_call (priv, [])).1 =
          (notify_pass env Pass.idle idle_call (priv, [])).1 := by
        simp [loop_rebuild, hflag]
      rw [hid]
      exact poll_set_consistent_of_keeps_layout hk h

/-- The rebuild flag after `do_add_item`. -/
theorem do_add_item_flag (priv : PollState) (in_thread : Bool) (err : Nat)
    (item : SpaPollItem) :
    (do_add_item priv in_thread err item).2.2.1.rebuild_fds =
        (if item.n_fds ≠ 0 then true else priv.rebuild_fds) ∧
      (do_add_item priv in_thread err item).2.2.1.idx = priv.idx := by
  have hn : ∀ c, ({ item with id := c } : SpaPollItem).n_fds = item.n_fds := fun _ => rfl
  unfold do_add_item start_thread
  dsimp only
  rw [hn]
  split_ifs <;> exact ⟨rfl, rfl⟩

/-- The rebuild flag and the base indices after `do_remove_item`. -/
theorem do_remove_item_flag (priv : PollState) (in_thread : Bool) (item : SpaPollItem) :
    (do_remove_item priv in_thread item).2.1.rebuild_fds =
        (if item.n_fds ≠ 0 then true else priv.rebuild_fds) ∧
      (do_remove_item priv in_thread item).2.1.idx = priv.idx := by
  unfold do_remove_item stop_thread
  cases find_item priv.poll item.id priv.n_poll 0 <;>
    (dsimp only; split_ifs <;> exact ⟨rfl, rfl⟩)

/-- The base indices after `do_update_item`. -/
theorem do_update_item_idx (priv : PollState) (in_thread : Bool) (item : SpaPollItem) :
    (do_update_item priv in_thread item).2.1.idx = priv.idx := rfl

/-- Whether an index points at its own fds depends on the slot, the base index and the pollfd
array only. -/
theorem idx_points_congr {a b : PollState} (i : Nat) (hp : b.poll i = a.poll i)
    (hi : b.idx = a.idx) (hf : b.fds = a.fds) (h : idx_points_at_own_fds a i) :
    idx_points_at_own_fds b i := by
  unfold idx_points_at_own_fds at h ⊢
  rw [hp, hi, hf]
  exact h

/-- The function `do_add_item` keeps "rebuild flag set or consistent". -/
theorem do_add_item_rebuild_or_consistent (priv : PollState) (in_thread : Bool) (err : Nat)
    (item : SpaPollItem) (h : rebuild_or_consistent priv) :
    rebuild_or_consistent (do_add_item priv in_thread err item).2.2.1 := by
  obtain ⟨hflag, hidx⟩ := do_add_item_flag priv in_thread err item
  obtain ⟨_, _, hn, hp, hfds, _⟩ := do_add_item_state priv in_thread err item
  by_cases hz : item.n_fds = 0
  · rcases h with h | h
    · left
      rw [hflag, h]
      simp
    · right
      intro i hi hen hpos
      rw [hn] at hi
      by_cases hlast : i = priv.n_poll
      · rw [hp, hlast, Function.update_same] at hpos
        have : item.n_fds = ({ item with id := (priv.counter + 1) % 2 ^ 32 } : SpaPollItem).n_fds :=
          rfl
        omega
      · have hslot : (do_add_item priv in_thread err item).2.2.1.poll i = priv.poll i := by
          rw [hp, Function.update_noteq hlast]
        rw [hslot] at hen hpos
        exact idx_points_congr i hslot hidx hfds (h i (by omega) hen hpos)
  · left
    rw [hflag]
    simp [hz]

/-- The function `do_update_item` keeps "rebuild flag set or consistent". -/
theorem do_update_item_rebuild_or_consistent (priv : PollState) (in_thread : Bool)
    (item : SpaPollItem) (h : rebuild_or_consistent priv) :
    rebuild_or_consistent (do_update_item priv in_thread item).2.1 := by
  obtain ⟨hp, hn, _, hfds, _, hflag⟩ := do_update_item_state priv in_thread item
  by_cases hz : item.n_fds = 0
  · rcases h with h | h
    · left
      rw [hflag, h]
      simp
    · right
      intro i hi hen hpos
      rw [hn] at hi
      have hslot : (do_update_item priv in_thread item).2.1.poll i = priv.poll i := by
        rw [hp]
        dsimp only
        split_ifs with hc
        · exfalso
          rw [hp] at hpos
          dsimp only at hpos
          rw [if_pos hc] at hpos
          omega
        · rfl
      rw [hslot] at hen hpos
      exact idx_points_congr i hslot (do_update_item_idx priv in_thread item) hfds
        (h i hi hen hpos)
  · left
    rw [hflag]
    simp [hz]

/-- One operation other than a removal with a zero fd count keeps "rebuild flag set or
consistent". -/
theorem PollRun.step_rebuild_or_consistent (run : PollRun) (op : PollOp)
    (h : rebuild_or_consistent run.state) (hop : op.removes_without_rebuild = false) :
    rebuild_or_consistent (run.step op).state := by
  cases op with
  | add item in_thread err =>
    exact do_add_item_rebuild_or_consistent run.state in_thread err item h
  | update item in_thread =>
    exact do_update_item_rebuild_or_consistent run.state in_thread item h
  | remove item in_thread =>
    left
    have hz : item.n_fds ≠ 0 := by
      simpa [PollOp.removes_without_rebuild] using hop
    simp only [PollRun.step]
    rw [(do_remove_item_flag run.state in_thread item).1]
    simp [hz]
  | cycle env pr =>
    right
    simp only [PollRun.step]
    exact poll_set_consistent_of_keeps_layout (loop_cycle_keeps_layout env pr run.state)
      (loop_cycle_before_consistent env run.state h)

/-- In every run from the constructed state without a removal with a zero fd count, the
rebuild flag is set or the poll set is consistent. -/
theorem run_ops_rebuild_or_consistent (efd : Int) (ops : List PollOp)
    (hops : ∀ op ∈ ops, op.removes_without_rebuild = false) :
    rebuild_or_consistent (run_ops (pinos_data_loop_constructed efd) ops).state := by
  induction ops using List.reverseRecOn with
  | nil =>
    right
    intro i hi
    simp [run_ops, pinos_data_loop_constructed] at hi
  | append_singleton ops op ih =>
    have hrun : run_ops (pinos_data_loop_constructed efd) (ops ++ [op]) =
        (run_ops (pinos_data_loop_constructed efd) ops).step op := by
      simp [run_ops, List.foldl_append]
    rw [hrun]
    exact PollRun.step_rebuild_or_consistent _ op
      (ih (fun o ho => hops o (List.mem_append_left _ ho)))
      (hops op (List.mem_append_right _ (List.mem_singleton_self _)))

/-- C21, the code at a failing input.  In every run from the constructed state that holds no
`do_remove_item` with a zero fd count, the poll set is consistent at the start of every before
pass: `idx[i]` of every enabled item with fds points at its own fds.  A removal with a zero fd
count breaks this.  Items with the fds 5, 6 and 7 and ids 1, 3 and 4 are stored around an item
without fds (id 2); a cycle rebuilds the array, base indices 1, 2, 2 and 3, and the set is
consistent.  `do_remove_item` for id 2 shifts the items with the ids 3 and 4 down, leaves
`idx` as it was and sets no rebuild.  At the start of the next before pass the item with fd 7
is at index 2, `idx[2]` is 2 and `pollfd[2]` is fd 6: the before callback of the item of fd 7
is called with the pollfd of fd 6. -/
theorem do_remove_item_zero_fds_stale_idx :
    (∀ (efd : Int) (ops : List PollOp) (env : NotifyEnv),
        (∀ op ∈ ops, op.removes_without_rebuild = false) →
        poll_set_consistent
          (loop_cycle_before env (run_ops (pinos_data_loop_constructed efd) ops).state)) ∧
      poll_set_consistent shift_built ∧
      (List.range 4).map shift_built.idx = [1, 2, 2, 3] ∧
      (PollOp.remove { item_no_fds with id := 2 } true).removes_without_rebuild = true ∧
      shift_removed.rebuild_fds = false ∧
      (poll_items shift_removed).map (fun p => p.id) = [1, 3, 4] ∧
      ((loop_cycle_before env_ok shift_removed).poll 2).enabled = true ∧
      ((loop_cycle_before env_ok shift_removed).poll 2).fds = [⟨7, POLLIN, 0⟩] ∧
      (loop_cycle_before env_ok shift_removed).idx 2 = 2 ∧
      (loop_cycle_before env_ok shift_removed).fds 2 = ⟨6, POLLIN, 0⟩ ∧
      ¬ idx_points_at_own_fds (loop_cycle_before env_ok shift_removed) 2 ∧
      ¬ poll_set_consistent (loop_cycle_before env_ok shift_removed) ∧
      ev_before_stale ∈ (loop_cycle env_ok poll_first_fd shift_removed).2.1 := by
  have hbad : ¬ idx_points_at_own_fds (loop_cycle_before env_ok shift_removed) 2 := by
    unfold idx_points_at_own_fds
    decide
  refine ⟨?_, ?_, by decide, by decide, by decide, by decide, by decide, by decide, by decide,
    by decide, hbad, ?_, by decide⟩
  · intro efd ops env hops
    exact loop_cycle_before_consistent env _ (run_ops_rebuild_or_consistent efd ops hops)
  · unfold poll_set_consistent idx_points_at_own_fds
    decide
  · intro h
    exact hbad (h 2 (by decide) (by decide) (by decide))

/-! ## Theorems: capacity of the poll set -/

/-- A run extended by one operation. -/
theorem run_ops_append_singleton (priv : PollState) (ops : List PollOp) (op : PollOp) :
    run_ops priv (ops ++ [op]) = (run_ops priv ops).step op := by
  simp [run_ops, List.foldl_append]

/-- The state after `n` calls of `do_add_item` with the same item: the count has grown by `n`,
the `n` new slots hold the item, the pollfd array is untouched, and the rebuild flag is set if
the item has fds. -/
theorem add_ops_state (priv : PollState) (item : SpaPollItem) (in_thread : Bool)
    (err n : Nat) :
    (run_ops priv (add_ops item in_thread err n)).state.n_poll = priv.n_poll + n ∧
      (∀ k, priv.n_poll ≤ k → k < priv.n_poll + n →
        ((run_ops priv (add_ops item in_thread err n)).state.poll k).enabled = item.enabled ∧
        ((run_ops priv (add_ops item in_thread err n)).state.poll k).fds = item.fds) ∧
      (run_ops priv (add_ops item in_thread err n)).state.n_fds = priv.n_fds ∧
      (run_ops priv (add_ops item in_thread err n)).state.fds = priv.fds ∧
      (0 < n → item.n_fds ≠ 0 →
        (run_ops priv (add_ops item in_thread err n)).state.rebuild_fds = true) := by
  induction n with
  | zero =>
    refine ⟨rfl, ?_, rfl, rfl, ?_⟩
    · intro k h1 h2
      omega
    · intro h
      omega
  | succ n ih =>
    obtain ⟨i1, i2, i3, i4, _⟩ := ih
    have hops : add_ops item in_thread err (n + 1) =
        add_ops item in_thread err n ++ [PollOp.add item in_thread err] := by
      unfold add_ops
      exact List.replicate_succ' _ _
    rw [hops, run_ops_append_singleton]
    simp only [PollRun.step]
    obtain ⟨_, _, hn, hp, hfds, hnfds⟩ :=
      do_add_item_state (run_ops priv (add_ops item in_thread err n)).state in_thread err item
    obtain ⟨hflag, _⟩ :=
      do_add_item_flag (run_ops priv (add_ops item in_thread err n)).state in_thread err item
    refine ⟨by rw [hn, i1]; omega, ?_, by rw [hnfds, i3], by rw [hfds, i4], ?_⟩
    · intro k h1 h2
      rw [hp, i1]
      by_cases hk : k = priv.n_poll + n
      · rw [hk, Function.update_same]
        exact ⟨rfl, rfl⟩
      · rw [Function.update_noteq hk]
        exact i2 k h1 (by omega)
    · intro _ hz
      rw [hflag]
      simp [hz]

/-- The pollfd count that the rebuild step computes after `n` additions of an enabled item
with fds to the constructed state. -/
theorem add_ops_rebuild_count (efd : Int) (item : SpaPollItem) (in_thread : Bool)
    (err n : Nat) (hen : item.enabled = true) (hz : item.n_fds ≠ 0) (hn : 0 < n) :
    (loop_rebuild (run_ops (pinos_data_loop_constructed efd)
      (add_ops item in_thread err n)).state).n_fds = 1 + n * item.n_fds := by
  obtain ⟨h1, h2, _, _, h5⟩ :=
    add_ops_state (pinos_data_loop_constructed efd) item in_thread err n
  have hflag := h5 hn hz
  generalize (run_ops (pinos_data_loop_constructed efd) (add_ops item in_thread err n)).state
    = S at h1 h2 hflag
  have hnp : S.n_poll = n := by
    rw [h1]
    simp [pinos_data_loop_constructed]
  have hr : loop_rebuild S =
      { for_range rebuild_body S.n_poll 0 { S with n_fds := 1 } with rebuild_fds := false } := by
    simp [loop_rebuild, hflag]
  rw [hr]
  dsimp only
  rw [(rebuild_loop_layout S S.n_poll).1, hnp]
  unfold fd_base
  have hmap : (List.range n).map (enabled_fds S) = (List.range n).map (fun _ => item.n_fds) := by
    apply List.map_congr_left
    intro k hk
    obtain ⟨a, b⟩ := h2 k (by simp [pinos_data_loop_constructed])
      (by simpa [pinos_data_loop_constructed] using List.mem_range.mp hk)
    unfold enabled_fds SpaPollItem.n_fds
    rw [a, b, hen]
    rfl
  rw [hmap]
  simp

/-- C22, the code at a failing input.  `do_add_item` stores the item at `poll[n_poll]` and
increments `n_poll` whatever the count is, so `n` additions to the constructed state leave `n`
stored items, and the rebuild step then counts 1 plus the fds of all of them.  After 16
additions of an item with two fds the counts are within the arrays; a 17th `do_add_item`
stores its item at `poll[16]`, behind the 16 slots, and leaves 17 stored items; the rebuild
step of the 16 items counts 33 pollfds and stores fd 6 at `fds[32]`, behind the 32 slots. -/
theorem do_add_item_exceeds_capacity :
    (∀ (priv : PollState) (in_thread : Bool) (err : Nat) (item : SpaPollItem),
        (do_add_item priv in_thread err item).2.2.1.n_poll = priv.n_poll + 1 ∧
        (do_add_item priv in_thread err item).2.2.1.poll priv.n_poll =
          { item with id := (do_add_item priv in_thread err item).2.1 }) ∧
      (∀ (efd : Int) (item : SpaPollItem) (in_thread : Bool) (err n : Nat),
        (run_ops (pinos_data_loop_constructed efd)
          (add_ops item in_thread err n)).state.n_poll = n) ∧
      (∀ (efd : Int) (item : SpaPollItem) (in_thread : Bool) (err n : Nat),
        item.enabled = true → item.n_fds ≠ 0 → 0 < n →
        (loop_rebuild (run_ops (pinos_data_loop_constructed efd)
          (add_ops item in_thread err n)).state).n_fds = 1 + n * item.n_fds) ∧
      within_capacity full_state ∧
      full_state.n_poll = poll_slots ∧
      (do_add_item full_state true 0 item_two_fds).2.2.1.n_poll = 17 ∧
      (do_add_item full_state true 0 item_two_fds).2.2.1.poll poll_slots =
        { item_two_fds with id := 17 } ∧
      ¬ within_capacity (do_add_item full_state true 0 item_two_fds).2.2.1 ∧
      (loop_rebuild full_state).n_poll = 16 ∧
      (loop_rebuild full_state).n_fds = 33 ∧
      (loop_rebuild full_state).idx 15 = 31 ∧
      full_state.fds fds_slots = SpaPollFd.zero ∧
      (loop_rebuild full_state).fds fds_slots = ⟨6, POLLIN, 0⟩ ∧
      ¬ within_capacity (loop_rebuild full_state) := by
  have h16 : full_state.n_poll = 16 :=
    (add_ops_state (pinos_data_loop_constructed 3) item_two_fds true 0 16).1
  have h17 : (do_add_item full_state true 0 item_two_fds).2.2.1.n_poll = 17 := by
    rw [(do_add_item_state full_state true 0 item_two_fds).2.2.1, h16]
  have h33 : (loop_rebuild full_state).n_fds = 33 :=
    add_ops_rebuild_count 3 item_two_fds true 0 16 (by decide) (by decide) (by decide)
  refine ⟨?_, ?_, ?_, ?_, h16, h17, by decide, ?_, by decide, h33, by decide, by decide,
    by decide, ?_⟩
  · intro priv in_thread err item
    obtain ⟨hid, _, hn, hp, _⟩ := do_add_item_state priv in_thread err item
    refine ⟨hn, ?_⟩
    rw [hp, Function.update_same, hid]
  · intro efd item in_thread err n
    rw [(add_ops_state (pinos_data_loop_constructed efd) item in_thread err n).1]
    simp [pinos_data_loop_constructed]
  · intro efd item in_thread err n hen hz hn
    exact add_ops_rebuild_count efd item in_thread err n hen hz hn
  · constructor
    · rw [h16]
      decide
    · decide
  · intro h
    have := h.1
    rw [h17] at this
    exact absurd this (by decide)
  · intro h
    have := h.2
    rw [h33] at this
    exact absurd this (by decide)


/-! ## Theorems: callbacks that call back into the poll set -/

/-- For callbacks that leave the poll set alone the body of a pass is `notify_body`. -/
theorem notify_body_reentrant_of_results (env : NotifyEnv) (pass : Pass)
    (select : SpaPollItem → Nat → (Nat → SpaPollFd) → Option NotifyCall) (i : Nat)
    (st : PollState × List PollEvent) :
    notify_body_reentrant (ReentrantEnv.of_results env) pass select i st =
      notify_body env pass select i st := by
  unfold notify_body_reentrant notify_body ReentrantEnv.of_results
  rfl

/-- The body of a pass keeps the item count. -/
theorem notify_body_n_poll (env : NotifyEnv) (pass : Pass)
    (select : SpaPollItem → Nat → (Nat → SpaPollFd) → Option NotifyCall) (i : Nat)
    (st : PollState × List PollEvent) :
    (notify_body env pass select i st).1.n_poll = st.1.n_poll := by
  unfold notify_body
  dsimp only
  split
  · split_ifs <;> rfl
  · rfl

/-- For callbacks that leave the poll set alone, a pass with enough fuel is the `for` loop
over the item count at its start. -/
theorem notify_loop_reentrant_of_results (env : NotifyEnv) (pass : Pass)
    (select : SpaPollItem → Nat → (Nat → SpaPollFd) → Option NotifyCall) (fuel i : Nat)
    (st : PollState × List PollEvent) (h : st.1.n_poll ≤ i + fuel) :
    notify_loop_reentrant (ReentrantEnv.of_results env) pass select fuel i st =
      some (for_range (notify_body env pass select) (st.1.n_poll - i) i st) := by
  induction fuel generalizing i st with
  | zero =>
    have h0 : st.1.n_poll - i = 0 := by omega
    have hlt : ¬ i < st.1.n_poll := by omega
    simp [notify_loop_reentrant, hlt, h0, for_range]
  | succ fuel ih =>
    unfold notify_loop_reentrant
    by_cases hlt : i < st.1.n_poll
    · rw [if_pos hlt, notify_body_reentrant_of_results,
        ih (i + 1) (notify_body env pass select i st)
          (by rw [notify_body_n_poll]; omega), notify_body_n_poll]
      have hs : st.1.n_poll - i = (st.1.n_poll - (i + 1)) + 1 := by omega
      rw [hs, for_range]
    · have h0 : st.1.n_poll - i = 0 := by omega
      rw [if_neg hlt, h0, for_range]

/-- For callbacks that leave the poll set alone, a cycle with enough fuel is `loop_cycle`. -/
theorem loop_cycle_reentrant_of_results (fuel : Nat) (env : NotifyEnv) (pr : PollResult)
    (priv : PollState) (h : priv.n_poll ≤ fuel) :
    loop_cycle_reentrant fuel (ReentrantEnv.of_results env) pr priv =
      some (loop_cycle env pr priv) := by
  have hpass : ∀ (pass : Pass)
      (select : SpaPollItem → Nat → (Nat → SpaPollFd) → Option NotifyCall)
      (st : PollState × List PollEvent), st.1.n_poll = priv.n_poll →
      notify_loop_reentrant (ReentrantEnv.of_results env) pass select fuel 0 st =
        some (notify_pass env pass select st) := by
    intro pass select st hst
    rw [notify_loop_reentrant_of_results env pass select fuel 0 st (by omega)]
    rfl
  have h1 := (notify_pass_frame env Pass.idle idle_call priv []).2.2.2.2.2
  have h2 := (loop_rebuild_frame (notify_pass env Pass.idle idle_call (priv, [])).1).2.1
  have h3 := (notify_pass_frame env Pass.before before_call
    (loop_rebuild (notify_pass env Pass.idle idle_call (priv, [])).1)
    (notify_pass env Pass.idle idle_call (priv, [])).2).2.2.2.2.2
  unfold loop_cycle_reentrant loop_cycle
  rw [hpass Pass.idle idle_call (priv, []) rfl]
  dsimp only
  rw [hpass Pass.before before_call _ (by dsimp only; rw [h2, h1])]
  dsimp only
  split_ifs
  · rfl
  · rfl
  · rfl
  · rfl
  · rw [hpass Pass.after after_call _
      (by dsimp only; rw [(poll_syscall_frame pr _).2.1, h3, h2, h1])]

/-! ## Theorems: stores behind the arrays of the private data -/

set_option maxRecDepth 100000

/-- C11, the code at a failing input.  The private data is constructed with eventfd 3: slot 0
of the pollfd array is fd 3 with events `POLLIN | POLLPRI | POLLERR` and the pollfd count is 1.
After 16 calls of `do_add_item` the 16 slots of `poll` are in use and slot 0 is as it was;
the 17th call stores its item in the bytes of `idx` and still leaves slot 0 alone.  The bytes
of `poll[17]` include those of `fds[0]`, so the 18th call, `priv->poll[17] = *item`, writes
slot 0: its fd becomes the upper half of the item's `fds` pointer, 0, and its events become
the low half of the item's `n_fds`, 2.  Slot 0 is no longer the wakeup eventfd. -/
theorem do_add_item_overwrites_wakeup_slot :
    fds_of_bytes ring_base bytes_start 0 = ⟨3, POLLIN ||| POLLPRI ||| POLLERR, 0⟩ ∧
      loadLE 4 bytes_start (addr_n_fds ring_base) = 1 ∧
      loadLE 4 (bytes_added 16) (addr_n_poll ring_base) = poll_slots ∧
      fds_of_bytes ring_base (bytes_added 16) 0 = ⟨3, POLLIN ||| POLLPRI ||| POLLERR, 0⟩ ∧
      addr_poll ring_base poll_slots = addr_idx ring_base 0 ∧
      loadLE 4 (bytes_added 16) (addr_idx ring_base 0) = 0 ∧
      loadLE 4 (bytes_added 17) (addr_idx ring_base 0) = 17 ∧
      fds_of_bytes ring_base (bytes_added 17) 0 = ⟨3, POLLIN ||| POLLPRI ||| POLLERR, 0⟩ ∧
      addr_poll ring_base 17 ≤ addr_fds ring_base 0 ∧
      addr_fds ring_base 0 + sizeof_SpaPollFd ≤ addr_poll ring_base 17 + sizeof_SpaPollItem ∧
      loadLE 8 bytes_start (caller_item + offsetof_item_fds) / 2 ^ 32 = 0 ∧
      loadLE 4 bytes_start (caller_item + offsetof_item_n_fds) % 2 ^ 16 = 2 ∧
      loadLE 4 (bytes_added 18) (addr_n_poll ring_base) = 18 ∧
      fds_of_bytes ring_base (bytes_added 18) 0 = ⟨0, 2, 0⟩ := by
  decide

/-- C12, the code at a failing input.  Two items with 16 fds each are added and get the ids
1 and 2; the counter is 2.  The rebuild step of `loop` copies their 32 fds to the slots 1 to
32 of the pollfd array; `fds[32]` lies behind the 32 slots, in the bytes of `n_fds` and
`counter`, so the store of the last fd, with events `POLLIN` and no returned events, leaves 1
in `counter`.  The next `do_add_item`, called on the loop thread before anything else writes
the private data, increments it and gives its item the id 2: the id of the second stored
item, which `do_add_item` has returned before.  The item count is 3, within the 16 slots. -/
theorem do_add_item_repeats_id :
    loadLE 4 wide_added (addr_n_poll ring_base) = 2 ∧
      (List.range 2).map (fun i => loadLE 4 wide_added (addr_poll ring_base i)) = [1, 2] ∧
      (List.range 2).map
          (fun i => loadLE 4 wide_added (addr_poll ring_base i + offsetof_item_n_fds)) =
        [16, 16] ∧
      loadLE 4 wide_added (addr_counter ring_base) = 2 ∧
      addr_fds ring_base fds_slots = addr_n_fds ring_base ∧
      addr_fds ring_base fds_slots + offsetof_fd_events = addr_counter ring_base ∧
      fds_of_bytes ring_base wide_rebuilt 31 = ⟨44, POLLIN, 0⟩ ∧
      loadLE 4 wide_rebuilt (addr_counter ring_base) = 1 ∧
      loadLE 4 wide_rebuilt (addr_n_poll ring_base) = 2 ∧
      (do_add_item_bytes ring_base wide_rebuilt true 0 0 0x30200).1 = SPA_RESULT_OK ∧
      loadLE 4 wide_third 0x30200 = 2 ∧
      (List.range 3).map (fun i => loadLE 4 wide_third (addr_poll ring_base i)) = [1, 2, 2] ∧
      loadLE 4 wide_third (addr_n_poll ring_base) = 3 := by
  decide

/-- C18, the code at a failing input.  16 items with two fds each are stored, all enabled,
and the rebuild flag is set: the claimed layout is a pollfd count of 1 + 32 = 33 and base
index 31 for the last item.  The rebuild step gives the item before the last base index 29
and stores the first fd of the last item in slot 31; its second fd goes to `fds[32]`, which
lies behind the 32 slots in the bytes of `n_fds` and `counter`.  So `n_fds` becomes the fd,
6, the base index recorded for the last item is 6, the pollfd count ends as 6 + 2 = 8, and
the id counter drops from 16 to 1. -/
theorem loop_rebuild_overwrites_n_fds :
    loadLE 4 (bytes_added 16) (addr_n_poll ring_base) = 16 ∧
      loadLE 1 (bytes_added 16) (addr_rebuild_fds ring_base) = 1 ∧
      (List.range 16).map
          (fun i =>
            (loadLE 1 (bytes_added 16) (addr_poll ring_base i + offsetof_item_enabled),
              loadLE 4 (bytes_added 16) (addr_poll ring_base i + offsetof_item_n_fds))) =
        List.replicate 16 (1, 2) ∧
      loadLE 4 (bytes_added 16) (addr_counter ring_base) = 16 ∧
      addr_fds ring_base fds_slots = addr_n_fds ring_base ∧
      addr_fds ring_base fds_slots + offsetof_fd_events = addr_counter ring_base ∧
      loadLE 4 (loop_rebuild_bytes ring_base (bytes_added 16)) (addr_idx ring_base 14) = 29 ∧
      fds_of_bytes ring_base (loop_rebuild_bytes ring_base (bytes_added 16)) 31 =
        ⟨5, POLLIN, 0⟩ ∧
      loadLE 4 (loop_rebuild_bytes ring_base (bytes_added 16)) (addr_idx ring_base 15) = 6 ∧
      loadLE 4 (loop_rebuild_bytes ring_base (bytes_added 16)) (addr_n_fds ring_base) = 8 ∧
      loadLE 4 (loop_rebuild_bytes ring_base (bytes_added 16)) (addr_counter ring_base) = 1 ∧
      loadLE 1 (loop_rebuild_bytes ring_base (bytes_added 16)) (addr_rebuild_fds ring_base) =
        0 := by
  decide

/-- C15, the code at a failing input.  The items with the ids 1 and 2 are stored, both
enabled.  In the before pass the callback of the item with id 1 removes its own item, on the
loop thread, and returns an error.  The removal shifts the item with id 2 to index 0, and
`loop` then stores `p->enabled = false` through the pointer to index 0 that it took before
the call: the item with id 2, whose callbacks never failed, is disabled, and its callbacks
are invoked neither in the rest of this cycle nor in the next.  When the callback fails
without removing its item, the before callback of the item with id 2 is invoked in the same
pass. -/
theorem loop_disables_item_behind_removed :
    poll_items pair_added = [{ item_one_fd 5 with id := 1 }, { item_other_fd with id := 2 }] ∧
      (loop_cycle_reentrant 16 env_removes_itself poll_first_fd pair_added).map
          (fun r => (poll_items r.1, r.2.1, r.2.2)) =
        some ([{ item_other_fd with id := 2, enabled := false }], [ev_before_removed],
          CycleEnd.after) ∧
      ((loop_cycle_reentrant 16 env_removes_itself poll_first_fd pair_added).bind
          (fun r => loop_cycle_reentrant 16 env_removes_itself poll_second_fd r.1)).map
          (fun r => (poll_items r.1, r.2.1, r.2.2)) =
        some ([{ item_other_fd with id := 2, enabled := false }], [], CycleEnd.after) ∧
      (loop_cycle_reentrant 16 (ReentrantEnv.of_results env_before_fails) poll_first_fd
          pair_added).map
          (fun r => (r.1.n_poll, r.2.1.map (fun e => (e.pass, e.index, e.id, e.result)))) =
        some (2, [(Pass.before, 0, 1, SPA_RESULT_ERROR), (Pass.before, 1, 2, SPA_RESULT_OK)]) := by
  refine ⟨by decide, by decide, by decide, by decide⟩

end Pinos
